import Mathlib

/-!
# Snapshot overlay KV and staged sync of erigon

A shallow embedding of the snapshot overlay (`ethdb/kv/kv_snapshot.go`: the store
`SnapshotKV`, the transaction `snTX`, the merged cursors `snCursor` and `snCursorDup`),
of stage progress and three stages (`eth/stagedsync`) and of two stage commands
(`cmd/integration/commands/stages.go`), followed by theorems about them.

Conventions of the embedding:

* a Go byte slice is an `Option (List Nat)`: `none` is the nil slice, `some []` an
  empty slice that is not nil;
* a Go method with a pointer receiver becomes a function that takes the receiver and
  returns the result together with the receiver after the call;
* a Go `for` loop whose number of rounds has no bound known in advance takes a fuel
  argument and returns `none` when the fuel does not suffice;
* where the closing of a snapshot store matters (`UpdateSnapshots`), the snapshot
  stores are objects held by pointer, and the goroutine that closes the old store is
  run to its end.
-/

namespace Erigon

/-! ## Byte slices -/

/-- Content of a byte slice. -/
abbrev Bytes := List Nat

/-- Go byte slice; `none` is the nil slice. -/
abbrev Slice := Option Bytes

/-- Go builtin `len` on a byte slice. -/
def len (s : Slice) : Nat :=
  match s with
  | none => 0
  | some b => b.length

/-- Go `bytes.Equal`: a nil slice equals an empty one. -/
def bytesEqual (a b : Slice) : Bool :=
  decide (a.getD [] = b.getD [])

/-- Go `bytes.Compare`: lexicographic, a nil slice is an empty one. -/
def bytesCompare (a b : Slice) : Int :=
  if a.getD [] < b.getD [] then -1
  else if a.getD [] = b.getD [] then 0
  else 1

/-- Tombstone of the overlay, `var DeletedValue = []byte{0}` (kv_snapshot.go:548). -/
def DeletedValue : Slice := some [0]

/-! ## Errors -/

/-- Error values that occur in kv_snapshot.go. -/
inductive Err where
  /-- `ErrUnavailableSnapshot` (kv_snapshot.go:239). -/
  | ErrUnavailableSnapshot
  /-- `ethdb.ErrKeyNotFound`. -/
  | ErrKeyNotFound
  /-- `fmt.Errorf("%s  %w", bucket, e)` (kv_snapshot.go:410). -/
  | wrapBucket (bucket : String) (e : Err)
  /-- `fmt.Errorf("get current from db %w inner %v", e, inner)` (kv_snapshot.go:632). -/
  | getCurrentFromDB (e inner : Err)
  /-- `fmt.Errorf("get current from snapshot %w inner %v", e, inner)` (kv_snapshot.go:642). -/
  | getCurrentFromSnapshot (e inner : Err)
  /-- `panic(err.Error())` (kv_snapshot.go:258, 302, 325). -/
  | panicked (e : Err)
  /-- Any error of the underlying store. -/
  | other (msg : String)
  deriving DecidableEq, Repr

/-- Go `errors.Is(e, ErrUnavailableSnapshot)`: follows the `%w` chain. -/
def isUnavailableSnapshot : Err → Bool
  | .ErrUnavailableSnapshot => true
  | .wrapBucket _ e => isUnavailableSnapshot e
  | .getCurrentFromDB e _ => isUnavailableSnapshot e
  | .getCurrentFromSnapshot e _ => isUnavailableSnapshot e
  | _ => false

/-- Go `errors.Is(e, ethdb.ErrKeyNotFound)`: follows the `%w` chain. -/
def isKeyNotFound : Err → Bool
  | .ErrKeyNotFound => true
  | .wrapBucket _ e => isKeyNotFound e
  | .getCurrentFromDB e _ => isKeyNotFound e
  | .getCurrentFromSnapshot e _ => isKeyNotFound e
  | _ => false

/-! ## Key comparison -/

/-- Modelled from the spec: `common.KeyCmp` is not among the sources. The merged cursor
returns "the smaller key", a side that is exhausted (nil key) loses against the surviving
side, and two nil keys end the merge (second component `true`). It is the forward mirror
of `KeyCmpBackward`, with a nil key after every key. -/
def KeyCmp (key1 key2 : Slice) : Int × Bool :=
  match key1, key2 with
  | none, none => (0, true)
  | none, some _ => (1, false)
  | some _, none => (-1, false)
  | some _, some _ => (bytesCompare key1 key2, false)

/-- `KeyCmpBackward` (kv_snapshot.go:876-887). -/
def KeyCmpBackward (key1 key2 : Slice) : Int × Bool :=
  if len key1 = 0 ∧ len key2 = 0 then (0, true)
  else if len key1 = 0 ∧ len key2 ≠ 0 then (-1, false)
  else if len key1 ≠ 0 ∧ len key2 = 0 then (1, false)
  else (bytesCompare key1 key2, false)

/-! ## The underlying ordered store (external KV contract) -/

/-- Content of one bucket of one store: entries in ascending key order. -/
abbrev Store := List (Bytes × Bytes)

/-- Keys strictly ascending: the store is ordered and holds each key once. -/
def Store.Sorted (s : Store) : Prop :=
  List.Pairwise (fun a b => a.1 < b.1) s

/-- Value stored under `key`, if any. -/
def Store.get (key : Bytes) : Store → Option Bytes
  | [] => none
  | e :: es => if key = e.1 then some e.2 else Store.get key es

/-- Modelled from the spec: `put` of the external KV ("straight write"): the value under
`k` is replaced, or the entry is inserted at its place in key order. -/
def Store.put (k v : Bytes) : Store → Store
  | [] => [(k, v)]
  | e :: es =>
    if k < e.1 then (k, v) :: e :: es
    else if k = e.1 then (k, v) :: es
    else e :: Store.put k v es

/-- Modelled from the spec: `append` of the external KV ("strictly increasing key"): the
entry is added at the end, refused when its key is not above the last key. -/
def Store.append (k v : Bytes) (s : Store) : Option Store :=
  match s.getLast? with
  | none => some [(k, v)]
  | some e => if e.1 < k then some (s ++ [(k, v)]) else none

/-- Modelled from the spec: `append-dup` of the external KV: the pair is added at the
end, refused when it is not above the last pair in (key, value) order. -/
def Store.appendDup (k v : Bytes) (s : Store) : Option Store :=
  match s.getLast? with
  | none => some [(k, v)]
  | some e => if e.1 < k ∨ (e.1 = k ∧ e.2 < v) then some (s ++ [(k, v)]) else none

/-- Index of the first entry whose key is at least `seek`. -/
def Store.seekIdx (seek : Bytes) : Store → Option Nat
  | [] => none
  | e :: es => if seek ≤ e.1 then some 0 else (Store.seekIdx seek es).map (· + 1)

/-- First entry whose key is at least `seek`. -/
def Store.seekEntry (seek : Bytes) : Store → Option (Bytes × Bytes)
  | [] => none
  | e :: es => if seek ≤ e.1 then some e else Store.seekEntry seek es

/-- Index of the entry whose key is `key`. -/
def Store.exactIdx (key : Bytes) : Store → Option Nat
  | [] => none
  | e :: es => if key = e.1 then some 0 else (Store.exactIdx key es).map (· + 1)

/-- Result of a cursor call, the Go triple `([]byte, []byte, error)`. -/
structure Res where
  k : Slice
  v : Slice
  err : Option Err
  deriving DecidableEq, Repr

/-- The triple `nil, nil, nil`. -/
def Res.nil : Res := ⟨none, none, none⟩

/-- The triple `nil, nil, err`. -/
def Res.fail (err : Err) : Res := ⟨none, none, some err⟩

/-- The methods of `ethdb.Cursor` and `ethdb.RwCursor` that kv_snapshot.go calls on its
two child cursors, over a cursor state `σ`. -/
structure CursorOps (σ : Type) where
  First : σ → Res × σ
  Last : σ → Res × σ
  Seek : Bytes → σ → Res × σ
  SeekExact : Bytes → σ → Res × σ
  Next : σ → Res × σ
  Prev : σ → Res × σ
  Current : σ → Res × σ
  Put : Bytes → Slice → σ → Option Err × σ
  Append : Bytes → Slice → σ → Option Err × σ

/-- Modelled from the spec: a cursor of the external ordered KV over one bucket: the
bucket content and the index of the entry the cursor stands on (`none` before it has
been positioned). -/
structure KvCursor where
  data : Store
  pos : Option Nat
  deriving DecidableEq, Repr

namespace KvCursor

/-- Entry at index `i`, as a cursor result. -/
def entry (c : KvCursor) (i : Nat) : Res :=
  match c.data[i]? with
  | some e => ⟨some e.1, some e.2, none⟩
  | none => Res.nil

/-- Modelled from the spec: `first` of the external KV cursor. -/
def First (c : KvCursor) : Res × KvCursor :=
  match c.data with
  | [] => (Res.nil, { c with pos := none })
  | _ :: _ => (c.entry 0, { c with pos := some 0 })

/-- Modelled from the spec: `last` of the external KV cursor. -/
def Last (c : KvCursor) : Res × KvCursor :=
  match c.data with
  | [] => (Res.nil, { c with pos := none })
  | _ :: _ => (c.entry (c.data.length - 1), { c with pos := some (c.data.length - 1) })

/-- Modelled from the spec: `seek(k)` of the external KV cursor, "returns smallest
key ≥ k". -/
def Seek (seek : Bytes) (c : KvCursor) : Res × KvCursor :=
  match c.data.seekIdx seek with
  | some i => (c.entry i, { c with pos := some i })
  | none => (Res.nil, { c with pos := none })

/-- Modelled from the spec: `seek-exact(k)` of the external KV cursor. -/
def SeekExact (key : Bytes) (c : KvCursor) : Res × KvCursor :=
  match c.data.exactIdx key with
  | some i => (c.entry i, { c with pos := some i })
  | none => (Res.nil, { c with pos := none })

/-- Modelled from the spec: `next` of the external KV cursor. A cursor that has not been
positioned goes to the first entry; a cursor on the last entry returns a nil key and
stays there ("pinned"). -/
def Next (c : KvCursor) : Res × KvCursor :=
  match c.pos with
  | none => c.First
  | some i =>
    if i + 1 < c.data.length then (c.entry (i + 1), { c with pos := some (i + 1) })
    else (Res.nil, c)

/-- Modelled from the spec: `prev` of the external KV cursor, the mirror of `next`. -/
def Prev (c : KvCursor) : Res × KvCursor :=
  match c.pos with
  | none => c.Last
  | some i =>
    if 0 < i then (c.entry (i - 1), { c with pos := some (i - 1) })
    else (Res.nil, c)

/-- Modelled from the spec: `current` of the external KV cursor; it fails on a cursor
that has not been positioned ("current returns error on empty bucket",
kv_snapshot.go:626). -/
def Current (c : KvCursor) : Res × KvCursor :=
  match c.pos with
  | none => (⟨some [], none, some (Err.other "no data")⟩, c)
  | some i => (c.entry i, c)

/-- Modelled from the spec: `put` through a cursor of the external KV. -/
def Put (k : Bytes) (v : Slice) (c : KvCursor) : Option Err × KvCursor :=
  (none, { data := c.data.put k (v.getD []), pos := (c.data.put k (v.getD [])).exactIdx k })

/-- Modelled from the spec: `append` through a cursor of the external KV. -/
def Append (k : Bytes) (v : Slice) (c : KvCursor) : Option Err × KvCursor :=
  match c.data.append k (v.getD []) with
  | some d => (none, { data := d, pos := some (d.length - 1) })
  | none => (some (Err.other "append out of order"), c)

end KvCursor

/-- The external KV cursor as an implementation of the cursor interface. -/
def kvOps : CursorOps KvCursor where
  First := KvCursor.First
  Last := KvCursor.Last
  Seek := KvCursor.Seek
  SeekExact := KvCursor.SeekExact
  Next := KvCursor.Next
  Prev := KvCursor.Prev
  Current := KvCursor.Current
  Put := KvCursor.Put
  Append := KvCursor.Append

/-- Modelled from the spec: a transaction of the external KV: the content of every
bucket. -/
structure KvTx where
  buckets : String → Store

namespace KvTx

/-- The transaction with bucket `bucket` replaced by `d`. -/
def setBucket (tx : KvTx) (bucket : String) (d : Store) : KvTx :=
  ⟨fun b => if b = bucket then d else tx.buckets b⟩

/-- Modelled from the spec: `GetOne` of the external KV transaction; nil when the key is
not stored. -/
def GetOne (tx : KvTx) (bucket : String) (key : Bytes) : Except Err Slice :=
  .ok ((tx.buckets bucket).get key)

/-- Modelled from the spec: `Has` of the external KV transaction. -/
def Has (tx : KvTx) (bucket : String) (key : Bytes) : Except Err Bool :=
  .ok ((tx.buckets bucket).get key).isSome

/-- Modelled from the spec: `Put` of the external KV transaction. -/
def Put (tx : KvTx) (bucket : String) (k : Bytes) (v : Slice) : Option Err × KvTx :=
  (none, tx.setBucket bucket ((tx.buckets bucket).put k (v.getD [])))

/-- Modelled from the spec: `Append` of the external KV transaction. -/
def Append (tx : KvTx) (bucket : String) (k : Bytes) (v : Slice) : Option Err × KvTx :=
  match (tx.buckets bucket).append k (v.getD []) with
  | some d => (none, tx.setBucket bucket d)
  | none => (some (Err.other "append out of order"), tx)

/-- Modelled from the spec: `AppendDup` of the external KV transaction. -/
def AppendDup (tx : KvTx) (bucket : String) (k : Bytes) (v : Slice) : Option Err × KvTx :=
  match (tx.buckets bucket).appendDup k (v.getD []) with
  | some d => (none, tx.setBucket bucket d)
  | none => (some (Err.other "append out of order"), tx)

/-- Modelled from the spec: `Cursor`, `RwCursor` and `CursorDupSort` of the external KV
transaction: a cursor over the bucket, not positioned yet. -/
def Cursor (tx : KvTx) (bucket : String) : Except Err KvCursor :=
  .ok { data := tx.buckets bucket, pos := none }

end KvTx

/-! ## The merged cursor `snCursor` -/

/-- `snCursor` (kv_snapshot.go:550-555): the hot cursor, the snapshot cursor and the last
key saved by `saveCurrent`. -/
structure snCursor (σ : Type) where
  dbCursor : σ
  /-- The field `snCursor` of the source, renamed: it is the name of the type here. -/
  sndbCursor : σ
  currentKey : Slice

namespace snCursor

variable {σ : Type}

/-- `snCursor.saveCurrent` (kv_snapshot.go:870-874). -/
def saveCurrent (s : snCursor σ) (k : Slice) : snCursor σ :=
  match k with
  | none => s
  | some b => { s with currentKey := some b }

/-- `snCursor.First` (kv_snapshot.go:557-579). -/
def First (ops : CursorOps σ) (s : snCursor σ) : Res × snCursor σ :=
  let (db, c1) := ops.First s.dbCursor
  let s1 := { s with dbCursor := c1 }
  match db.err with
  | some err => (Res.fail err, s1)
  | none =>
    let (sn, c2) := ops.First s1.sndbCursor
    let s2 := { s1 with sndbCursor := c2 }
    match sn.err with
    | some err => (Res.fail err, s2)
    | none =>
      let (cmp, br) := KeyCmp db.k sn.k
      if br then (Res.nil, s2)
      else if cmp ≤ 0 then (⟨db.k, db.v, none⟩, s2.saveCurrent db.k)
      else (⟨sn.k, sn.v, none⟩, s2.saveCurrent sn.k)

/-- `snCursor.Seek` (kv_snapshot.go:581-604). -/
def Seek (ops : CursorOps σ) (seek : Bytes) (s : snCursor σ) : Res × snCursor σ :=
  let (db, c1) := ops.Seek seek s.dbCursor
  let s1 := { s with dbCursor := c1 }
  match db.err.filter (fun e => !isKeyNotFound e) with
  | some err => (Res.fail err, s1)
  | none =>
    let (sn, c2) := ops.Seek seek s1.sndbCursor
    let s2 := { s1 with sndbCursor := c2 }
    match sn.err.filter (fun e => !isKeyNotFound e) with
    | some err => (Res.fail err, s2)
    | none =>
      if bytesEqual db.k (some seek) ∧ db.v ≠ none then (⟨db.k, db.v, sn.err⟩, s2)
      else if bytesEqual sn.k (some seek) ∧ sn.v ≠ none then (⟨sn.k, sn.v, sn.err⟩, s2)
      else if (KeyCmp db.k sn.k).1 ≤ 0 then (⟨db.k, db.v, none⟩, s2.saveCurrent db.k)
      else (⟨sn.k, sn.v, none⟩, s2.saveCurrent sn.k)

/-- `snCursor.SeekExact` (kv_snapshot.go:606-621). -/
def SeekExact (ops : CursorOps σ) (key : Bytes) (s : snCursor σ) : Res × snCursor σ :=
  let (db, c1) := ops.SeekExact key s.dbCursor
  let s1 := { s with dbCursor := c1 }
  match db.err with
  | some err => (Res.fail err, s1)
  | none =>
    if bytesEqual db.v DeletedValue then (Res.nil, s1)
    else if db.v = none then
      let (sn, c2) := ops.SeekExact key s1.sndbCursor
      let s2 := { s1 with sndbCursor := c2 }
      (sn, s2.saveCurrent sn.k)
    else (db, s1.saveCurrent db.k)

/-- The start of `snCursor.iteration` (kv_snapshot.go:627-635 for the hot cursor, 637-645
for the snapshot cursor): the child's `Current`, or, when that fails, its next element.
The flag is `noDBNext` (`noSnDBNext`); a result with an error is returned by
`iteration` at once. -/
def probe (ops : CursorOps σ) (nextElement : σ → Res × σ) (wrap : Err → Err → Err)
    (c : σ) : Res × Bool × σ :=
  let (cur, c1) := ops.Current c
  match cur.err with
  | none => (cur, false, c1)
  | some err =>
    let (nx, c2) := nextElement c1
    match nx.err with
    | some innerErr => (Res.fail (wrap err innerErr), false, c2)
    | none => (nx, true, c2)

/-- The end of `snCursor.iteration` (kv_snapshot.go:699-707): the entry of the side that
is ahead under `cmpFunc`, the hot one on a tie. -/
def pick (cmpFunc : Slice → Slice → Int × Bool) (db sn : Res) : Res :=
  let (cmp, br) := cmpFunc db.k sn.k
  if br then Res.nil
  else if cmp ≤ 0 then ⟨db.k, db.v, none⟩
  else ⟨sn.k, sn.v, none⟩

/-- `snCursor.iteration` (kv_snapshot.go:623-708). -/
def iteration (ops : CursorOps σ) (s : snCursor σ)
    (dbNextElement sndbNextElement : σ → Res × σ)
    (cmpFunc : Slice → Slice → Int × Bool) : Res × snCursor σ :=
  let (lastDB, noDBNext, c1) := probe ops dbNextElement Err.getCurrentFromDB s.dbCursor
  let s1 := { s with dbCursor := c1 }
  match lastDB.err with
  | some err => (Res.fail err, s1)
  | none =>
    let (lastSNDB, noSnDBNext, c2) :=
      probe ops sndbNextElement Err.getCurrentFromSnapshot s1.sndbCursor
    let s2 := { s1 with sndbCursor := c2 }
    match lastSNDB.err with
    | some err => (Res.fail err, s2)
    | none =>
      let (cmp, br) := cmpFunc lastDB.k lastSNDB.k
      if br then (Res.nil, s2)
      else if cmp > 0 then
        if !noSnDBNext then
          let (sn, c3) := sndbNextElement s2.sndbCursor
          let s3 := { s2 with sndbCursor := c3 }
          match sn.err with
          | some err => (Res.fail err, s3)
          | none =>
            if len sn.k = 0 ∧ (KeyCmp s3.currentKey lastDB.k).1 ≥ 0 ∧ len s3.currentKey > 0 then
              let (db, c4) := dbNextElement s3.dbCursor
              let s4 := { s3 with dbCursor := c4 }
              match db.err with
              | some err => (Res.fail err, s4)
              | none => (pick cmpFunc db sn, s4)
            else (pick cmpFunc lastDB sn, s3)
        else (pick cmpFunc lastDB lastSNDB, s2)
      else if cmp < 0 then
        if !noDBNext then
          let (db, c3) := dbNextElement s2.dbCursor
          let s3 := { s2 with dbCursor := c3 }
          match db.err with
          | some err => (Res.fail err, s3)
          | none =>
            if len db.k = 0 ∧ (KeyCmp s3.currentKey lastSNDB.k).1 ≥ 0 ∧ len s3.currentKey > 0 then
              let (sn, c4) := sndbNextElement s3.sndbCursor
              let s4 := { s3 with sndbCursor := c4 }
              match sn.err with
              | some err => (Res.fail err, s4)
              | none => (pick cmpFunc db sn, s4)
            else (pick cmpFunc db lastSNDB, s3)
        else (pick cmpFunc lastDB lastSNDB, s2)
      else
        let (db, c3) := if !noDBNext then dbNextElement s2.dbCursor else (lastDB, s2.dbCursor)
        let s3 := { s2 with dbCursor := c3 }
        match db.err with
        | some err => (Res.fail err, s3)
        | none =>
          let (sn, c4) :=
            if !noSnDBNext then sndbNextElement s3.sndbCursor else (lastSNDB, s3.sndbCursor)
          let s4 := { s3 with sndbCursor := c4 }
          match sn.err with
          | some err => (Res.fail err, s4)
          | none => (pick cmpFunc db sn, s4)

/-- The `for bytes.Equal(v, DeletedValue)` loop of `snCursor.Next` and its two last
lines (kv_snapshot.go:715-723), entered with the result `r` of the previous `iteration`.
Each round of the loop takes one unit of fuel; `none` when the fuel runs out. -/
def skipDeleted (ops : CursorOps σ) : Nat → Res → snCursor σ → Option (Res × snCursor σ)
  | fuel, r, s =>
    if bytesEqual r.v DeletedValue then
      match fuel with
      | 0 => none
      | fuel + 1 =>
        let (r1, s1) := s.iteration ops ops.Next ops.Next KeyCmp
        match r1.err with
        | some err => some (Res.fail err, s1)
        | none => skipDeleted ops fuel r1 s1
    else some (⟨r.k, r.v, none⟩, s.saveCurrent r.k)

/-- `snCursor.Next` (kv_snapshot.go:710-724); `none` when the loop has not ended within
`fuel` rounds. -/
def Next (ops : CursorOps σ) (fuel : Nat) (s : snCursor σ) : Option (Res × snCursor σ) :=
  let (r, s1) := s.iteration ops ops.Next ops.Next KeyCmp
  match r.err with
  | some err => some (Res.fail err, s1)
  | none => skipDeleted ops fuel r s1

/-- `snCursor.Put` (kv_snapshot.go:778-780). -/
def Put (ops : CursorOps σ) (k : Bytes) (v : Slice) (s : snCursor σ) :
    Option Err × snCursor σ :=
  let (err, c) := ops.Put k v s.dbCursor
  (err, { s with dbCursor := c })

/-- `snCursor.Append` (kv_snapshot.go:782-784). -/
def Append (ops : CursorOps σ) (k : Bytes) (v : Slice) (s : snCursor σ) :
    Option Err × snCursor σ :=
  let (err, c) := ops.Append k v s.dbCursor
  (err, { s with dbCursor := c })

/-- `snCursor.Delete` (kv_snapshot.go:786-788). -/
def Delete (ops : CursorOps σ) (k : Bytes) (_v : Slice) (s : snCursor σ) :
    Option Err × snCursor σ :=
  let (err, c) := ops.Put k DeletedValue s.dbCursor
  (err, { s with dbCursor := c })

/-- The entries a caller sees when it calls `Next` while the key returned is not nil,
starting from the result `r` of the call before: at most `steps` calls of `Next`, each
with `fuel` rounds for its loop. `none` when a call runs out of fuel, when an error is
returned, or when `steps` calls do not reach a nil key. -/
def collect (ops : CursorOps σ) (fuel : Nat) :
    Nat → Res → snCursor σ → Option (List (Bytes × Slice))
  | steps, r, s =>
    match r.err, r.k with
    | some _, _ => none
    | none, none => some []
    | none, some k =>
      match steps with
      | 0 => none
      | steps + 1 =>
        match s.Next ops fuel with
        | none => none
        | some (r1, s1) => (collect ops fuel steps r1 s1).map (fun l => (k, r.v) :: l)

/-- The walk `for k, v := c.First(); k != nil; k, v = c.Next()`: the list of the entries
returned before the first nil key. -/
def walkForward (ops : CursorOps σ) (fuel steps : Nat) (s : snCursor σ) :
    Option (List (Bytes × Slice)) :=
  let (r, s1) := s.First ops
  collect ops fuel steps r s1

end snCursor

/-- A merged cursor over the hot bucket content `hot` and the snapshot bucket content
`snap`, as `snTX.Cursor` builds it: neither child positioned, no key saved. -/
def mergedCursor (hot snap : Store) : snCursor KvCursor :=
  { dbCursor := { data := hot, pos := none }
    sndbCursor := { data := snap, pos := none }
    currentKey := none }

/-! ## The overlay transaction `snTX` -/

namespace dbutils

/-- Modelled from the spec: the bucket-name constants of package `dbutils` are not among
the sources; the names are those of the routing table of the spec. -/
def HeadersBucket : String := "Headers"

/-- Modelled from the spec: bucket-name constant of package `dbutils`. -/
def BlockBodyPrefix : String := "BlockBody"

/-- Modelled from the spec: bucket-name constant of package `dbutils`. -/
def EthTx : String := "EthTx"

/-- Modelled from the spec: bucket-name constant of package `dbutils`. -/
def PlainStateBucket : String := "PlainState"

/-- Modelled from the spec: bucket-name constant of package `dbutils`. -/
def PlainContractCodeBucket : String := "PlainContractCode"

/-- Modelled from the spec: bucket-name constant of package `dbutils`. -/
def CodeBucket : String := "Code"

end dbutils

/-- `snTX` (kv_snapshot.go:241-246): the hot transaction and the read transactions of the
snapshots; `none` is the nil interface of a snapshot that is not configured. -/
structure snTX where
  dbTX : KvTx
  headersTX : Option KvTx
  bodiesTX : Option KvTx
  stateTX : Option KvTx

/-- `snCursorDup` (kv_snapshot.go:803-807). -/
structure snCursorDup (σ : Type) where
  dbCursorDup : σ
  sndbCursorDup : σ
  cursor : snCursor σ

/-- What `snTX.Cursor` and `snTX.RwCursor` return: the cursor of the hot transaction
itself, or a merged cursor. -/
inductive CursorHandle where
  | db (c : KvCursor)
  | merged (c : snCursor KvCursor)

/-- What `snTX.CursorDupSort` returns: the dup-sort cursor of the hot transaction itself,
or a merged dup-sort cursor. -/
inductive CursorDupHandle where
  | db (c : KvCursor)
  | merged (c : snCursorDup KvCursor)

namespace snTX

/-- The `switch bucket` of `snTX.getSnapshotTX` (kv_snapshot.go:400-408): the variable
`tx` after it, nil for a bucket that no case names. -/
def routedTX (s : snTX) (bucket : String) : Option KvTx :=
  if bucket = dbutils.HeadersBucket then s.headersTX
  else if bucket = dbutils.BlockBodyPrefix ∨ bucket = dbutils.EthTx then s.bodiesTX
  else if bucket = dbutils.PlainStateBucket ∨ bucket = dbutils.PlainContractCodeBucket
      ∨ bucket = dbutils.CodeBucket then s.stateTX
  else none

/-- `snTX.getSnapshotTX` (kv_snapshot.go:399-413). -/
def getSnapshotTX (s : snTX) (bucket : String) : Except Err KvTx :=
  match s.routedTX bucket with
  | none => .error (Err.wrapBucket bucket Err.ErrUnavailableSnapshot)
  | some tx => .ok tx

/-- `snTX.Cursor` (kv_snapshot.go:299-320). -/
def Cursor (s : snTX) (bucket : String) : Except Err CursorHandle :=
  match s.getSnapshotTX bucket with
  | .error err =>
    if !isUnavailableSnapshot err then .error (Err.panicked err)
    else (s.dbTX.Cursor bucket).map CursorHandle.db
  | .ok tx =>
    match s.dbTX.Cursor bucket with
    | .error err => .error err
    | .ok dbCursor =>
      match tx.Cursor bucket with
      | .error err => .error err
      | .ok snCursor2 =>
        .ok (CursorHandle.merged
          { dbCursor := dbCursor, sndbCursor := snCursor2, currentKey := none })

/-- `snTX.RwCursor` (kv_snapshot.go:255-277). -/
def RwCursor (s : snTX) (bucket : String) : Except Err CursorHandle :=
  match s.getSnapshotTX bucket with
  | .error err =>
    if !isUnavailableSnapshot err then .error (Err.panicked err)
    else (s.dbTX.Cursor bucket).map CursorHandle.db
  | .ok tx =>
    match s.dbTX.Cursor bucket with
    | .error err => .error err
    | .ok dbCursor =>
      match tx.Cursor bucket with
      | .error err => .error err
      | .ok snCursor2 =>
        .ok (CursorHandle.merged
          { dbCursor := dbCursor, sndbCursor := snCursor2, currentKey := none })

/-- `snTX.CursorDupSort` (kv_snapshot.go:322-347). -/
def CursorDupSort (s : snTX) (bucket : String) : Except Err CursorDupHandle :=
  match s.getSnapshotTX bucket with
  | .error err =>
    if !isUnavailableSnapshot err then .error (Err.panicked err)
    else (s.dbTX.Cursor bucket).map CursorDupHandle.db
  | .ok tx =>
    match s.dbTX.Cursor bucket with
    | .error err => .error err
    | .ok dbc =>
      match tx.Cursor bucket with
      | .error err => .error err
      | .ok sncbc =>
        .ok (CursorDupHandle.merged
          { dbCursorDup := dbc, sndbCursorDup := sncbc,
            cursor := { dbCursor := dbc, sndbCursor := sncbc, currentKey := none } })

/-- `snTX.GetOne` (kv_snapshot.go:356-380). -/
def GetOne (s : snTX) (bucket : String) (key : Bytes) : Except Err Slice :=
  match s.dbTX.GetOne bucket key with
  | .error err => .error err
  | .ok v =>
    if len v = 0 then
      match s.getSnapshotTX bucket with
      | .error innerErr =>
        if !isUnavailableSnapshot innerErr then .error innerErr
        else .ok v
      | .ok snTx =>
        match snTx.GetOne bucket key with
        | .error err => .error err
        | .ok v1 =>
          if bytesEqual v1 DeletedValue then .ok none
          else .ok v1
    else .ok v

/-- `snTX.Has` (kv_snapshot.go:415-441). -/
def Has (s : snTX) (bucket : String) (key : Bytes) : Except Err Bool :=
  match s.dbTX.Has bucket key with
  | .error err => .error err
  | .ok v =>
    if !v then
      match s.getSnapshotTX bucket with
      | .error err =>
        if !isUnavailableSnapshot err then .error err
        else .ok v
      | .ok snTx =>
        match snTx.GetOne bucket key with
        | .error err => .error err
        | .ok v1 =>
          if bytesEqual v1 DeletedValue then .ok false
          else .ok true
    else .ok v

/-- `snTX.Put` (kv_snapshot.go:382). -/
def Put (s : snTX) (bucket : String) (k : Bytes) (v : Slice) : Option Err × snTX :=
  let (err, tx) := s.dbTX.Put bucket k v
  (err, { s with dbTX := tx })

/-- `snTX.Append` (kv_snapshot.go:383-385). -/
def Append (s : snTX) (bucket : String) (k : Bytes) (v : Slice) : Option Err × snTX :=
  let (err, tx) := s.dbTX.Append bucket k v
  (err, { s with dbTX := tx })

/-- `snTX.AppendDup` (kv_snapshot.go:386-388). -/
def AppendDup (s : snTX) (bucket : String) (k : Bytes) (v : Slice) : Option Err × snTX :=
  let (err, tx) := s.dbTX.AppendDup bucket k v
  (err, { s with dbTX := tx })

/-- `snTX.Delete` (kv_snapshot.go:389-391). -/
def Delete (s : snTX) (bucket : String) (k : Bytes) (_v : Slice) : Option Err × snTX :=
  let (err, tx) := s.dbTX.Put bucket k DeletedValue
  (err, { s with dbTX := tx })

end snTX

/-! ## The merged view the spec compares the overlay with -/

/-- The merged view in the words of the spec: every `(k, hot[k])` whose value is not the
tombstone, together with every `(k, snap[k])` with `k` not in `hot`, sorted by `k`. -/
def mergedView (hot snap : Store) : Store :=
  List.insertionSort (fun a b => a.1 ≤ b.1)
    (hot.filter (fun e => !bytesEqual (some e.2) DeletedValue)
      ++ snap.filter (fun e => (Store.get e.1 hot).isNone))

/-- The value the merged view holds under `k` when tombstones are left aside: the value
of the hot store when it holds `k`, else the value of the snapshot. -/
def overlayGet (hot snap : Store) (k : Bytes) : Option Bytes :=
  match hot.get k with
  | some v => some v
  | none => snap.get k

/-- What a seek in the merged view has to return, said of a cursor result `r`: no error;
a nil key when no key of either store is at least `seek`; otherwise the least key of the
two stores that is at least `seek`, with the value of `overlayGet`. -/
def SeekPost (hot snap : Store) (seek : Bytes) (r : Res) : Prop :=
  r.err = none
    ∧ ((∀ e ∈ hot ++ snap, e.1 < seek) → r.k = none)
    ∧ ((∃ e ∈ hot ++ snap, seek ≤ e.1) →
        ∃ k, r.k = some k ∧ seek ≤ k ∧ (∃ e ∈ hot ++ snap, e.1 = k)
          ∧ (∀ e ∈ hot ++ snap, seek ≤ e.1 → k ≤ e.1)
          ∧ r.v = overlayGet hot snap k)

/-- A transaction over buckets that are empty except for `bucket`, which holds `d`. -/
def KvTx.single (bucket : String) (d : Store) : KvTx :=
  ⟨fun b => if b = bucket then d else []⟩

/-- A hot-only bucket name used in examples. -/
def otherBucket : String := "SyncStageProgress"

/-- An overlay transaction whose state snapshot is configured: the hot store holds `hot`
in bucket PlainState, the state snapshot holds `snap` there. -/
def stateOverlay (hot snap : Store) : snTX :=
  { dbTX := KvTx.single dbutils.PlainStateBucket hot
    headersTX := none
    bodiesTX := none
    stateTX := some (KvTx.single dbutils.PlainStateBucket snap) }

/-- An overlay transaction without any snapshot: the hot store holds `hot` in `bucket`. -/
def hotOverlay (bucket : String) (hot : Store) : snTX :=
  { dbTX := KvTx.single bucket hot, headersTX := none, bodiesTX := none, stateTX := none }

/-! ## The merged cursor, backward walk and `Current` -/

namespace snCursor

variable {σ : Type}

/-- `snCursor.Last` (kv_snapshot.go:747-768). -/
def Last (ops : CursorOps σ) (s : snCursor σ) : Res × snCursor σ :=
  let (sn, c1) := ops.Last s.sndbCursor
  let s1 := { s with sndbCursor := c1 }
  match sn.err with
  | some err => (Res.fail err, s1)
  | none =>
    let (db, c2) := ops.Last s1.dbCursor
    let s2 := { s1 with dbCursor := c2 }
    match db.err with
    | some err => (Res.fail err, s2)
    | none =>
      let (cmp, br) := KeyCmpBackward db.k sn.k
      if br then (Res.nil, s2)
      else if cmp ≥ 0 then (⟨db.k, db.v, none⟩, s2.saveCurrent db.k)
      else (⟨sn.k, sn.v, none⟩, s2.saveCurrent sn.k)

/-- The comparison function that `snCursor.Prev` hands to `iteration`
(kv_snapshot.go:727-730): `KeyCmpBackward` with the sign turned. -/
def backwardCmp (kdb ksndb : Slice) : Int × Bool :=
  let (cmp, br) := KeyCmpBackward kdb ksndb
  (-1 * cmp, br)

/-- The `for` loop of `snCursor.Prev` and its two last lines (kv_snapshot.go:734-744),
entered with the result `r` of the previous `iteration`: it goes on while the value is
the tombstone or the key is not before the saved key. Each round takes one unit of fuel;
`none` when the fuel runs out. -/
def skipBackward (ops : CursorOps σ) : Nat → Res → snCursor σ → Option (Res × snCursor σ)
  | fuel, r, s =>
    if bytesEqual r.v DeletedValue ∨ (KeyCmpBackward r.k s.currentKey).1 ≥ 0 then
      match fuel with
      | 0 => none
      | fuel + 1 =>
        let (r1, s1) := s.iteration ops ops.Prev ops.Prev backwardCmp
        match r1.err with
        | some err => some (Res.fail err, s1)
        | none => skipBackward ops fuel r1 s1
    else some (⟨r.k, r.v, none⟩, s.saveCurrent r.k)

/-- `snCursor.Prev` (kv_snapshot.go:726-745); `none` when the loop has not ended within
`fuel` rounds. -/
def Prev (ops : CursorOps σ) (fuel : Nat) (s : snCursor σ) : Option (Res × snCursor σ) :=
  let (r, s1) := s.iteration ops ops.Prev ops.Prev backwardCmp
  match r.err with
  | some err => some (Res.fail err, s1)
  | none => skipBackward ops fuel r s1

/-- `snCursor.Current` (kv_snapshot.go:770-776). -/
def Current (ops : CursorOps σ) (s : snCursor σ) : Res × snCursor σ :=
  let (db, c1) := ops.Current s.dbCursor
  let s1 := { s with dbCursor := c1 }
  if bytesEqual db.k s1.currentKey then (db, s1)
  else
    let (sn, c2) := ops.Current s1.sndbCursor
    (sn, { s1 with sndbCursor := c2 })

/-- The entries a caller sees when it calls `Prev` while the key returned is not nil,
starting from the result `r` of the call before: at most `steps` calls of `Prev`, each
with `fuel` rounds for its loop. `none` when a call runs out of fuel, when an error is
returned, or when `steps` calls do not reach a nil key. -/
def collectBackward (ops : CursorOps σ) (fuel : Nat) :
    Nat → Res → snCursor σ → Option (List (Bytes × Slice))
  | steps, r, s =>
    match r.err, r.k with
    | some _, _ => none
    | none, none => some []
    | none, some k =>
      match steps with
      | 0 => none
      | steps + 1 =>
        match s.Prev ops fuel with
        | none => none
        | some (r1, s1) =>
          (collectBackward ops fuel steps r1 s1).map (fun l => (k, r.v) :: l)

/-- The walk `for k, v := c.Last(); k != nil; k, v = c.Prev()`: the list of the entries
returned before the first nil key. -/
def walkBackward (ops : CursorOps σ) (fuel steps : Nat) (s : snCursor σ) :
    Option (List (Bytes × Slice)) :=
  let (r, s1) := s.Last ops
  collectBackward ops fuel steps r s1

end snCursor

/-! ## The merged dup-sort cursor `snCursorDup` -/

/-- The methods of `ethdb.CursorDupSort` that kv_snapshot.go calls on its two child
cursors, over a cursor state `σ`. -/
structure DupOps (σ : Type) where
  SeekBothExact : Bytes → Bytes → σ → Res × σ
  SeekBothRange : Bytes → Bytes → σ → (Slice × Option Err) × σ

/-- Index of the first entry with key `key` and a value at least `value`. -/
def Store.bothRangeIdx (key value : Bytes) : Store → Option Nat
  | [] => none
  | e :: es =>
    if e.1 = key ∧ value ≤ e.2 then some 0
    else (Store.bothRangeIdx key value es).map (· + 1)

/-- Index of the entry with key `key` and value `value`. -/
def Store.bothExactIdx (key value : Bytes) : Store → Option Nat
  | [] => none
  | e :: es =>
    if e.1 = key ∧ e.2 = value then some 0
    else (Store.bothExactIdx key value es).map (· + 1)

/-- Modelled from the spec: `seek-both-range(k,v)` of the external dup-sort cursor, over a
bucket that may hold several values under one key, in (key, value) order: the first
value under `key` that is at least `value`, nil when there is none. -/
def KvCursor.SeekBothRange (key value : Bytes) (c : KvCursor) :
    (Slice × Option Err) × KvCursor :=
  match c.data.bothRangeIdx key value with
  | some i => (((c.entry i).v, none), { c with pos := some i })
  | none => ((none, none), { c with pos := none })

/-- Modelled from the spec: `seek-both-exact(k,v)` of the external dup-sort cursor. -/
def KvCursor.SeekBothExact (key value : Bytes) (c : KvCursor) : Res × KvCursor :=
  match c.data.bothExactIdx key value with
  | some i => (c.entry i, { c with pos := some i })
  | none => (Res.nil, { c with pos := none })

/-- The external dup-sort cursor as an implementation of the dup-sort interface. -/
def kvDupOps : DupOps KvCursor where
  SeekBothExact := KvCursor.SeekBothExact
  SeekBothRange := KvCursor.SeekBothRange

namespace snCursorDup

variable {σ : Type}

/-- The merged dup-sort cursor after its hot child moved to `d`: in the source the child
of the embedded `snCursor` is the same object as `dbCursorDup`. -/
def setDb (c : snCursorDup σ) (d : σ) : snCursorDup σ :=
  { c with dbCursorDup := d, cursor := { c.cursor with dbCursor := d } }

/-- The merged dup-sort cursor after its snapshot child moved to `d`. -/
def setSn (c : snCursorDup σ) (d : σ) : snCursorDup σ :=
  { c with sndbCursorDup := d, cursor := { c.cursor with sndbCursor := d } }

/-- `snCursorDup.SeekBothExact` (kv_snapshot.go:809-822). -/
def SeekBothExact (dops : DupOps σ) (key value : Bytes) (c : snCursorDup σ) :
    Res × snCursorDup σ :=
  let (db, d1) := dops.SeekBothExact key value c.dbCursorDup
  let c1 := c.setDb d1
  match db.err with
  | some err => (Res.fail err, c1)
  | none =>
    if db.v = none then
      let (sn, d2) := dops.SeekBothExact key value c1.sndbCursorDup
      let c2 := c1.setSn d2
      (sn, { c2 with cursor := c2.cursor.saveCurrent sn.k })
    else (db, { c1 with cursor := c1.cursor.saveCurrent db.k })

/-- `snCursorDup.SeekBothRange` (kv_snapshot.go:824-840). -/
def SeekBothRange (dops : DupOps σ) (key value : Bytes) (c : snCursorDup σ) :
    (Slice × Option Err) × snCursorDup σ :=
  let (db, d1) := dops.SeekBothRange key value c.dbCursorDup
  let c1 := c.setDb d1
  match db.2 with
  | some err => ((none, some err), c1)
  | none =>
    let (sn, d2) := dops.SeekBothRange key value c1.sndbCursorDup
    let c2 := c1.setSn d2
    match sn.2 with
    | some err => ((none, some err), c2)
    | none =>
      if db.1 = none then
        ((db.1, none), { c2 with cursor := c2.cursor.saveCurrent (some key) })
      else ((sn.1, none), c2)

end snCursorDup

/-- A merged dup-sort cursor over the hot bucket content `hot` and the snapshot bucket
content `snap`, as `snTX.CursorDupSort` builds it. -/
def mergedDupCursor (hot snap : Store) : snCursorDup KvCursor :=
  { dbCursorDup := { data := hot, pos := none }
    sndbCursorDup := { data := snap, pos := none }
    cursor := mergedCursor hot snap }

/-! ## The overlay store `SnapshotKV` and the life of its transactions -/

/-- The four stores behind the overlay. -/
inductive StoreId where
  | db
  | headers
  | bodies
  | state
  deriving DecidableEq, Repr

/-- A call that opens or ends a transaction of one of the external stores. A `beginTx`
is recorded when the store has opened the transaction; `commitTx` and `rollbackTx` are
recorded when `Commit` or `Rollback` is called on it. -/
inductive TxEvent where
  | beginTx (t : StoreId)
  | commitTx (t : StoreId)
  | rollbackTx (t : StoreId)
  deriving DecidableEq, Repr

/-- Modelled from the spec: what the external stores answer to the calls that may fail:
the error, if any, of `BeginRo`/`BeginRw` on each store and of `Commit` on the hot
transaction. -/
structure KvFaults where
  beginDb : Option Err
  beginHeaders : Option Err
  beginBodies : Option Err
  beginState : Option Err
  commitDb : Option Err

/-- No external call fails. -/
def KvFaults.none : KvFaults := ⟨Option.none, Option.none, Option.none, Option.none, Option.none⟩

/-- `SnapshotKV` (kv_snapshot.go:75-81): the committed content of the hot store and the
content of each configured snapshot store; `none` is a nil snapshot. The mutex is not
part of the embedding. -/
structure SnapshotKV where
  db : KvTx
  headersSnapshot : Option KvTx
  bodiesSnapshot : Option KvTx
  stateSnapshot : Option KvTx

/-- One block `if s.xSnapshot != nil { xTX, err = s.xSnapshot.BeginRo(ctx); ... }` of
`snapsthotsTx` (kv_snapshot.go:179-196): the read transaction, which sees the content of
the store, or the error of `BeginRo`. -/
def beginSnapshot (snap : Option KvTx) (fault : Option Err) (t : StoreId) :
    Except Err (Option KvTx) × List TxEvent :=
  match snap with
  | none => (.ok none, [])
  | some kv =>
    match fault with
    | some err => (.error err, [])
    | none => (.ok (some kv), [TxEvent.beginTx t])

/-- One block `if xTX != nil { xTX.Rollback() }`. -/
def rollbackIfOpen (tx : Option KvTx) (t : StoreId) : List TxEvent :=
  match tx with
  | some _ => [TxEvent.rollbackTx t]
  | none => []

namespace SnapshotKV

/-- `SnapshotKV.snapsthotsTx` (kv_snapshot.go:163-198), with the calls it makes. -/
def snapsthotsTx (s : SnapshotKV) (fl : KvFaults) :
    Except Err (Option KvTx × Option KvTx × Option KvTx) × List TxEvent :=
  match beginSnapshot s.headersSnapshot fl.beginHeaders StoreId.headers with
  | (.error err, ev1) => (.error err, ev1)
  | (.ok headersTX, ev1) =>
    match beginSnapshot s.bodiesSnapshot fl.beginBodies StoreId.bodies with
    | (.error err, ev2) =>
      (.error err, ev1 ++ ev2 ++ rollbackIfOpen headersTX StoreId.headers)
    | (.ok bodiesTX, ev2) =>
      match beginSnapshot s.stateSnapshot fl.beginState StoreId.state with
      | (.error err, ev3) =>
        (.error err, ev1 ++ ev2 ++ ev3 ++ rollbackIfOpen headersTX StoreId.headers
          ++ rollbackIfOpen bodiesTX StoreId.bodies)
      | (.ok stateTX, ev3) => (.ok (headersTX, bodiesTX, stateTX), ev1 ++ ev2 ++ ev3)

/-- `SnapshotKV.BeginRo` (kv_snapshot.go:199-214), with the calls it makes. -/
def BeginRo (s : SnapshotKV) (fl : KvFaults) : Except Err snTX × List TxEvent :=
  match fl.beginDb with
  | some err => (.error err, [])
  | none =>
    match s.snapsthotsTx fl with
    | (.error err, ev) => (.error err, TxEvent.beginTx StoreId.db :: ev)
    | (.ok (headersTX, bodiesTX, stateTX), ev) =>
      (.ok { dbTX := s.db, headersTX := headersTX, bodiesTX := bodiesTX, stateTX := stateTX },
        TxEvent.beginTx StoreId.db :: ev)

/-- `SnapshotKV.BeginRw` (kv_snapshot.go:216-233), with the calls it makes. -/
def BeginRw (s : SnapshotKV) (fl : KvFaults) : Except Err snTX × List TxEvent :=
  match fl.beginDb with
  | some err => (.error err, [])
  | none =>
    match s.snapsthotsTx fl with
    | (.error err, ev) => (.error err, TxEvent.beginTx StoreId.db :: ev)
    | (.ok (headersTX, bodiesTX, stateTX), ev) =>
      (.ok { dbTX := s.db, headersTX := headersTX, bodiesTX := bodiesTX, stateTX := stateTX },
        TxEvent.beginTx StoreId.db :: ev)

end SnapshotKV

namespace snTX

/-- `snTX.snapshotsRollback` (kv_snapshot.go:504-514): the deferred rollbacks run in the
reverse of the order in which they were deferred. -/
def snapshotsRollback (s : snTX) : List TxEvent :=
  rollbackIfOpen s.stateTX StoreId.state ++ rollbackIfOpen s.bodiesTX StoreId.bodies
    ++ rollbackIfOpen s.headersTX StoreId.headers

/-- `snTX.Commit` (kv_snapshot.go:500-503): the result of the hot commit, which the
external store gives (`commitDb`), and the calls made. -/
def Commit (s : snTX) (commitDb : Option Err) : Option Err × List TxEvent :=
  (commitDb, TxEvent.commitTx StoreId.db :: s.snapshotsRollback)

/-- `snTX.Rollback` (kv_snapshot.go:515-518): the calls made. -/
def Rollback (s : snTX) : List TxEvent :=
  TxEvent.rollbackTx StoreId.db :: s.snapshotsRollback

end snTX

/-- `SnapshotKV.Update` (kv_snapshot.go:92-104): the error returned, the overlay after
the call and the calls made. `f` is the caller's function: it returns its error and the
transaction with the writes it made. A commit that succeeds makes the content of the hot
transaction the content of the hot store; the deferred `Rollback` of a transaction that
has been committed changes nothing. -/
def SnapshotKV.Update (s : SnapshotKV) (fl : KvFaults) (f : snTX → Option Err × snTX) :
    Option Err × SnapshotKV × List TxEvent :=
  match s.BeginRw fl with
  | (.error err, ev) => (some err, s, ev)
  | (.ok tx, ev) =>
    let (err, tx1) := f tx
    match err with
    | none =>
      let (cerr, ev1) := tx1.Commit fl.commitDb
      match cerr with
      | none => (none, { s with db := tx1.dbTX }, ev ++ ev1 ++ tx1.Rollback)
      | some e => (some e, s, ev ++ ev1 ++ tx1.Rollback)
    | some e => (some e, s, ev ++ tx1.Rollback)

/-! ## Stage progress (`eth/stagedsync`) -/

namespace stages

/-- Modelled from the spec: the reserved bucket `SyncStageProgress`; package `stages` is
not among the sources. -/
def SyncStageProgress : String := "SyncStageProgress"

/-- Modelled from the spec: the stage ID `Execution`. -/
def Execution : String := "Execution"

/-- Modelled from the spec: the stage ID `TxLookup`. -/
def TxLookup : String := "TxLookup"

/-- Modelled from the spec: the key of a stage in the progress bucket, "key = stage ID
(ASCII)". -/
def stageKey (stage : String) : Bytes :=
  stage.toList.map Char.toNat

/-- Modelled from the spec: the value of a stage in the progress bucket, "8-byte
big-endian block number" of a 64-bit number. -/
def marshalData (blockNumber : Nat) : Bytes :=
  [blockNumber / 72057594037927936 % 256, blockNumber / 281474976710656 % 256,
    blockNumber / 1099511627776 % 256, blockNumber / 4294967296 % 256,
    blockNumber / 16777216 % 256, blockNumber / 65536 % 256,
    blockNumber / 256 % 256, blockNumber % 256]

/-- Modelled from the spec: reading a progress value: "missing key returns 0", otherwise
the big-endian number in the first 8 bytes; a value shorter than that is refused. -/
def unmarshalData (data : Slice) : Except Err Nat :=
  if len data = 0 then .ok 0
  else if len data < 8 then .error (Err.other "value must be at least 8 bytes")
  else .ok (((data.getD []).take 8).foldl (fun acc b => acc * 256 + b) 0)

/-- Modelled from the spec: `save(stage, n)`: "writes the big-endian 8-byte value". -/
def SaveStageProgress (db : KvTx) (stage : String) (progress : Nat) : Option Err × KvTx :=
  db.Put SyncStageProgress (stageKey stage) (some (marshalData progress))

/-- Modelled from the spec: `get(stage)`: "reads a big-endian 8-byte value from the
reserved progress bucket; missing key returns 0". -/
def GetStageProgress (db : KvTx) (stage : String) : Except Err Nat :=
  match db.GetOne SyncStageProgress (stageKey stage) with
  | .error err => .error err
  | .ok v => unmarshalData v

end stages

/-- `StageState` (stage.go:41-45), without the back pointer to the `Sync`. -/
structure StageState where
  ID : String
  BlockNumber : Nat

/-- `StageState.Update` (stage.go:50-52). -/
def StageState.Update (s : StageState) (db : KvTx) (newBlockNum : Nat) : Option Err × KvTx :=
  stages.SaveStageProgress db s.ID newBlockNum

/-- `StageState.ExecutionAt` (stage.go:55-58). -/
def StageState.ExecutionAt (_s : StageState) (db : KvTx) : Except Err Nat :=
  stages.GetStageProgress db stages.Execution

/-- `UnwindState` (stage.go:67-75), without the bad block hash and the back pointer to
the `Sync`. -/
structure UnwindState where
  ID : String
  UnwindPoint : Nat
  CurrentBlockNumber : Nat

/-- `UnwindState.Done` (stage.go:80-82). -/
def UnwindState.Done (u : UnwindState) (db : KvTx) : Option Err × KvTx :=
  stages.SaveStageProgress db u.ID u.UnwindPoint

/-- Modelled from the spec: the store `cfg.db` (an `ethdb.RwKV`) on which a stage opens
its own transaction: its committed content and the error, if any, that `BeginRw` and
`Commit` answer. -/
structure RwKV where
  content : KvTx
  beginErr : Option Err
  commitErr : Option Err

/-- The first lines of the stage functions: `useExternalTx := tx != nil` and, without an
external transaction, `tx, err = cfg.db.BeginRw(ctx)`. -/
def stageTx (tx : Option KvTx) (db : RwKV) : Except Err KvTx :=
  match tx with
  | some t => .ok t
  | none =>
    match db.beginErr with
    | some err => .error err
    | none => .ok db.content

/-- The last lines of the stage functions: `if !useExternalTx { tx.Commit() }` and
`return nil`. The result is the error, the external transaction after the call (`none`
when the stage used its own) and the store after the call. -/
def stageCommit (tx : Option KvTx) (t : KvTx) (db : RwKV) (wrap : Err → Err) :
    Option Err × Option KvTx × RwKV :=
  match tx with
  | some _ => (none, some t, db)
  | none =>
    match db.commitErr with
    | some err => (some (wrap err), none, db)
    | none => (none, none, { db with content := t })

/-- What a stage function returns when it fails after `t` was reached: the external
transaction keeps the writes made so far, the stage's own transaction is rolled back. -/
def stageFail (tx : Option KvTx) (t : KvTx) (db : RwKV) (err : Err) :
    Option Err × Option KvTx × RwKV :=
  (some err, tx.map (fun _ => t), db)

/-- `UnwindBlockHashStage` (stage_blockhashes.go:88-109). -/
def UnwindBlockHashStage (u : UnwindState) (tx : Option KvTx) (db : RwKV) :
    Option Err × Option KvTx × RwKV :=
  match stageTx tx db with
  | .error err => (some err, tx, db)
  | .ok t =>
    let (err, t1) := u.Done t
    match err with
    | some _ => stageFail tx t1 db (Err.other "reset")
    | none => stageCommit tx t1 db (fun _ => Err.other "failed to write db commit")

/-- `UnwindBodiesSnapshotGenerationStage` (stage_bodies_snapshot.go:33-52). -/
def UnwindBodiesSnapshotGenerationStage (s : UnwindState) (tx : Option KvTx) (db : RwKV) :
    Option Err × Option KvTx × RwKV :=
  match stageTx tx db with
  | .error err => (some err, tx, db)
  | .ok t =>
    let (err, t1) := s.Done t
    match err with
    | some e => stageFail tx t1 db e
    | none => stageCommit tx t1 db id

/-- `UnwindTxLookup` (stage_txlookup.go:100-126). `unwindTxLookup` stands for the function
of that name (stage_txlookup.go:128-173) applied to the transaction: it works through the
etl collector, rlp and rawdb, which are not among the sources. -/
def UnwindTxLookup (u : UnwindState) (s : StageState) (tx : Option KvTx) (db : RwKV)
    (unwindTxLookup : KvTx → Option Err × KvTx) : Option Err × Option KvTx × RwKV :=
  if s.BlockNumber ≤ u.UnwindPoint then (none, tx, db)
  else
    match stageTx tx db with
    | .error err => (some err, tx, db)
    | .ok t =>
      let (err, t1) := unwindTxLookup t
      match err with
      | some e => stageFail tx t1 db e
      | none =>
        let (err, t2) := u.Done t1
        match err with
        | some e => stageFail tx t2 db e
        | none => stageCommit tx t2 db id

/-- The transaction content in which the progress is persisted after a stage function
returned `(err, tx, db)`: the external transaction when there is one, else the store. -/
def persisted (r : Option Err × Option KvTx × RwKV) : KvTx :=
  match r.2.1 with
  | some t => t
  | none => r.2.2.content

/-- The choice `first` makes in the words of the spec, between the results `db` and `sn`
of the two children: a nil key is an empty child; "return the smaller key", and the hot
entry when both keys are the same. -/
def smallerEntry (db sn : Res) : Res :=
  match db.k, sn.k with
  | none, none => Res.nil
  | some _, none => ⟨db.k, db.v, none⟩
  | none, some _ => ⟨sn.k, sn.v, none⟩
  | some a, some b => if a ≤ b then ⟨db.k, db.v, none⟩ else ⟨sn.k, sn.v, none⟩

/-- The choice `last` makes in the words of the spec: the "mirror of `first`", the larger
key, "prefer hot on tie". -/
def largerEntry (db sn : Res) : Res :=
  match db.k, sn.k with
  | none, none => Res.nil
  | some _, none => ⟨db.k, db.v, none⟩
  | none, some _ => ⟨sn.k, sn.v, none⟩
  | some a, some b => if b ≤ a then ⟨db.k, db.v, none⟩ else ⟨sn.k, sn.v, none⟩

/-- The saved key after a call that returned key `k`: `k` when it is not nil, else the
key saved before. -/
def savedKey (before k : Slice) : Slice :=
  match k with
  | some b => some b
  | none => before

/-! ## Forward stages and the stage commands (`cmd/integration/commands/stages.go`) -/

/-- Go subtraction of two `uint64`: it wraps around modulo 2^64. -/
def uint64Sub (a b : Nat) : Nat :=
  (a + 2 ^ 64 - b % 2 ^ 64) % 2 ^ 64

/-- Modelled from the spec: `dbutils.EncodeBlockNumber` is not among the sources; it is
the 8-byte big-endian form of a block number, as in the progress bucket. -/
def dbutils.EncodeBlockNumber (number : Nat) : Bytes :=
  stages.marshalData number

/-- Modelled from the spec: the stage ID `Bodies`. -/
def stages.Bodies : String := "Bodies"

/-- `SpawnTxLookup` (stage_txlookup.go:34-72). `TxLookupTransform` stands for the function
of that name (stage_txlookup.go:74-98) applied to the start key, the end key and the
transaction: it works through `etl.Transform` and rawdb, which are not among the
sources. -/
def SpawnTxLookup (s : StageState) (tx : Option KvTx) (db : RwKV)
    (TxLookupTransform : Bytes → Bytes → KvTx → Option Err × KvTx) :
    Option Err × Option KvTx × RwKV :=
  match stageTx tx db with
  | .error err => (some err, tx, db)
  | .ok t =>
    let blockNum := if s.BlockNumber > 0 then (s.BlockNumber + 1) % 2 ^ 64 else 0
    match s.ExecutionAt t with
    | .error err => stageFail tx t db err
    | .ok syncHeadNumber =>
      let startKey := dbutils.EncodeBlockNumber blockNum
      let (err, t1) := TxLookupTransform startKey (dbutils.EncodeBlockNumber syncHeadNumber) t
      match err with
      | some e => stageFail tx t1 db e
      | none =>
        let (err, t2) := s.Update t1 syncHeadNumber
        match err with
        | some e => stageFail tx t2 db e
        | none => stageCommit tx t2 db id

/-- Modelled from the spec: `Update` of an `ethdb.RwKV`, as `SnapshotKV.Update`
(kv_snapshot.go:92-104) does it: begin a write transaction, run `f`, commit when `f`
returns nil, roll back otherwise. -/
def RwKV.Update (db : RwKV) (f : KvTx → Option Err × KvTx) : Option Err × RwKV :=
  match db.beginErr with
  | some err => (some err, db)
  | none =>
    let (err, t) := f db.content
    match err with
    | some e => (some e, db)
    | none =>
      match db.commitErr with
      | some e => (some e, db)
      | none => (none, { db with content := t })

/-- Modelled from the spec: `Commit` of a write transaction with content `t` that was
begun on the store: the content becomes the content of the store unless the commit
fails. -/
def RwKV.commit (db : RwKV) (t : KvTx) : Option Err × RwKV :=
  match db.commitErr with
  | some e => (some e, db)
  | none => (none, { db with content := t })

/-- `stageBodies` (stages.go:342-365); `unwind` is the value of the flag `--unwind`. -/
def stageBodies (db : RwKV) (unwind : Nat) : Option Err × RwKV :=
  db.Update (fun tx =>
    if unwind > 0 then
      match stages.GetStageProgress tx stages.Bodies with
      | .error _ => (some (Err.other "read Bodies progress"), tx)
      | .ok progress =>
        if unwind > progress then (some (Err.other "cannot unwind past 0"), tx)
        else
          let (err, tx1) :=
            stages.SaveStageProgress tx stages.Bodies (uint64Sub progress unwind)
          match err with
          | some _ => (some (Err.other "saving Bodies progress failed"), tx1)
          | none =>
            match stages.GetStageProgress tx1 stages.Bodies with
            | .error _ => (some (Err.other "re-read Bodies progress"), tx1)
            | .ok _ => (none, tx1)
    else (none, tx))

/-- Modelled from the spec: `stage(sync, tx, id)` (stages.go:844-850) builds "a StageState
from persisted progress" through `Sync.StageState`, which is not among the sources, and
panics on an error. -/
def stage (tx : KvTx) (id : String) : Except Err StageState :=
  match stages.GetStageProgress tx id with
  | .error err => .error (Err.panicked err)
  | .ok blockNum => .ok { ID := id, BlockNumber := blockNum }

/-- Modelled from the spec: `Sync.NewUnwindState(id, unwindPoint, currentProgress)`, the
constructor of the unwind state ("UnwindState{id, U, P, B}"). -/
def NewUnwindState (id : String) (unwindPoint currentProgress : Nat) : UnwindState :=
  { ID := id, UnwindPoint := unwindPoint, CurrentBlockNumber := currentProgress }

/-- `stageTxLookup` (stages.go:654-689); `unwind` and `reset` are the values of the
flags `--unwind` and `--reset`. `resetTxLookup`, `TxLookupTransform` and `unwindTxLookup`
stand for the functions of these names applied to the transaction. -/
def stageTxLookup (db : RwKV) (unwind : Nat) (reset : Bool)
    (resetTxLookup : KvTx → Option Err × KvTx)
    (TxLookupTransform : Bytes → Bytes → KvTx → Option Err × KvTx)
    (unwindTxLookup : KvTx → Option Err × KvTx) : Option Err × RwKV :=
  match db.beginErr with
  | some err => (some err, db)
  | none =>
    let tx := db.content
    if reset then
      let (err, tx1) := resetTxLookup tx
      match err with
      | some e => (some e, db)
      | none => db.commit tx1
    else
      match stage tx stages.TxLookup with
      | .error err => (some err, db)
      | .ok s =>
        let r :=
          if unwind > 0 then
            UnwindTxLookup (NewUnwindState stages.TxLookup (uint64Sub s.BlockNumber unwind)
              s.BlockNumber) s (some tx) db unwindTxLookup
          else SpawnTxLookup s (some tx) db TxLookupTransform
        match r.1 with
        | some e => (some e, db)
        | none => db.commit (persisted r)

/-! ## Walks of the overlay transaction: `ForEach`, `ForPrefix`, `ForAmount` -/

/-- Go `bytes.HasPrefix`. -/
def bytesHasPrefix (k pfx : Bytes) : Bool :=
  pfx.isPrefixOf k

/-- The loop of `snTX.ForEach` (kv_snapshot.go:450-458) over a cursor with state `τ`,
entered with the result `r` of `Seek`: the error returned and the entries the walker was
called with, in order. `next` is the cursor's `Next`; `none` when `steps` rounds do not
end the loop or `next` runs out of fuel. -/
def forEachLoop {τ : Type} (next : τ → Option (Res × τ)) (walker : Bytes → Slice → Option Err) :
    Nat → Res → τ → Option (Option Err × List (Bytes × Slice))
  | steps, r, c =>
    match r.k with
    | none => some (none, [])
    | some k =>
      match r.err with
      | some err => some (some err, [])
      | none =>
        match walker k r.v with
        | some err => some (some err, [(k, r.v)])
        | none =>
          match steps with
          | 0 => none
          | steps + 1 =>
            match next c with
            | none => none
            | some (r1, c1) =>
              (forEachLoop next walker steps r1 c1).map (fun p => (p.1, (k, r.v) :: p.2))

/-- The loop of `snTX.ForPrefix` (kv_snapshot.go:468-479). -/
def forPrefixLoop {τ : Type} (next : τ → Option (Res × τ)) (pfx : Bytes)
    (walker : Bytes → Slice → Option Err) :
    Nat → Res → τ → Option (Option Err × List (Bytes × Slice))
  | steps, r, c =>
    match r.k with
    | none => some (none, [])
    | some k =>
      match r.err with
      | some err => some (some err, [])
      | none =>
        if !bytesHasPrefix k pfx then some (none, [])
        else
          match walker k r.v with
          | some err => some (some err, [(k, r.v)])
          | none =>
            match steps with
            | 0 => none
            | steps + 1 =>
              match next c with
              | none => none
              | some (r1, c1) =>
                (forPrefixLoop next pfx walker steps r1 c1).map
                  (fun p => (p.1, (k, r.v) :: p.2))

/-- The loop of `snTX.ForAmount` (kv_snapshot.go:488-497); `amount` is a `uint32`. -/
def forAmountLoop {τ : Type} (next : τ → Option (Res × τ))
    (walker : Bytes → Slice → Option Err) :
    Nat → Nat → Res → τ → Option (Option Err × List (Bytes × Slice))
  | steps, amount, r, c =>
    match r.k with
    | none => some (none, [])
    | some k =>
      if amount > 0 then
        match r.err with
        | some err => some (some err, [])
        | none =>
          match walker k r.v with
          | some err => some (some err, [(k, r.v)])
          | none =>
            match steps with
            | 0 => none
            | steps + 1 =>
              match next c with
              | none => none
              | some (r1, c1) =>
                (forAmountLoop next walker steps (amount - 1) r1 c1).map
                  (fun p => (p.1, (k, r.v) :: p.2))
      else some (none, [])

namespace snCursor

variable {σ : Type}

/-- `snTX.ForEach` (kv_snapshot.go:443-459) from the point where the cursor is a merged
cursor `c`. -/
def ForEach (ops : CursorOps σ) (fuel steps : Nat) (fromPrefix : Bytes)
    (walker : Bytes → Slice → Option Err) (c : snCursor σ) :
    Option (Option Err × List (Bytes × Slice)) :=
  let (r, c1) := c.Seek ops fromPrefix
  forEachLoop (fun x => x.Next ops fuel) walker steps r c1

/-- `snTX.ForPrefix` (kv_snapshot.go:461-480) from the point where the cursor is a merged
cursor `c`. -/
def ForPrefix (ops : CursorOps σ) (fuel steps : Nat) (pfx : Bytes)
    (walker : Bytes → Slice → Option Err) (c : snCursor σ) :
    Option (Option Err × List (Bytes × Slice)) :=
  let (r, c1) := c.Seek ops pfx
  forPrefixLoop (fun x => x.Next ops fuel) pfx walker steps r c1

/-- `snTX.ForAmount` (kv_snapshot.go:481-498) from the point where the cursor is a merged
cursor `c`. -/
def ForAmount (ops : CursorOps σ) (fuel steps : Nat) (fromPrefix : Bytes) (amount : Nat)
    (walker : Bytes → Slice → Option Err) (c : snCursor σ) :
    Option (Option Err × List (Bytes × Slice)) :=
  let (r, c1) := c.Seek ops fromPrefix
  forAmountLoop (fun x => x.Next ops fuel) walker steps amount r c1

end snCursor

namespace snTX

/-- `snTX.ForEach` (kv_snapshot.go:443-459). -/
def ForEach (s : snTX) (fuel steps : Nat) (bucket : String) (fromPrefix : Bytes)
    (walker : Bytes → Slice → Option Err) : Option (Option Err × List (Bytes × Slice)) :=
  match s.Cursor bucket with
  | .error err => some (some err, [])
  | .ok (CursorHandle.db c) =>
    let (r, c1) := kvOps.Seek fromPrefix c
    forEachLoop (fun x => some (kvOps.Next x)) walker steps r c1
  | .ok (CursorHandle.merged c) => c.ForEach kvOps fuel steps fromPrefix walker

/-- `snTX.ForPrefix` (kv_snapshot.go:461-480). -/
def ForPrefix (s : snTX) (fuel steps : Nat) (bucket : String) (pfx : Bytes)
    (walker : Bytes → Slice → Option Err) : Option (Option Err × List (Bytes × Slice)) :=
  match s.Cursor bucket with
  | .error err => some (some err, [])
  | .ok (CursorHandle.db c) =>
    let (r, c1) := kvOps.Seek pfx c
    forPrefixLoop (fun x => some (kvOps.Next x)) pfx walker steps r c1
  | .ok (CursorHandle.merged c) => c.ForPrefix kvOps fuel steps pfx walker

/-- `snTX.ForAmount` (kv_snapshot.go:481-498). -/
def ForAmount (s : snTX) (fuel steps : Nat) (bucket : String) (fromPrefix : Bytes)
    (amount : Nat) (walker : Bytes → Slice → Option Err) :
    Option (Option Err × List (Bytes × Slice)) :=
  match s.Cursor bucket with
  | .error err => some (some err, [])
  | .ok (CursorHandle.db c) =>
    let (r, c1) := kvOps.Seek fromPrefix c
    forAmountLoop (fun x => some (kvOps.Next x)) walker steps amount r c1
  | .ok (CursorHandle.merged c) => c.ForAmount kvOps fuel steps fromPrefix amount walker

end snTX

/-- A child cursor of a store that fails: every call returns the error `ioErr`. -/
def failingOps (ioErr : Err) : CursorOps Unit where
  First := fun c => (Res.fail ioErr, c)
  Last := fun c => (Res.fail ioErr, c)
  Seek := fun _ c => (Res.fail ioErr, c)
  SeekExact := fun _ c => (Res.fail ioErr, c)
  Next := fun c => (Res.fail ioErr, c)
  Prev := fun c => (Res.fail ioErr, c)
  Current := fun c => (Res.fail ioErr, c)
  Put := fun _ _ c => (some ioErr, c)
  Append := fun _ _ c => (some ioErr, c)

/-! ## `extractHeaders` (`eth/stagedsync/stage_blockhashes.go`) -/

/-- Modelled from the spec: `common.CopyBytes` is not among the sources; a copy of a
slice has its content, and the copy of nil is nil. -/
def CopyBytes (b : Slice) : Slice := b

/-- `extractHeaders` (stage_blockhashes.go:16-22): the error returned and the calls of
`next`, each with its three arguments (original key, key, value). -/
def extractHeaders (k : Slice) (_v : Slice) (next : Slice → Slice → Slice → Option Err) :
    Option Err × List (Slice × Slice × Slice) :=
  if len k ≠ 40 then (none, [])
  else
    (next k (CopyBytes (some ((k.getD []).drop 8))) (CopyBytes (some ((k.getD []).take 8))),
      [(k, CopyBytes (some ((k.getD []).drop 8)), CopyBytes (some ((k.getD []).take 8)))])

/-- A transaction whose progress bucket holds the given progress of the given stages and
nothing else. -/
def progressTx (l : List (String × Nat)) : KvTx :=
  l.foldl (fun t p => (stages.SaveStageProgress t p.1 p.2).2) (KvTx.single otherBucket [])

/-- A store that holds the given progress of the given stages and whose `BeginRw` and
`Commit` do not fail. -/
def progressStore (l : List (String × Nat)) : RwKV :=
  { content := progressTx l, beginErr := none, commitErr := none }

/-! ## Snapshot stores as objects, and `UpdateSnapshots` -/

/-- Modelled from the spec: a snapshot store of the external KV (`ethdb.RoKV`) as an
object with a life: its content, the number of read transactions begun on it and not
ended yet, whether `Close` has been called on it, and whether it is shut. Nothing can be
read from a store that is shut. -/
structure RoKV where
  content : KvTx
  openTxs : Nat
  closing : Bool
  shut : Bool

namespace RoKV

/-- Modelled from the spec: `Close` of a snapshot store of the external KV. "In-flight
transactions that still hold the old store keep it alive": closing is put off "until no
transaction holds it", so the store is shut at once only when no transaction is open on
it. -/
def Close (kv : RoKV) : RoKV :=
  { kv with closing := true, shut := kv.shut || decide (kv.openTxs = 0) }

/-- Modelled from the spec: `BeginRo` of a snapshot store of the external KV: refused
once `Close` has been called on the store; otherwise one more transaction is open. -/
def BeginRo (kv : RoKV) : Option Err × RoKV :=
  if kv.closing = true ∨ kv.shut = true then (some (Err.other "store is closed"), kv)
  else (none, { kv with openTxs := kv.openTxs + 1 })

/-- Modelled from the spec: `Rollback` of a read transaction of the store: one open
transaction fewer; when `Close` has been called, the last transaction to end shuts the
store. -/
def Rollback (kv : RoKV) : RoKV :=
  { kv with
    openTxs := kv.openTxs - 1
    shut := kv.shut || (kv.closing && decide (kv.openTxs ≤ 1)) }

end RoKV

/-- A pointer to a snapshot store object. -/
abbrev StorePtr := Nat

/-- The snapshot store objects, by pointer. -/
structure StoreHeap where
  get : StorePtr → RoKV

namespace StoreHeap

/-- The heap with the object at `p` replaced by `kv`. -/
def set (heap : StoreHeap) (p : StorePtr) (kv : RoKV) : StoreHeap :=
  ⟨fun q => if q = p then kv else heap.get q⟩

/-- One block `if s.xSnapshot != nil { xTX, err = s.xSnapshot.BeginRo(ctx); ... }` of
`snapsthotsTx` (kv_snapshot.go:179-196) on the store objects: the store the read
transaction is open on, or the error of `BeginRo`. -/
def beginRo (heap : StoreHeap) (snap : Option StorePtr) :
    Except Err (Option StorePtr) × StoreHeap :=
  match snap with
  | none => (.ok none, heap)
  | some p =>
    match (heap.get p).BeginRo with
    | (some err, _) => (.error err, heap)
    | (none, kv) => (.ok (some p), heap.set p kv)

/-- One block `if xTX != nil { xTX.Rollback() }` on the store objects. -/
def rollback (heap : StoreHeap) (tx : Option StorePtr) : StoreHeap :=
  match tx with
  | some p => heap.set p (heap.get p).Rollback
  | none => heap

/-- Modelled from the spec: what a read transaction on the store at `p` reads from: the
content of the store while the store is alive, an error once the store is shut. -/
def readTx (heap : StoreHeap) (p : StorePtr) : Except Err KvTx :=
  if (heap.get p).shut = true then .error (Err.other "store is closed")
  else .ok (heap.get p).content

/-- The same for a transaction that may be nil. -/
def readTxOpt (heap : StoreHeap) (tx : Option StorePtr) : Except Err (Option KvTx) :=
  match tx with
  | none => .ok none
  | some p =>
    match heap.readTx p with
    | .error err => .error err
    | .ok t => .ok (some t)

/-- Whether the store of a transaction, if there is one, has a transaction open on it
and is not shut. -/
def openAt (heap : StoreHeap) (tx : Option StorePtr) : Bool :=
  match tx with
  | none => true
  | some p => decide (0 < (heap.get p).openTxs) && !(heap.get p).shut

end StoreHeap

/-- `SnapshotKV` (kv_snapshot.go:75-81) with its snapshot stores as the Go struct holds
them, by pointer; `none` is a nil snapshot. The hot store is its committed content, as
in `SnapshotKV`. The mutex is not part of the embedding. -/
structure SnapshotKVRefs where
  db : KvTx
  headersSnapshot : Option StorePtr
  bodiesSnapshot : Option StorePtr
  stateSnapshot : Option StorePtr

/-- `snTX` (kv_snapshot.go:241-246) with each snapshot read transaction given by the store
object it is open on. -/
structure snTXRefs where
  dbTX : KvTx
  headersTX : Option StorePtr
  bodiesTX : Option StorePtr
  stateTX : Option StorePtr

namespace SnapshotKVRefs

/-- `SnapshotKV.snapsthotsTx` (kv_snapshot.go:163-198) on the store objects. -/
def snapsthotsTx (s : SnapshotKVRefs) (heap : StoreHeap) :
    Except Err (Option StorePtr × Option StorePtr × Option StorePtr) × StoreHeap :=
  match heap.beginRo s.headersSnapshot with
  | (.error err, h1) => (.error err, h1)
  | (.ok headersTX, h1) =>
    match h1.beginRo s.bodiesSnapshot with
    | (.error err, h2) => (.error err, h2.rollback headersTX)
    | (.ok bodiesTX, h2) =>
      match h2.beginRo s.stateSnapshot with
      | (.error err, h3) => (.error err, (h3.rollback headersTX).rollback bodiesTX)
      | (.ok stateTX, h3) => (.ok (headersTX, bodiesTX, stateTX), h3)

/-- `SnapshotKV.BeginRo` (kv_snapshot.go:199-214) on the store objects; `beginDb` is the
error, if any, of `BeginRo` on the hot store. -/
def BeginRo (s : SnapshotKVRefs) (heap : StoreHeap) (beginDb : Option Err) :
    Except Err snTXRefs × StoreHeap :=
  match beginDb with
  | some err => (.error err, heap)
  | none =>
    match s.snapsthotsTx heap with
    | (.error err, h) => (.error err, h)
    | (.ok (headersTX, bodiesTX, stateTX), h) =>
      (.ok { dbTX := s.db, headersTX := headersTX, bodiesTX := bodiesTX, stateTX := stateTX },
        h)

/-- `SnapshotKV.BeginRw` (kv_snapshot.go:216-233) on the store objects; `beginDb` is the
error, if any, of `BeginRw` on the hot store. -/
def BeginRw (s : SnapshotKVRefs) (heap : StoreHeap) (beginDb : Option Err) :
    Except Err snTXRefs × StoreHeap :=
  match beginDb with
  | some err => (.error err, heap)
  | none =>
    match s.snapsthotsTx heap with
    | (.error err, h) => (.error err, h)
    | (.ok (headersTX, bodiesTX, stateTX), h) =>
      (.ok { dbTX := s.db, headersTX := headersTX, bodiesTX := bodiesTX, stateTX := stateTX },
        h)

end SnapshotKVRefs

namespace snTXRefs

/-- The composite transaction as its reads see it with the store objects as they are:
the hot transaction and the content of each store a snapshot transaction is open on; an
error when one of these stores is shut. -/
def view (t : snTXRefs) (heap : StoreHeap) : Except Err snTX :=
  match heap.readTxOpt t.headersTX with
  | .error err => .error err
  | .ok headersTX =>
    match heap.readTxOpt t.bodiesTX with
    | .error err => .error err
    | .ok bodiesTX =>
      match heap.readTxOpt t.stateTX with
      | .error err => .error err
      | .ok stateTX =>
        .ok { dbTX := t.dbTX, headersTX := headersTX, bodiesTX := bodiesTX, stateTX := stateTX }

/-- `snTX.GetOne` of a composite transaction with the store objects as they are. -/
def GetOne (t : snTXRefs) (heap : StoreHeap) (bucket : String) (key : Bytes) :
    Except Err Slice :=
  match t.view heap with
  | .error err => .error err
  | .ok tx => tx.GetOne bucket key

/-- Whether every snapshot transaction of the composite transaction is counted as open by
its store, and the store is not shut. -/
def isOpen (t : snTXRefs) (heap : StoreHeap) : Bool :=
  heap.openAt t.headersTX && heap.openAt t.bodiesTX && heap.openAt t.stateTX

end snTXRefs

/-- What the goroutine of `UpdateSnapshots` does, in order. -/
inductive CloserEvent where
  | close (p : StorePtr)
  | done
  deriving DecidableEq, Repr

namespace SnapshotKV

/-- The goroutine of `SnapshotKV.UpdateSnapshots` (kv_snapshot.go:139-145), run to its
end: `toClose.Close()` when `toClose` is not nil, then the send on `done`. -/
def UpdateSnapshots.goroutine (toClose : Option StorePtr) (heap : StoreHeap) :
    StoreHeap × List CloserEvent :=
  match toClose with
  | some p => (heap.set p (heap.get p).Close, [CloserEvent.close p, CloserEvent.done])
  | none => (heap, [CloserEvent.done])

/-- `SnapshotKV.UpdateSnapshots` (kv_snapshot.go:121-146): the overlay after the swap of
the pointer, and the store objects and the calls made when the goroutine has run. The
lock is not part of the embedding. -/
def UpdateSnapshots (s : SnapshotKVRefs) (heap : StoreHeap) (tp : String)
    (snapshotKV : Option StorePtr) : SnapshotKVRefs × StoreHeap × List CloserEvent :=
  if tp = "headers" then
    ({ s with headersSnapshot := snapshotKV }, UpdateSnapshots.goroutine s.headersSnapshot heap)
  else if tp = "bodies" then
    ({ s with bodiesSnapshot := snapshotKV }, UpdateSnapshots.goroutine s.bodiesSnapshot heap)
  else if tp = "state" then
    ({ s with stateSnapshot := snapshotKV }, UpdateSnapshots.goroutine s.stateSnapshot heap)
  else (s, UpdateSnapshots.goroutine none heap)

end SnapshotKV

/-- Store objects for examples: the store at pointer 0 holds `old` in bucket PlainState,
every other store holds `new` there; no transaction is open and no store is closed. -/
def stateHeap (old new : Store) : StoreHeap :=
  ⟨fun p => if p = 0 then ⟨KvTx.single dbutils.PlainStateBucket old, 0, false, false⟩
    else ⟨KvTx.single dbutils.PlainStateBucket new, 0, false, false⟩⟩

/-- An overlay for examples: an empty hot store and the store at pointer 0 as the state
snapshot. -/
def stateRefs : SnapshotKVRefs :=
  { db := KvTx.single dbutils.PlainStateBucket []
    headersSnapshot := none
    bodiesSnapshot := none
    stateSnapshot := some 0 }

/-! ## Lemmas on the store model -/

theorem Store.get_put_self (k v : Bytes) (d : Store) : (d.put k v).get k = some v := by
  induction d with
  | nil => simp [Store.put, Store.get]
  | cons e es ih =>
    unfold Store.put
    by_cases h1 : k < e.1
    · simp [h1, Store.get]
    · by_cases h2 : k = e.1
      · simp [h1, h2, Store.get]
      · simp [h1, h2, Store.get, ih]

theorem Store.get_put_other (k v k1 : Bytes) (d : Store) (h : k1 ≠ k) :
    (d.put k v).get k1 = d.get k1 := by
  induction d with
  | nil => simp [Store.put, Store.get, h]
  | cons e es ih =>
    unfold Store.put
    by_cases h1 : k < e.1
    · simp [h1, Store.get, h]
    · by_cases h2 : k = e.1
      · have h3 : k1 ≠ e.1 := fun h4 => h (h4.trans h2.symm)
        simp [h1, h2, Store.get, h3]
      · simp [h1, h2, Store.get, ih]

theorem Store.put_put (k v : Bytes) (d : Store) : (d.put k v).put k v = d.put k v := by
  induction d with
  | nil => simp [Store.put]
  | cons e es ih =>
    unfold Store.put
    by_cases h1 : k < e.1
    · simp [h1, Store.put]
    · by_cases h2 : k = e.1
      · simp [h1, h2, Store.put]
      · simp [h1, h2, Store.put, ih]

theorem snTX.getSnapshotTX_error (s : snTX) (bucket : String) (e : Err)
    (h : s.getSnapshotTX bucket = .error e) :
    e = Err.wrapBucket bucket Err.ErrUnavailableSnapshot := by
  unfold snTX.getSnapshotTX at h
  cases hr : s.routedTX bucket with
  | none =>
    rw [hr] at h
    injection h with h
    exact h.symm
  | some tx =>
    rw [hr] at h
    exact absurd h (by simp)

theorem KvTx.setBucket_put_put (tx : KvTx) (bucket : String) (k v : Bytes) :
    (tx.setBucket bucket ((tx.buckets bucket).put k v)).setBucket bucket
        ((((tx.setBucket bucket ((tx.buckets bucket).put k v)).buckets bucket)).put k v)
      = tx.setBucket bucket ((tx.buckets bucket).put k v) := by
  unfold KvTx.setBucket
  congr 1
  funext b
  by_cases h : b = bucket
  · simp [h, Store.put_put]
  · simp [h]

/-! ## Theorems -/

/-- C1, at a failing input. The hot store holds the tombstone under key 01 (a delete of a
snapshot key), the snapshot holds 01 and 02. The walk with First and Next returns the
tombstoned entry (01, 00) first and then (02, 08), while the merged view of the claim is
the single entry (02, 08). -/
theorem walkForward_returns_tombstone :
    (mergedCursor [([1], [0])] [([1], [7]), ([2], [8])]).walkForward kvOps 4 4
        = some [([1], some [0]), ([2], some [8])]
      ∧ mergedView [([1], [0])] [([1], [7]), ([2], [8])] = [([2], [8])] := by
  decide

/-- C2, at a failing input. The state snapshot holds key 01; after `snTX.Delete` of that
key, `snTX.GetOne` returns the tombstone value 00 that the delete wrote into the hot
store, not nil. -/
theorem GetOne_after_Delete_returns_tombstone :
    ((stateOverlay [] [([1], [7])]).Delete dbutils.PlainStateBucket [1] none).2.GetOne
        dbutils.PlainStateBucket [1] = .ok DeletedValue := by
  rfl

/-- C3 fails for the empty value. The hot store holds key 01 with the empty value, which
is not the tombstone, and the snapshot holds 01 with value 07: `snTX.GetOne` returns the
snapshot value 07, not the empty hot value. -/
theorem GetOne_empty_hot_value_reads_snapshot :
    Store.get [1] [([1], [])] = some []
      ∧ (some [] : Slice) ≠ DeletedValue
      ∧ Store.get [1] [([1], [7])] = some [7]
      ∧ (stateOverlay [([1], [])] [([1], [7])]).GetOne dbutils.PlainStateBucket [1]
          = .ok (some [7])
      ∧ (stateOverlay [([1], [])] [([1], [7])]).GetOne dbutils.PlainStateBucket [1]
          ≠ .ok (some []) := by
  refine ⟨rfl, by decide, rfl, rfl, ?_⟩
  intro h
  have h1 : (Except.ok (some [7]) : Except Err Slice) = .ok (some []) := h
  injection h1 with h2
  exact absurd h2 (by decide)

/-- C3 as amended: when the snapshot that the bucket is routed to holds `k`, and the hot
store holds `k` with a value `hv` that is neither empty nor the tombstone, `snTX.GetOne`
returns exactly `hv`. -/
theorem GetOne_hot_shadows_snapshot (s : snTX) (st : KvTx) (bucket : String)
    (k hv sv : Bytes)
    (_hrouted : s.getSnapshotTX bucket = .ok st)
    (_hsnap : (st.buckets bucket).get k = some sv)
    (hhot : (s.dbTX.buckets bucket).get k = some hv)
    (_hlive : (some hv : Slice) ≠ DeletedValue)
    (hne : hv ≠ []) :
    s.GetOne bucket k = .ok (some hv) := by
  have hl : len (some hv) ≠ 0 := by
    simpa [len] using hne
  simp [snTX.GetOne, KvTx.GetOne, hhot, hl]

/-- Witness of `GetOne_hot_shadows_snapshot`: hot value 05 over snapshot value 07. -/
theorem GetOne_hot_shadows_snapshot_witness :
    (stateOverlay [([1], [5])] [([1], [7])]).GetOne dbutils.PlainStateBucket [1]
      = .ok (some [5]) :=
  GetOne_hot_shadows_snapshot (stateOverlay [([1], [5])] [([1], [7])])
    (KvTx.single dbutils.PlainStateBucket [([1], [7])]) dbutils.PlainStateBucket
    [1] [5] [7] rfl rfl rfl (by decide) (by decide)

/-- C4 fails where the hot store returns an empty value for a hot-only bucket: the hot
store holds key 01 with the empty value in a bucket that no snapshot is routed to, and
`snTX.GetOne` returns that empty value, which is not nil. -/
theorem GetOne_hot_only_returns_empty_value :
    (hotOverlay otherBucket [([1], [])]).dbTX.GetOne otherBucket [1] = .ok (some [])
      ∧ (hotOverlay otherBucket [([1], [])]).getSnapshotTX otherBucket
          = .error (Err.wrapBucket otherBucket Err.ErrUnavailableSnapshot)
      ∧ (hotOverlay otherBucket [([1], [])]).GetOne otherBucket [1] = .ok (some [])
      ∧ (hotOverlay otherBucket [([1], [])]).GetOne otherBucket [1] ≠ .ok none := by
  refine ⟨rfl, rfl, rfl, ?_⟩
  intro h
  have h1 : (Except.ok (some []) : Except Err Slice) = .ok none := h
  injection h1 with h2
  exact absurd h2 (by decide)

/-- C4 as amended. Let the hot store return `hv` for `(bucket, key)`. If `hv` is empty or
nil: for a hot-only bucket (`getSnapshotTX` fails) `snTX.GetOne` returns `hv` itself,
nil or empty as the hot store gave it; otherwise it returns the value `sv` of the routed
snapshot, nil instead when `sv` equals the tombstone. If `hv` is not empty, `GetOne`
returns `hv` whatever the snapshot transactions are. -/
theorem GetOne_cases (db : KvTx) (h b st : Option KvTx) (bucket : String) (key : Bytes)
    (hv : Slice) (hhot : db.GetOne bucket key = .ok hv) :
    (len hv = 0 →
      (∀ e, snTX.getSnapshotTX ⟨db, h, b, st⟩ bucket = .error e →
          snTX.GetOne ⟨db, h, b, st⟩ bucket key = .ok hv)
      ∧ (∀ tx sv, snTX.getSnapshotTX ⟨db, h, b, st⟩ bucket = .ok tx →
          tx.GetOne bucket key = .ok sv →
          snTX.GetOne ⟨db, h, b, st⟩ bucket key
            = .ok (if bytesEqual sv DeletedValue then none else sv)))
    ∧ (len hv ≠ 0 →
        ∀ h1 b1 st1, snTX.GetOne ⟨db, h1, b1, st1⟩ bucket key = .ok hv) := by
  refine ⟨fun hl => ⟨?_, ?_⟩, ?_⟩
  · intro e he
    have hu : isUnavailableSnapshot e = true := by
      rw [snTX.getSnapshotTX_error _ _ _ he]
      rfl
    simp [snTX.GetOne, hhot, hl, he, hu]
  · intro tx sv htx hsv
    simp only [snTX.GetOne, hhot, hl, htx, hsv]
    by_cases hd : bytesEqual sv DeletedValue = true
    · simp [hd]
    · simp [hd]
  · intro hl h1 b1 st1
    simp [snTX.GetOne, hhot, hl]

/-- Witness of `GetOne_cases`: the hot store lacks key 01 of bucket PlainState. -/
theorem GetOne_cases_witness :
    (len none = 0 →
      (∀ e, snTX.getSnapshotTX (stateOverlay [] [([1], [7])]) dbutils.PlainStateBucket
            = .error e →
          snTX.GetOne (stateOverlay [] [([1], [7])]) dbutils.PlainStateBucket [1] = .ok none)
      ∧ (∀ tx sv, snTX.getSnapshotTX (stateOverlay [] [([1], [7])]) dbutils.PlainStateBucket
            = .ok tx →
          tx.GetOne dbutils.PlainStateBucket [1] = .ok sv →
          snTX.GetOne (stateOverlay [] [([1], [7])]) dbutils.PlainStateBucket [1]
            = .ok (if bytesEqual sv DeletedValue then none else sv)))
    ∧ (len none ≠ 0 →
        ∀ h1 b1 st1,
          snTX.GetOne ⟨KvTx.single dbutils.PlainStateBucket [], h1, b1, st1⟩
            dbutils.PlainStateBucket [1] = .ok none) :=
  GetOne_cases (KvTx.single dbutils.PlainStateBucket []) none none
    (some (KvTx.single dbutils.PlainStateBucket [([1], [7])])) dbutils.PlainStateBucket [1]
    none rfl

/-- C5, at two failing inputs. For a key that neither the hot store nor the routed
snapshot holds, `snTX.Has` returns true; and for a key whose hot value is the tombstone
(written by `snTX.Delete`) it returns true as well. -/
theorem Has_true_for_absent_and_deleted :
    (stateOverlay [] []).Has dbutils.PlainStateBucket [1] = .ok true
      ∧ ((stateOverlay [] [([1], [7])]).Delete dbutils.PlainStateBucket [1] none).2.Has
          dbutils.PlainStateBucket [1] = .ok true := by
  exact ⟨rfl, rfl⟩

/-- C6. `snTX.Delete` and `snCursor.Delete` return no error and store the one-byte value
00 under `k` in the hot store; every other (bucket, key) of the hot store keeps what it
held, so no entry is removed; the value argument does not matter; and a second Delete
leaves the hot store as the first one did. This holds for every bucket, routed or not. -/
theorem Delete_writes_tombstone (s : snTX) (c : snCursor KvCursor) (bucket : String)
    (k : Bytes) (v w : Slice) :
    ((s.Delete bucket k v).1 = none
      ∧ ((s.Delete bucket k v).2.dbTX.buckets bucket).get k = some [0]
      ∧ (∀ b k1, (b ≠ bucket ∨ k1 ≠ k) →
          ((s.Delete bucket k v).2.dbTX.buckets b).get k1 = (s.dbTX.buckets b).get k1)
      ∧ (∀ b k1, ((s.dbTX.buckets b).get k1).isSome →
          (((s.Delete bucket k v).2.dbTX.buckets b).get k1).isSome)
      ∧ (s.Delete bucket k v).2.dbTX = (s.Delete bucket k w).2.dbTX
      ∧ ((s.Delete bucket k v).2.Delete bucket k w).2.dbTX = (s.Delete bucket k v).2.dbTX)
    ∧ ((c.Delete kvOps k v).1 = none
      ∧ (c.Delete kvOps k v).2.dbCursor.data.get k = some [0]
      ∧ (∀ k1, k1 ≠ k →
          (c.Delete kvOps k v).2.dbCursor.data.get k1 = c.dbCursor.data.get k1)
      ∧ (∀ k1, (c.dbCursor.data.get k1).isSome →
          ((c.Delete kvOps k v).2.dbCursor.data.get k1).isSome)
      ∧ (c.Delete kvOps k v).2.dbCursor = (c.Delete kvOps k w).2.dbCursor
      ∧ ((c.Delete kvOps k v).2.Delete kvOps k w).2.dbCursor
          = (c.Delete kvOps k v).2.dbCursor) := by
  have hother : ∀ b k1, (b ≠ bucket ∨ k1 ≠ k) →
      ((s.Delete bucket k v).2.dbTX.buckets b).get k1 = (s.dbTX.buckets b).get k1 := by
    intro b k1 hbk
    simp only [snTX.Delete, KvTx.Put, KvTx.setBucket, DeletedValue, Option.getD_some]
    by_cases hb : b = bucket
    · subst hb
      rcases hbk with hbk | hbk
      · exact absurd rfl hbk
      · simp [Store.get_put_other _ _ _ _ hbk]
    · simp [hb]
  have hself : ((s.Delete bucket k v).2.dbTX.buckets bucket).get k = some [0] := by
    simp [snTX.Delete, KvTx.Put, KvTx.setBucket, DeletedValue, Store.get_put_self]
  have hcother : ∀ k1, k1 ≠ k →
      (c.Delete kvOps k v).2.dbCursor.data.get k1 = c.dbCursor.data.get k1 := by
    intro k1 hk
    simp [snCursor.Delete, kvOps, KvCursor.Put, DeletedValue, Store.get_put_other _ _ _ _ hk]
  have hcself : (c.Delete kvOps k v).2.dbCursor.data.get k = some [0] := by
    simp [snCursor.Delete, kvOps, KvCursor.Put, DeletedValue, Store.get_put_self]
  refine ⟨⟨rfl, hself, hother, ?_, rfl, ?_⟩, ⟨rfl, hcself, hcother, ?_, rfl, ?_⟩⟩
  · intro b k1 h
    by_cases hbk : b ≠ bucket ∨ k1 ≠ k
    · rw [hother b k1 hbk]
      exact h
    · have hb : b = bucket := by
        by_contra hb
        exact hbk (Or.inl hb)
      have hk : k1 = k := by
        by_contra hk
        exact hbk (Or.inr hk)
      rw [hb, hk, hself]
      rfl
  · simp only [snTX.Delete, KvTx.Put, DeletedValue, Option.getD_some]
    exact KvTx.setBucket_put_put s.dbTX bucket k [0]
  · intro k1 h
    by_cases hk : k1 = k
    · rw [hk, hcself]
      rfl
    · rw [hcother k1 hk]
      exact h
  · simp [snCursor.Delete, kvOps, KvCursor.Put, DeletedValue, Store.put_put]

/-- C7. Every write of the overlay transaction (`Put`, `Append`, `AppendDup`, `Delete`)
leaves the headers, bodies and state snapshot transactions as they were, and every write
of the merged cursor (`Put`, `Append`, `Delete`), over any implementation of the child
cursors, leaves the snapshot cursor as it was: only the hot store can change. -/
theorem writes_change_only_hot {σ : Type} (ops : CursorOps σ) (s : snTX) (c : snCursor σ)
    (bucket : String) (k : Bytes) (v : Slice) :
    ((s.Put bucket k v).2.headersTX = s.headersTX
      ∧ (s.Put bucket k v).2.bodiesTX = s.bodiesTX
      ∧ (s.Put bucket k v).2.stateTX = s.stateTX)
    ∧ ((s.Append bucket k v).2.headersTX = s.headersTX
      ∧ (s.Append bucket k v).2.bodiesTX = s.bodiesTX
      ∧ (s.Append bucket k v).2.stateTX = s.stateTX)
    ∧ ((s.AppendDup bucket k v).2.headersTX = s.headersTX
      ∧ (s.AppendDup bucket k v).2.bodiesTX = s.bodiesTX
      ∧ (s.AppendDup bucket k v).2.stateTX = s.stateTX)
    ∧ ((s.Delete bucket k v).2.headersTX = s.headersTX
      ∧ (s.Delete bucket k v).2.bodiesTX = s.bodiesTX
      ∧ (s.Delete bucket k v).2.stateTX = s.stateTX)
    ∧ (c.Put ops k v).2.sndbCursor = c.sndbCursor
    ∧ (c.Append ops k v).2.sndbCursor = c.sndbCursor
    ∧ (c.Delete ops k v).2.sndbCursor = c.sndbCursor :=
  ⟨⟨rfl, rfl, rfl⟩, ⟨rfl, rfl, rfl⟩, ⟨rfl, rfl, rfl⟩, ⟨rfl, rfl, rfl⟩, rfl, rfl, rfl⟩

/-- C8. `snTX.getSnapshotTX` gives the headers transaction for bucket Headers, the bodies
transaction for BlockBody and EthTx, and the state transaction for PlainState,
PlainContractCode and Code, when that transaction is configured. For every other bucket
name, and for a routed bucket whose snapshot is not configured, it fails with the error
that wraps `ErrUnavailableSnapshot`. Whenever it fails, `Cursor`, `RwCursor` and
`CursorDupSort` return the cursor of the hot transaction and `GetOne` and `Has` return
what the hot transaction returns. -/
theorem getSnapshotTX_routing (s : snTX) (bucket : String) :
    (∀ tx, s.headersTX = some tx → s.getSnapshotTX dbutils.HeadersBucket = .ok tx)
    ∧ (∀ tx, s.bodiesTX = some tx →
        s.getSnapshotTX dbutils.BlockBodyPrefix = .ok tx
          ∧ s.getSnapshotTX dbutils.EthTx = .ok tx)
    ∧ (∀ tx, s.stateTX = some tx →
        s.getSnapshotTX dbutils.PlainStateBucket = .ok tx
          ∧ s.getSnapshotTX dbutils.PlainContractCodeBucket = .ok tx
          ∧ s.getSnapshotTX dbutils.CodeBucket = .ok tx)
    ∧ (bucket ∉ [dbutils.HeadersBucket, dbutils.BlockBodyPrefix, dbutils.EthTx,
          dbutils.PlainStateBucket, dbutils.PlainContractCodeBucket, dbutils.CodeBucket] →
        s.getSnapshotTX bucket = .error (Err.wrapBucket bucket Err.ErrUnavailableSnapshot))
    ∧ (s.headersTX = none →
        s.getSnapshotTX dbutils.HeadersBucket
          = .error (Err.wrapBucket dbutils.HeadersBucket Err.ErrUnavailableSnapshot))
    ∧ (s.bodiesTX = none → ∀ b ∈ [dbutils.BlockBodyPrefix, dbutils.EthTx],
        s.getSnapshotTX b = .error (Err.wrapBucket b Err.ErrUnavailableSnapshot))
    ∧ (s.stateTX = none →
        ∀ b ∈ [dbutils.PlainStateBucket, dbutils.PlainContractCodeBucket, dbutils.CodeBucket],
          s.getSnapshotTX b = .error (Err.wrapBucket b Err.ErrUnavailableSnapshot))
    ∧ (∀ e, s.getSnapshotTX bucket = .error e →
        isUnavailableSnapshot e = true
          ∧ s.Cursor bucket = (s.dbTX.Cursor bucket).map CursorHandle.db
          ∧ s.RwCursor bucket = (s.dbTX.Cursor bucket).map CursorHandle.db
          ∧ s.CursorDupSort bucket = (s.dbTX.Cursor bucket).map CursorDupHandle.db
          ∧ (∀ key, s.GetOne bucket key = s.dbTX.GetOne bucket key)
          ∧ (∀ key, s.Has bucket key = s.dbTX.Has bucket key)) := by
  refine ⟨?_, ?_, ?_, ?_, ?_, ?_, ?_, ?_⟩
  · intro tx h
    simp [snTX.getSnapshotTX, snTX.routedTX, h]
  · intro tx h
    constructor <;>
      simp [snTX.getSnapshotTX, snTX.routedTX, h, dbutils.HeadersBucket,
        dbutils.BlockBodyPrefix, dbutils.EthTx]
  · intro tx h
    refine ⟨?_, ?_, ?_⟩ <;>
      simp [snTX.getSnapshotTX, snTX.routedTX, h, dbutils.HeadersBucket,
        dbutils.BlockBodyPrefix, dbutils.EthTx, dbutils.PlainStateBucket,
        dbutils.PlainContractCodeBucket, dbutils.CodeBucket]
  · intro h
    simp only [List.mem_cons, List.mem_singleton, List.not_mem_nil, or_false, not_or] at h
    obtain ⟨h1, h2, h3, h4, h5, h6⟩ := h
    simp [snTX.getSnapshotTX, snTX.routedTX, h1, h2, h3, h4, h5, h6]
  · intro h
    simp [snTX.getSnapshotTX, snTX.routedTX, h]
  · intro h b hb
    simp only [List.mem_cons, List.mem_singleton, List.not_mem_nil, or_false] at hb
    rcases hb with hb | hb <;> subst hb <;>
      simp [snTX.getSnapshotTX, snTX.routedTX, h, dbutils.HeadersBucket,
        dbutils.BlockBodyPrefix, dbutils.EthTx]
  · intro h b hb
    simp only [List.mem_cons, List.mem_singleton, List.not_mem_nil, or_false] at hb
    rcases hb with hb | hb | hb <;> subst hb <;>
      simp [snTX.getSnapshotTX, snTX.routedTX, h, dbutils.HeadersBucket,
        dbutils.BlockBodyPrefix, dbutils.EthTx, dbutils.PlainStateBucket,
        dbutils.PlainContractCodeBucket, dbutils.CodeBucket]
  · intro e he
    have hu : isUnavailableSnapshot e = true := by
      rw [snTX.getSnapshotTX_error _ _ _ he]
      rfl
    refine ⟨hu, ?_, ?_, ?_, ?_, ?_⟩
    · simp [snTX.Cursor, he, hu]
    · simp [snTX.RwCursor, he, hu]
    · simp [snTX.CursorDupSort, he, hu]
    · intro key
      simp only [snTX.GetOne, KvTx.GetOne, he, hu]
      by_cases hl : len ((s.dbTX.buckets bucket).get key) = 0
      · simp [hl]
      · simp [hl]
    · intro key
      simp only [snTX.Has, KvTx.Has, he, hu]
      cases ((s.dbTX.buckets bucket).get key).isSome <;> simp

/-- Witness of `getSnapshotTX_routing`: with only the state snapshot configured, bucket
PlainState is routed to it, and a bucket outside the routing table and bucket Headers
fall back to the hot transaction. -/
theorem getSnapshotTX_routing_witness :
    (stateOverlay [] [([1], [7])]).getSnapshotTX dbutils.PlainStateBucket
        = .ok (KvTx.single dbutils.PlainStateBucket [([1], [7])])
      ∧ (stateOverlay [] [([1], [7])]).getSnapshotTX otherBucket
        = .error (Err.wrapBucket otherBucket Err.ErrUnavailableSnapshot)
      ∧ (stateOverlay [] [([1], [7])]).getSnapshotTX dbutils.HeadersBucket
        = .error (Err.wrapBucket dbutils.HeadersBucket Err.ErrUnavailableSnapshot)
      ∧ (∀ key, (stateOverlay [] [([1], [7])]).GetOne otherBucket key
          = (stateOverlay [] [([1], [7])]).dbTX.GetOne otherBucket key) :=
  ⟨((getSnapshotTX_routing (stateOverlay [] [([1], [7])]) otherBucket).2.2.1 _ rfl).1,
    (getSnapshotTX_routing (stateOverlay [] [([1], [7])]) otherBucket).2.2.2.1 (by decide),
    (getSnapshotTX_routing (stateOverlay [] [([1], [7])]) otherBucket).2.2.2.2.1 rfl,
    ((getSnapshotTX_routing (stateOverlay [] [([1], [7])]) otherBucket).2.2.2.2.2.2.2 _
      rfl).2.2.2.2.1⟩

/-- Witness of `Delete_writes_tombstone`: deleting key 02 keeps the entry under key 01
and stores 00 under key 02. -/
theorem Delete_writes_tombstone_witness :
    (((stateOverlay [([1], [5])] []).Delete dbutils.PlainStateBucket [2] none).2.dbTX.buckets
        dbutils.PlainStateBucket).get [2] = some [0]
      ∧ ((((stateOverlay [([1], [5])] []).Delete dbutils.PlainStateBucket [2] none).2.dbTX.buckets
        dbutils.PlainStateBucket).get [1]).isSome :=
  ⟨(Delete_writes_tombstone (stateOverlay [([1], [5])] []) (mergedCursor [] [])
      dbutils.PlainStateBucket [2] none none).1.2.1,
    (Delete_writes_tombstone (stateOverlay [([1], [5])] []) (mergedCursor [] [])
      dbutils.PlainStateBucket [2] none none).1.2.2.2.1 dbutils.PlainStateBucket [1] rfl⟩

/-! ## Lemmas on `seek` of the store model -/

theorem Store.seekIdx_getElem (seek : Bytes) (d : Store) :
    (match d.seekIdx seek with
      | some i => d[i]?
      | none => none) = d.seekEntry seek ∧
    (d.seekIdx seek = none → d.seekEntry seek = none) ∧
    (∀ i, d.seekIdx seek = some i → (d.seekEntry seek).isSome) := by
  induction d with
  | nil => simp [Store.seekIdx, Store.seekEntry]
  | cons e es ih =>
    by_cases h : seek ≤ e.1
    · simp [Store.seekIdx, Store.seekEntry, h]
    · obtain ⟨ih1, ih2, ih3⟩ := ih
      cases hi : Store.seekIdx seek es with
      | none =>
        rw [hi] at ih1
        simp [Store.seekIdx, Store.seekEntry, h, hi, ih2 hi]
      | some i =>
        rw [hi] at ih1
        simp only [Store.seekIdx, Store.seekEntry, h, hi, if_false, Option.map_some']
        refine ⟨?_, ?_, ?_⟩
        · simpa using ih1
        · intro hc
          exact absurd hc (by simp)
        · intro j _
          exact ih3 i hi

theorem KvCursor.Seek_fst (seek : Bytes) (c : KvCursor) :
    (c.Seek seek).1 = (match c.data.seekEntry seek with
      | some e => ⟨some e.1, some e.2, none⟩
      | none => Res.nil) := by
  obtain ⟨h1, h2, h3⟩ := Store.seekIdx_getElem seek c.data
  unfold KvCursor.Seek
  cases hi : c.data.seekIdx seek with
  | none => simp [h2 hi]
  | some i =>
    rw [hi] at h1
    have h4 : c.data[i]? = c.data.seekEntry seek := h1
    simp only [KvCursor.entry, h4]

theorem Store.seekEntry_none (seek : Bytes) (d : Store) (h : d.seekEntry seek = none) :
    ∀ e ∈ d, e.1 < seek := by
  induction d with
  | nil => simp
  | cons e es ih =>
    by_cases h1 : seek ≤ e.1
    · simp [Store.seekEntry, h1] at h
    · simp only [Store.seekEntry, h1, if_false] at h
      intro x hx
      rcases List.mem_cons.mp hx with hx | hx
      · rw [hx]
        exact lt_of_not_le h1
      · exact ih h x hx

theorem Store.seekEntry_some (seek : Bytes) (d : Store) (e : Bytes × Bytes)
    (hd : d.Sorted) (h : d.seekEntry seek = some e) :
    e ∈ d ∧ seek ≤ e.1 ∧ (∀ x ∈ d, seek ≤ x.1 → e.1 ≤ x.1) ∧ d.get e.1 = some e.2 := by
  induction d with
  | nil => simp [Store.seekEntry] at h
  | cons a es ih =>
    have hd1 : ∀ x ∈ es, a.1 < x.1 := (List.pairwise_cons.mp hd).1
    have hd2 : Store.Sorted es := (List.pairwise_cons.mp hd).2
    by_cases h1 : seek ≤ a.1
    · simp only [Store.seekEntry, h1, if_true] at h
      injection h with h
      subst h
      refine ⟨List.mem_cons_self _ _, h1, ?_, by simp [Store.get]⟩
      intro x hx _
      rcases List.mem_cons.mp hx with hx | hx
      · rw [hx]
      · exact le_of_lt (hd1 x hx)
    · simp only [Store.seekEntry, h1, if_false] at h
      obtain ⟨i1, i2, i3, i4⟩ := ih hd2 h
      refine ⟨List.mem_cons_of_mem _ i1, i2, ?_, ?_⟩
      · intro x hx hsx
        rcases List.mem_cons.mp hx with hx | hx
        · rw [hx] at hsx
          exact absurd hsx h1
        · exact i3 x hx hsx
      · have hne : e.1 ≠ a.1 := ne_of_gt (hd1 e i1)
        simp [Store.get, hne, i4]

theorem Store.get_none_of_forall_ne (k : Bytes) (d : Store) (h : ∀ e ∈ d, e.1 ≠ k) :
    d.get k = none := by
  induction d with
  | nil => rfl
  | cons a es ih =>
    have h1 : k ≠ a.1 := fun hk => h a (List.mem_cons_self _ _) hk.symm
    simp only [Store.get, h1, if_false]
    exact ih (fun e he => h e (List.mem_cons_of_mem _ he))

theorem bytesCompare_le_zero (a b : Bytes) :
    bytesCompare (some a) (some b) ≤ 0 ↔ a ≤ b := by
  unfold bytesCompare
  simp only [Option.getD_some]
  by_cases h1 : a < b
  · simp [h1, le_of_lt h1]
  · by_cases h2 : a = b
    · simp [h2]
    · simp only [h1, h2, if_false]
      constructor
      · intro h
        exact absurd h (by decide)
      · intro h
        exact absurd (lt_of_le_of_ne h h2) h1

theorem snCursor.Seek_kv_fst (seek : Bytes) (s : snCursor KvCursor) :
    (s.Seek kvOps seek).1 =
      (match s.dbCursor.data.seekEntry seek, s.sndbCursor.data.seekEntry seek with
        | some a, some b =>
          if a.1 = seek then ⟨some a.1, some a.2, none⟩
          else if b.1 = seek then ⟨some b.1, some b.2, none⟩
          else if a.1 ≤ b.1 then ⟨some a.1, some a.2, none⟩
          else ⟨some b.1, some b.2, none⟩
        | some a, none => ⟨some a.1, some a.2, none⟩
        | none, some b => ⟨some b.1, some b.2, none⟩
        | none, none => Res.nil) := by
  have hdb := KvCursor.Seek_fst seek s.dbCursor
  have hsn := KvCursor.Seek_fst seek s.sndbCursor
  unfold snCursor.Seek
  simp only [kvOps]
  rcases hA : KvCursor.Seek seek s.dbCursor with ⟨db, c1⟩
  rcases hB : KvCursor.Seek seek s.sndbCursor with ⟨sn, c2⟩
  rw [hA] at hdb
  rw [hB] at hsn
  simp only at hdb hsn
  subst hdb
  subst hsn
  cases ha : s.dbCursor.data.seekEntry seek with
  | none =>
    cases hb : s.sndbCursor.data.seekEntry seek with
    | none =>
      simp [Res.nil, KeyCmp]
    | some b =>
      simp [Res.nil, KeyCmp, bytesEqual]
      split <;> rfl
  | some a =>
    cases hb : s.sndbCursor.data.seekEntry seek with
    | none =>
      simp [Res.nil, KeyCmp, bytesEqual]
      split <;> rfl
    | some b =>
      have hc := bytesCompare_le_zero a.1 b.1
      by_cases h1 : a.1 = seek
      · simp [bytesEqual, h1]
      · by_cases h2 : b.1 = seek
        · simp [bytesEqual, h1, h2]
        · by_cases h3 : a.1 ≤ b.1
          · simp [bytesEqual, h1, h2, h3, KeyCmp, hc.mpr h3]
          · have h4 : ¬ bytesCompare (some a.1) (some b.1) ≤ 0 := fun h => h3 (hc.mp h)
            simp [bytesEqual, h1, h2, h3, KeyCmp, h4]

theorem SeekPost_of_entry (hot snap : Store) (seek k v : Bytes)
    (h1 : seek ≤ k) (h2 : ∃ e ∈ hot ++ snap, e.1 = k)
    (h3 : ∀ e ∈ hot ++ snap, seek ≤ e.1 → k ≤ e.1)
    (h4 : overlayGet hot snap k = some v) :
    SeekPost hot snap seek ⟨some k, some v, none⟩ := by
  refine ⟨rfl, ?_, ?_⟩
  · intro hall
    obtain ⟨e, he, hek⟩ := h2
    have := hall e he
    rw [hek] at this
    exact absurd h1 (not_le_of_lt this)
  · intro _
    exact ⟨k, rfl, h1, h2, h3, h4.symm⟩

theorem snCursor.Seek_kv_post (hot snap : Store) (p q : Option Nat) (ck : Slice)
    (seek : Bytes) (hh : hot.Sorted) (hs : snap.Sorted) :
    SeekPost hot snap seek (snCursor.Seek kvOps seek ⟨⟨hot, p⟩, ⟨snap, q⟩, ck⟩).1 := by
  rw [snCursor.Seek_kv_fst]
  simp only
  cases ha : hot.seekEntry seek with
  | none =>
    have hn := Store.seekEntry_none seek hot ha
    have hne : ∀ k, seek ≤ k → hot.get k = none := by
      intro k hk
      apply Store.get_none_of_forall_ne
      intro e he hek
      have := hn e he
      rw [hek] at this
      exact absurd hk (not_le_of_lt this)
    cases hb : snap.seekEntry seek with
    | none =>
      have hm := Store.seekEntry_none seek snap hb
      refine ⟨rfl, fun _ => rfl, ?_⟩
      rintro ⟨e, he, hse⟩
      rcases List.mem_append.mp he with he | he
      · exact absurd hse (not_le_of_lt (hn e he))
      · exact absurd hse (not_le_of_lt (hm e he))
    | some b =>
      obtain ⟨b1, b2, b3, b4⟩ := Store.seekEntry_some seek snap b hs hb
      apply SeekPost_of_entry hot snap seek b.1 b.2 b2
      · exact ⟨b, List.mem_append_right _ b1, rfl⟩
      · intro e he hse
        rcases List.mem_append.mp he with he | he
        · exact absurd hse (not_le_of_lt (hn e he))
        · exact b3 e he hse
      · simp [overlayGet, hne b.1 b2, b4]
  | some a =>
    obtain ⟨a1, a2, a3, a4⟩ := Store.seekEntry_some seek hot a hh ha
    have hA : ∀ hm : (∀ e ∈ snap, seek ≤ e.1 → a.1 ≤ e.1),
        SeekPost hot snap seek ⟨some a.1, some a.2, none⟩ := by
      intro hm
      apply SeekPost_of_entry hot snap seek a.1 a.2 a2
      · exact ⟨a, List.mem_append_left _ a1, rfl⟩
      · intro e he hse
        rcases List.mem_append.mp he with he | he
        · exact a3 e he hse
        · exact hm e he hse
      · simp [overlayGet, a4]
    cases hb : snap.seekEntry seek with
    | none =>
      have hm := Store.seekEntry_none seek snap hb
      exact hA (fun e he hse => absurd hse (not_le_of_lt (hm e he)))
    | some b =>
      obtain ⟨b1, b2, b3, b4⟩ := Store.seekEntry_some seek snap b hs hb
      have hB : ∀ hm : (∀ e ∈ hot, seek ≤ e.1 → b.1 < e.1),
          SeekPost hot snap seek ⟨some b.1, some b.2, none⟩ := by
        intro hm
        apply SeekPost_of_entry hot snap seek b.1 b.2 b2
        · exact ⟨b, List.mem_append_right _ b1, rfl⟩
        · intro e he hse
          rcases List.mem_append.mp he with he | he
          · exact le_of_lt (hm e he hse)
          · exact b3 e he hse
        · have hg : hot.get b.1 = none := by
            apply Store.get_none_of_forall_ne
            intro e he hek
            have := hm e he (by rw [hek]; exact b2)
            rw [hek] at this
            exact absurd this (lt_irrefl _)
          simp [overlayGet, hg, b4]
      simp only
      by_cases h1 : a.1 = seek
      · rw [if_pos h1]
        apply hA
        intro e _ hse
        rw [h1]
        exact hse
      · rw [if_neg h1]
        have hlt : seek < a.1 := lt_of_le_of_ne a2 (Ne.symm h1)
        by_cases h2 : b.1 = seek
        · rw [if_pos h2]
          apply hB
          intro e he hse
          rw [h2]
          exact lt_of_lt_of_le hlt (a3 e he hse)
        · rw [if_neg h2]
          by_cases h3 : a.1 ≤ b.1
          · rw [if_pos h3]
            apply hA
            intro e he hse
            exact le_trans h3 (b3 e he hse)
          · rw [if_neg h3]
            apply hB
            intro e he hse
            exact lt_of_lt_of_le (lt_of_not_le h3) (a3 e he hse)

/-- C9. Let the hot store and the snapshot store be ordered and hold no tombstone value.
`Seek(seek)` on the merged cursor, whatever the positions of the two child cursors and
the saved key are, returns no error and: a nil key when neither store has a key at least
`seek`; otherwise the least key `k` of the two stores with `seek ≤ k`, with the hot
store's value when the hot store holds `k` and with the snapshot's value when it does
not. -/
theorem Seek_returns_least_key (hot snap : Store) (p q : Option Nat) (ck : Slice)
    (seek : Bytes) (hh : hot.Sorted) (hs : snap.Sorted)
    (_nh : ∀ e ∈ hot, (some e.2 : Slice) ≠ DeletedValue)
    (_ns : ∀ e ∈ snap, (some e.2 : Slice) ≠ DeletedValue) :
    (snCursor.Seek kvOps seek ⟨⟨hot, p⟩, ⟨snap, q⟩, ck⟩).1.err = none
      ∧ ((∀ e ∈ hot ++ snap, e.1 < seek) →
          (snCursor.Seek kvOps seek ⟨⟨hot, p⟩, ⟨snap, q⟩, ck⟩).1.k = none)
      ∧ ((∃ e ∈ hot ++ snap, seek ≤ e.1) →
          ∃ k, (snCursor.Seek kvOps seek ⟨⟨hot, p⟩, ⟨snap, q⟩, ck⟩).1.k = some k
            ∧ seek ≤ k
            ∧ (∃ e ∈ hot ++ snap, e.1 = k)
            ∧ (∀ e ∈ hot ++ snap, seek ≤ e.1 → k ≤ e.1)
            ∧ (∀ v, hot.get k = some v →
                (snCursor.Seek kvOps seek ⟨⟨hot, p⟩, ⟨snap, q⟩, ck⟩).1.v = some v)
            ∧ (hot.get k = none →
                (snCursor.Seek kvOps seek ⟨⟨hot, p⟩, ⟨snap, q⟩, ck⟩).1.v = snap.get k)) := by
  obtain ⟨h1, h2, h3⟩ := snCursor.Seek_kv_post hot snap p q ck seek hh hs
  refine ⟨h1, h2, ?_⟩
  intro hex
  obtain ⟨k, k1, k2, k3, k4, k5⟩ := h3 hex
  refine ⟨k, k1, k2, k3, k4, ?_, ?_⟩
  · intro v hv
    rw [k5]
    simp [overlayGet, hv]
  · intro hv
    rw [k5]
    simp [overlayGet, hv]

/-- Witness of `Seek_returns_least_key`: hot keys 01 and 03, snapshot keys 02 and 03;
`Seek(03)` returns key 03 with the hot value 06, and `Seek(04)` returns a nil key. -/
theorem Seek_returns_least_key_witness :
    (∃ k, (snCursor.Seek kvOps [3]
            (mergedCursor [([1], [5]), ([3], [6])] [([2], [7]), ([3], [8])])).1.k = some k
        ∧ [3] ≤ k
        ∧ (∃ e ∈ [([1], [5]), ([3], [6])] ++ [([2], [7]), ([3], [8])], e.1 = k)
        ∧ (∀ e ∈ [([1], [5]), ([3], [6])] ++ [([2], [7]), ([3], [8])], [3] ≤ e.1 → k ≤ e.1)
        ∧ (∀ v, Store.get k [([1], [5]), ([3], [6])] = some v →
            (snCursor.Seek kvOps [3]
              (mergedCursor [([1], [5]), ([3], [6])] [([2], [7]), ([3], [8])])).1.v = some v)
        ∧ (Store.get k [([1], [5]), ([3], [6])] = none →
            (snCursor.Seek kvOps [3]
              (mergedCursor [([1], [5]), ([3], [6])] [([2], [7]), ([3], [8])])).1.v
              = Store.get k [([2], [7]), ([3], [8])]))
      ∧ (snCursor.Seek kvOps [4]
            (mergedCursor [([1], [5]), ([3], [6])] [([2], [7]), ([3], [8])])).1.k = none :=
  ⟨(Seek_returns_least_key [([1], [5]), ([3], [6])] [([2], [7]), ([3], [8])] none none none
      [3] (by unfold Store.Sorted; decide) (by unfold Store.Sorted; decide) (by decide)
      (by decide)).2.2 ⟨([3], [6]), by decide, by decide⟩,
    (Seek_returns_least_key [([1], [5]), ([3], [6])] [([2], [7]), ([3], [8])] none none none
      [4] (by unfold Store.Sorted; decide) (by unfold Store.Sorted; decide) (by decide)
      (by decide)).2.1 (by decide)⟩

/-- C10, at a failing input. The hot store holds key 01 with the tombstone 00, the
snapshot holds key 01 with value 07 and key 02 with value 08. `Seek(01)` on the merged
cursor returns key 01 with the tombstone as its value; the next live entry of the merged
view, which the claim expects, is (02, 08). -/
theorem Seek_returns_tombstoned_key :
    (snCursor.Seek kvOps [1] (mergedCursor [([1], [0])] [([1], [7]), ([2], [8])])).1
        = ⟨some [1], DeletedValue, none⟩
      ∧ mergedView [([1], [0])] [([1], [7]), ([2], [8])] = [([2], [8])] := by
  decide

/-! ## Lemmas on `seek-exact`, `first` and `last` -/

theorem Store.exactIdx_getElem (key : Bytes) (d : Store) :
    (match d.exactIdx key with
      | some i => d[i]?
      | none => none) = (d.get key).map (fun v => (key, v)) := by
  induction d with
  | nil => simp [Store.exactIdx, Store.get]
  | cons e es ih =>
    by_cases h : key = e.1
    · simp [Store.exactIdx, Store.get, h]
    · cases hi : Store.exactIdx key es with
      | none =>
        rw [hi] at ih
        simp only [Store.exactIdx, Store.get, h, hi, if_false, Option.map_none']
        exact ih
      | some i =>
        rw [hi] at ih
        simp only [Store.exactIdx, Store.get, h, hi, if_false, Option.map_some']
        simpa using ih

theorem KvCursor.SeekExact_fst (key : Bytes) (c : KvCursor) :
    (c.SeekExact key).1 = (match c.data.get key with
      | some v => ⟨some key, some v, none⟩
      | none => Res.nil) := by
  have h := Store.exactIdx_getElem key c.data
  unfold KvCursor.SeekExact
  cases hi : c.data.exactIdx key with
  | none =>
    rw [hi] at h
    cases hg : c.data.get key with
    | none => rfl
    | some v => rw [hg] at h; simp at h
  | some i =>
    rw [hi] at h
    have h1 : c.data[i]? = (c.data.get key).map (fun v => (key, v)) := h
    simp only [KvCursor.entry, h1]
    cases hg : c.data.get key with
    | none => rfl
    | some v => rfl

/-- C11. `SeekExact(key)` on the merged cursor, whatever the positions of the two child
cursors and the saved key are: when the hot store holds the tombstone 00 under `key` it
returns a nil key and a nil value, whatever the snapshot holds; when the hot store holds
another value under `key` it returns the hot entry; and when the hot store does not hold
`key` it returns what `SeekExact(key)` on the snapshot cursor returns. -/
theorem SeekExact_cases (hot snap : Store) (p q : Option Nat) (ck : Slice) (key : Bytes) :
    (hot.get key = some [0] →
        (snCursor.SeekExact kvOps key ⟨⟨hot, p⟩, ⟨snap, q⟩, ck⟩).1 = Res.nil)
      ∧ (∀ v, hot.get key = some v → v ≠ [0] →
        (snCursor.SeekExact kvOps key ⟨⟨hot, p⟩, ⟨snap, q⟩, ck⟩).1
          = ⟨some key, some v, none⟩)
      ∧ (hot.get key = none →
        (snCursor.SeekExact kvOps key ⟨⟨hot, p⟩, ⟨snap, q⟩, ck⟩).1
          = (kvOps.SeekExact key ⟨snap, q⟩).1) := by
  have hdb := KvCursor.SeekExact_fst key ⟨hot, p⟩
  refine ⟨?_, ?_, ?_⟩
  · intro h
    unfold snCursor.SeekExact
    simp only [kvOps]
    rcases hA : KvCursor.SeekExact key ⟨hot, p⟩ with ⟨db, c1⟩
    rw [hA] at hdb
    simp only [h] at hdb
    subst hdb
    simp [bytesEqual, DeletedValue]
  · intro v h hv
    unfold snCursor.SeekExact
    simp only [kvOps]
    rcases hA : KvCursor.SeekExact key ⟨hot, p⟩ with ⟨db, c1⟩
    rw [hA] at hdb
    simp only [h] at hdb
    subst hdb
    simp [bytesEqual, DeletedValue, hv]
  · intro h
    unfold snCursor.SeekExact
    simp only [kvOps]
    rcases hA : KvCursor.SeekExact key ⟨hot, p⟩ with ⟨db, c1⟩
    rw [hA] at hdb
    simp only [h] at hdb
    subst hdb
    simp [bytesEqual, DeletedValue, Res.nil]

/-- Witness of `SeekExact_cases`: hot 01 -> 00 over snapshot 01 -> 07 gives a nil key;
hot 01 -> 05 gives the hot entry; an empty hot store gives the snapshot entry. -/
theorem SeekExact_cases_witness :
    (snCursor.SeekExact kvOps [1] (mergedCursor [([1], [0])] [([1], [7])])).1 = Res.nil
      ∧ (snCursor.SeekExact kvOps [1] (mergedCursor [([1], [5])] [([1], [7])])).1
          = ⟨some [1], some [5], none⟩
      ∧ (snCursor.SeekExact kvOps [1] (mergedCursor [] [([1], [7])])).1
          = (kvOps.SeekExact [1] ⟨[([1], [7])], none⟩).1 :=
  ⟨(SeekExact_cases [([1], [0])] [([1], [7])] none none none [1]).1 rfl,
    (SeekExact_cases [([1], [5])] [([1], [7])] none none none [1]).2.1 [5] rfl (by decide),
    (SeekExact_cases [] [([1], [7])] none none none [1]).2.2 rfl⟩

theorem bytesCompare_ge_zero (a b : Bytes) :
    bytesCompare (some a) (some b) ≥ 0 ↔ b ≤ a := by
  unfold bytesCompare
  simp only [Option.getD_some]
  by_cases h1 : a < b
  · simp only [h1, if_true]
    constructor
    · intro h
      exact absurd h (by decide)
    · intro h
      exact absurd h1 (not_lt_of_le h)
  · by_cases h2 : a = b
    · simp [h2]
    · simp only [h1, h2, if_false]
      constructor
      · intro _
        exact le_of_not_lt h1
      · intro _
        decide

/-- C12 fails for `Last` on the empty key. The hot store holds one entry, under the empty
key, and the snapshot is empty: the hot child's last entry is that entry and the
snapshot child returns a nil key, yet `Last` on the merged cursor returns a nil key
instead of the hot entry, because `KeyCmpBackward` takes a key of length 0 for a missing
key. -/
theorem Last_drops_empty_key :
    (kvOps.Last ⟨[([], [5])], none⟩).1 = ⟨some [], some [5], none⟩
      ∧ (kvOps.Last ⟨[], none⟩).1 = Res.nil
      ∧ largerEntry ⟨some [], some [5], none⟩ Res.nil = ⟨some [], some [5], none⟩
      ∧ ((mergedCursor [([], [5])] []).Last kvOps).1 = Res.nil
      ∧ ((mergedCursor [([], [5])] []).Last kvOps).1 ≠ ⟨some [], some [5], none⟩ := by
  decide

/-- C12 as amended, for any implementation of the child cursors. `First`: when the
children's `First` return `dbF` and `snF` without error, `First` on the merged cursor
returns the entry with the smaller of the two keys, the hot one when the keys are equal,
the other child's when one key is nil, a nil key when both are nil, and saves a key that
is not nil; nothing is asked of the children's `Last`. `Last`: when the children's `Last`
return `dbL` and `snL` without error and one of the two keys has a length other than 0,
or both keys are nil, `Last` returns the entry with the larger key in the same way; when
both keys have length 0, `Last` returns a nil key and saves nothing. -/
theorem First_Last_choose {σ : Type} (ops : CursorOps σ) (s : snCursor σ) :
    (∀ (dbF snF : Res) (c1 c2 : σ),
        ops.First s.dbCursor = (dbF, c1) → ops.First s.sndbCursor = (snF, c2) →
        dbF.err = none → snF.err = none →
        (s.First ops).1 = smallerEntry dbF snF
          ∧ (s.First ops).2.currentKey = savedKey s.currentKey (smallerEntry dbF snF).k)
      ∧ (∀ (dbL snL : Res) (c3 c4 : σ),
        ops.Last s.dbCursor = (dbL, c3) → ops.Last s.sndbCursor = (snL, c4) →
        dbL.err = none → snL.err = none →
        ((len dbL.k ≠ 0 ∨ len snL.k ≠ 0 ∨ (dbL.k = none ∧ snL.k = none)) →
            (s.Last ops).1 = largerEntry dbL snL
              ∧ (s.Last ops).2.currentKey = savedKey s.currentKey (largerEntry dbL snL).k)
          ∧ (len dbL.k = 0 ∧ len snL.k = 0 →
            (s.Last ops).1 = Res.nil ∧ (s.Last ops).2.currentKey = s.currentKey)) := by
  have hc := bytesCompare_le_zero
  have hg := bytesCompare_ge_zero
  refine ⟨?_, ?_⟩
  · intro dbF snF c1 c2 hdbF hsnF e1 e2
    have hF : s.First ops =
        (if (KeyCmp dbF.k snF.k).2 then (Res.nil, ⟨c1, c2, s.currentKey⟩)
          else if (KeyCmp dbF.k snF.k).1 ≤ 0 then
            (⟨dbF.k, dbF.v, none⟩, snCursor.saveCurrent ⟨c1, c2, s.currentKey⟩ dbF.k)
          else (⟨snF.k, snF.v, none⟩, snCursor.saveCurrent ⟨c1, c2, s.currentKey⟩ snF.k)) := by
      simp only [snCursor.First, hdbF, hsnF, e1, e2]
    rw [hF]
    refine ⟨?_, ?_⟩
    · cases ha : dbF.k with
      | none =>
        cases hb : snF.k with
        | none => simp [KeyCmp, smallerEntry, ha, hb]
        | some b => simp [KeyCmp, smallerEntry, ha, hb]
      | some a =>
        cases hb : snF.k with
        | none => simp [KeyCmp, smallerEntry, ha, hb]
        | some b =>
          by_cases hab : a ≤ b
          · simp [KeyCmp, smallerEntry, ha, hb, hab, (hc a b).mpr hab]
          · have h1 : ¬ bytesCompare (some a) (some b) ≤ 0 := fun h => hab ((hc a b).mp h)
            simp [KeyCmp, smallerEntry, ha, hb, hab, h1]
    · cases ha : dbF.k with
      | none =>
        cases hb : snF.k with
        | none => simp [KeyCmp, smallerEntry, savedKey, ha, hb, Res.nil]
        | some b => simp [KeyCmp, smallerEntry, savedKey, ha, hb, snCursor.saveCurrent]
      | some a =>
        cases hb : snF.k with
        | none => simp [KeyCmp, smallerEntry, savedKey, ha, hb, snCursor.saveCurrent]
        | some b =>
          by_cases hab : a ≤ b
          · simp [KeyCmp, smallerEntry, savedKey, ha, hb, hab, (hc a b).mpr hab,
              snCursor.saveCurrent]
          · have h1 : ¬ bytesCompare (some a) (some b) ≤ 0 := fun h => hab ((hc a b).mp h)
            simp [KeyCmp, smallerEntry, savedKey, ha, hb, hab, h1, snCursor.saveCurrent]
  · intro dbL snL c3 c4 hdbL hsnL e3 e4
    have hL : s.Last ops =
        (if (KeyCmpBackward dbL.k snL.k).2 then (Res.nil, ⟨c3, c4, s.currentKey⟩)
          else if (KeyCmpBackward dbL.k snL.k).1 ≥ 0 then
            (⟨dbL.k, dbL.v, none⟩, snCursor.saveCurrent ⟨c3, c4, s.currentKey⟩ dbL.k)
          else (⟨snL.k, snL.v, none⟩, snCursor.saveCurrent ⟨c3, c4, s.currentKey⟩ snL.k)) := by
      simp only [snCursor.Last, hdbL, hsnL, e3, e4]
    rw [hL]
    refine ⟨?_, ?_⟩
    · intro hk
      cases ha : dbL.k with
      | none =>
        cases hb : snL.k with
        | none =>
          simp [KeyCmpBackward, largerEntry, savedKey, ha, hb, len, Res.nil]
        | some b =>
          have hb0 : b ≠ [] := by
            intro h
            rw [ha, hb, h] at hk
            simp [len] at hk
          simp [KeyCmpBackward, largerEntry, savedKey, ha, hb, len, hb0, snCursor.saveCurrent]
      | some a =>
        cases hb : snL.k with
        | none =>
          have ha0 : a ≠ [] := by
            intro h
            rw [ha, hb, h] at hk
            simp [len] at hk
          simp [KeyCmpBackward, largerEntry, savedKey, ha, hb, len, ha0, snCursor.saveCurrent]
        | some b =>
          by_cases ha0 : a = []
          · have hb0 : b ≠ [] := by
              intro h
              rw [ha, hb, h, ha0] at hk
              simp [len] at hk
            have hab : ¬ b ≤ [] := fun h => hb0 (le_antisymm h List.nil_le)
            simp [KeyCmpBackward, largerEntry, savedKey, ha, hb, len, ha0, hb0, hab,
              snCursor.saveCurrent]
          · by_cases hb0 : b = []
            · have hab : ([] : Bytes) ≤ a := List.nil_le
              simp [KeyCmpBackward, largerEntry, savedKey, ha, hb, len, ha0, hb0, hab,
                snCursor.saveCurrent]
            · by_cases hab : b ≤ a
              · have h1 : 0 ≤ bytesCompare (some a) (some b) := (hg a b).mpr hab
                simp [KeyCmpBackward, largerEntry, savedKey, ha, hb, len, ha0, hb0, hab, h1,
                  snCursor.saveCurrent]
              · have h1 : ¬ 0 ≤ bytesCompare (some a) (some b) :=
                  fun h => hab ((hg a b).mp h)
                simp [KeyCmpBackward, largerEntry, savedKey, ha, hb, len, ha0, hb0, hab, h1,
                  snCursor.saveCurrent]
    · intro hk
      simp [KeyCmpBackward, hk.1, hk.2]

/-- Witness of `First_Last_choose`. Hot key 05 alone, the snapshot empty (so that both
children's `Last` could as well be anything): `First` returns the hot entry. Hot keys 01
and 03, snapshot keys 02 and 03: `Last` returns the hot entry under 03, the tie. Hot key
empty and snapshot key 02: `Last` returns the snapshot entry. Hot key empty and the
snapshot empty: `Last` returns a nil key. -/
theorem First_Last_choose_witness :
    (((mergedCursor [([5], [9])] []).First kvOps).1
          = smallerEntry ⟨some [5], some [9], none⟩ Res.nil
        ∧ ((mergedCursor [([5], [9])] []).First kvOps).2.currentKey
          = savedKey none (smallerEntry ⟨some [5], some [9], none⟩ Res.nil).k)
      ∧ (((mergedCursor [([1], [5]), ([3], [6])] [([2], [7]), ([3], [8])]).Last kvOps).1
          = largerEntry ⟨some [3], some [6], none⟩ ⟨some [3], some [8], none⟩
        ∧ ((mergedCursor [([1], [5]), ([3], [6])] [([2], [7]), ([3], [8])]).Last
            kvOps).2.currentKey
          = savedKey none (largerEntry ⟨some [3], some [6], none⟩ ⟨some [3], some [8], none⟩).k)
      ∧ (((mergedCursor [([], [5])] [([2], [7])]).Last kvOps).1
          = largerEntry ⟨some [], some [5], none⟩ ⟨some [2], some [7], none⟩
        ∧ ((mergedCursor [([], [5])] [([2], [7])]).Last kvOps).2.currentKey
          = savedKey none (largerEntry ⟨some [], some [5], none⟩ ⟨some [2], some [7], none⟩).k)
      ∧ (((mergedCursor [([], [5])] []).Last kvOps).1 = Res.nil
        ∧ ((mergedCursor [([], [5])] []).Last kvOps).2.currentKey = none) :=
  ⟨(First_Last_choose kvOps (mergedCursor [([5], [9])] [])).1
      ⟨some [5], some [9], none⟩ Res.nil ⟨[([5], [9])], some 0⟩ ⟨[], none⟩
      rfl rfl rfl rfl,
   ((First_Last_choose kvOps
      (mergedCursor [([1], [5]), ([3], [6])] [([2], [7]), ([3], [8])])).2
      ⟨some [3], some [6], none⟩ ⟨some [3], some [8], none⟩
      ⟨[([1], [5]), ([3], [6])], some 1⟩ ⟨[([2], [7]), ([3], [8])], some 1⟩
      rfl rfl rfl rfl).1 (Or.inl (by decide)),
   ((First_Last_choose kvOps (mergedCursor [([], [5])] [([2], [7])])).2
      ⟨some [], some [5], none⟩ ⟨some [2], some [7], none⟩
      ⟨[([], [5])], some 0⟩ ⟨[([2], [7])], some 0⟩
      rfl rfl rfl rfl).1 (Or.inr (Or.inl (by decide))),
   ((First_Last_choose kvOps (mergedCursor [([], [5])] [])).2
      ⟨some [], some [5], none⟩ Res.nil ⟨[([], [5])], some 0⟩ ⟨[], none⟩
      rfl rfl rfl rfl).2 ⟨by decide, by decide⟩⟩

/-- C13, at two failing inputs. With the hot store holding the tombstone 00 under the
smallest key 01 (snapshot 01 -> 07, 02 -> 08), `First` returns key 01 with the tombstone
value; the first live entry is (02, 08). With the tombstone under the largest key 02,
`Last` returns key 02 with the tombstone value; the last live entry is (01, 07). -/
theorem First_Last_return_tombstone :
    ((mergedCursor [([1], [0])] [([1], [7]), ([2], [8])]).First kvOps).1
        = ⟨some [1], DeletedValue, none⟩
      ∧ mergedView [([1], [0])] [([1], [7]), ([2], [8])] = [([2], [8])]
      ∧ ((mergedCursor [([2], [0])] [([1], [7]), ([2], [8])]).Last kvOps).1
        = ⟨some [2], DeletedValue, none⟩
      ∧ mergedView [([2], [0])] [([1], [7]), ([2], [8])] = [([1], [7])] := by
  decide

/-- C14, at a failing input. The hot store holds 01 -> 05 and the snapshot 02 -> 07, no
tombstone. `Last` returns (02, 07) and the next `Prev` returns a nil key: the walk yields
only (02, 07) and skips the live entry (01, 05). The merged view in descending order is
(02, 07), (01, 05). -/
theorem walkBackward_skips_entry :
    (mergedCursor [([1], [5])] [([2], [7])]).walkBackward kvOps 4 4 = some [([2], some [7])]
      ∧ (mergedView [([1], [5])] [([2], [7])]).reverse = [([2], [7]), ([1], [5])] := by
  decide

/-- C15, at a failing input. On a merged cursor that has returned nothing yet, over hot
01 -> 05 and snapshot 02 -> 07, `Seek(01)` returns the hot entry (01, 05); `Current`
called right after it returns the snapshot entry (02, 07). -/
theorem Current_after_Seek_differs :
    ((mergedCursor [([1], [5])] [([2], [7])]).Seek kvOps [1]).1
        = ⟨some [1], some [5], none⟩
      ∧ (((mergedCursor [([1], [5])] [([2], [7])]).Seek kvOps [1]).2.Current kvOps).1
        = ⟨some [2], some [7], none⟩ := by
  decide

/-- C16, at two failing inputs. Under key 01 the hot store holds value 05 and the
snapshot value 07: the hot child finds 05, yet `SeekBothRange(01, 00)` on the merged
cursor returns the snapshot's 07. With an empty hot store the hot child finds nothing,
the snapshot child finds 07, and the merged cursor returns nil. -/
theorem SeekBothRange_inverted :
    (kvDupOps.SeekBothRange [1] [0] ⟨[([1], [5])], none⟩).1 = (some [5], none)
      ∧ (kvDupOps.SeekBothRange [1] [0] ⟨[([1], [7])], none⟩).1 = (some [7], none)
      ∧ ((mergedDupCursor [([1], [5])] [([1], [7])]).SeekBothRange kvDupOps [1] [0]).1
        = (some [7], none)
      ∧ (kvDupOps.SeekBothRange [1] [0] ⟨[], none⟩).1 = (none, none)
      ∧ ((mergedDupCursor [] [([1], [7])]).SeekBothRange kvDupOps [1] [0]).1
        = (none, none) := by
  decide

/-! ## Lemmas on the life of transactions -/

theorem beginSnapshot_events (snap : Option KvTx) (fault : Option Err) (t : StoreId)
    (e : TxEvent) (he : e ∈ (beginSnapshot snap fault t).2) : e = TxEvent.beginTx t := by
  unfold beginSnapshot at he
  cases snap with
  | none => simp at he
  | some kv =>
    cases fault with
    | some err => simp at he
    | none => simpa using he

theorem beginSnapshot_ok (snap : Option KvTx) (fault : Option Err) (t : StoreId)
    (tx : Option KvTx) (h : (beginSnapshot snap fault t).1 = .ok tx) : tx = snap := by
  unfold beginSnapshot at h
  cases snap with
  | none =>
    simp only at h
    injection h with h
    exact h.symm
  | some kv =>
    cases fault with
    | some err => simp at h
    | none =>
      simp only at h
      injection h with h
      exact h.symm

theorem rollbackIfOpen_events (tx : Option KvTx) (t : StoreId) (e : TxEvent)
    (he : e ∈ rollbackIfOpen tx t) : e = TxEvent.rollbackTx t := by
  unfold rollbackIfOpen at he
  cases tx with
  | none => simp at he
  | some kv => simpa using he

theorem SnapshotKV.BeginRw_ok (s : SnapshotKV) (fl : KvFaults) (tx : snTX)
    (ev : List TxEvent) (h : s.BeginRw fl = (.ok tx, ev)) :
    tx = ⟨s.db, s.headersSnapshot, s.bodiesSnapshot, s.stateSnapshot⟩
      ∧ ∀ t, TxEvent.commitTx t ∉ ev := by
  unfold SnapshotKV.BeginRw at h
  cases hb : fl.beginDb with
  | some err => rw [hb] at h; simp at h
  | none =>
    rw [hb] at h
    simp only at h
    unfold SnapshotKV.snapsthotsTx at h
    rcases h1 : beginSnapshot s.headersSnapshot fl.beginHeaders StoreId.headers with ⟨r1, ev1⟩
    rw [h1] at h
    cases r1 with
    | error err => simp at h
    | ok headersTX =>
      simp only at h
      rcases h2 : beginSnapshot s.bodiesSnapshot fl.beginBodies StoreId.bodies with ⟨r2, ev2⟩
      rw [h2] at h
      cases r2 with
      | error err => simp at h
      | ok bodiesTX =>
        simp only at h
        rcases h3 : beginSnapshot s.stateSnapshot fl.beginState StoreId.state with ⟨r3, ev3⟩
        rw [h3] at h
        cases r3 with
        | error err => simp at h
        | ok stateTX =>
          simp only at h
          injection h with ha hb
          injection ha with ha
          have e1 := beginSnapshot_ok _ _ _ headersTX (by rw [h1])
          have e2 := beginSnapshot_ok _ _ _ bodiesTX (by rw [h2])
          have e3 := beginSnapshot_ok _ _ _ stateTX (by rw [h3])
          refine ⟨?_, ?_⟩
          · rw [← ha, e1, e2, e3]
          · intro t ht
            rw [← hb] at ht
            simp only [List.mem_cons, List.mem_append] at ht
            rcases ht with ht | (ht | ht) | ht
            · exact absurd ht (by simp)
            · have := beginSnapshot_events _ _ _ _ (by rw [h1]; exact ht)
              exact absurd this (by simp)
            · have := beginSnapshot_events _ _ _ _ (by rw [h2]; exact ht)
              exact absurd this (by simp)
            · have := beginSnapshot_events _ _ _ _ (by rw [h3]; exact ht)
              exact absurd this (by simp)

theorem snTX.snapshotsRollback_events (tx : snTX) (e : TxEvent)
    (he : e ∈ tx.snapshotsRollback) : ∃ t, e = TxEvent.rollbackTx t := by
  unfold snTX.snapshotsRollback at he
  simp only [List.mem_append] at he
  rcases he with (he | he) | he
  · exact ⟨_, rollbackIfOpen_events _ _ _ he⟩
  · exact ⟨_, rollbackIfOpen_events _ _ _ he⟩
  · exact ⟨_, rollbackIfOpen_events _ _ _ he⟩

theorem snTX.snapshotsRollback_mem (tx : snTX) :
    (tx.headersTX ≠ none → TxEvent.rollbackTx StoreId.headers ∈ tx.snapshotsRollback)
      ∧ (tx.bodiesTX ≠ none → TxEvent.rollbackTx StoreId.bodies ∈ tx.snapshotsRollback)
      ∧ (tx.stateTX ≠ none → TxEvent.rollbackTx StoreId.state ∈ tx.snapshotsRollback) := by
  unfold snTX.snapshotsRollback
  refine ⟨?_, ?_, ?_⟩
  · intro h
    cases hh : tx.headersTX with
    | none => exact absurd hh h
    | some kv => simp [rollbackIfOpen]
  · intro h
    cases hh : tx.bodiesTX with
    | none => exact absurd hh h
    | some kv => simp [rollbackIfOpen]
  · intro h
    cases hh : tx.stateTX with
    | none => exact absurd hh h
    | some kv => simp [rollbackIfOpen]

theorem snTX.Rollback_no_commit (tx : snTX) (t : StoreId) :
    TxEvent.commitTx t ∉ tx.Rollback := by
  intro h
  unfold snTX.Rollback at h
  rcases List.mem_cons.mp h with h | h
  · exact absurd h (by simp)
  · obtain ⟨t1, ht1⟩ := snTX.snapshotsRollback_events tx _ h
    exact absurd ht1 (by simp)

/-- C17. Let `BeginRw` succeed with transaction `tx0`. `SnapshotKV.Update(f)` calls
`Commit` on the hot transaction exactly when `f` returns nil. When `f` returns an error,
`Update` returns that error and the overlay store is as before, so none of the writes of
`f` is committed. When `f` returns nil, `Update` returns the result of the hot commit;
the content of the hot store becomes the content of the transaction when the commit
succeeds and stays as before when it fails. `snTX.Commit` returns the result of the hot
commit and calls `Commit` on the hot transaction only; `Commit` and `Rollback` call
`Rollback` on every snapshot transaction that is open, whatever the hot commit
returns, and `Rollback` commits nothing. -/
theorem Update_Commit_Rollback (s : SnapshotKV) (fl : KvFaults)
    (f : snTX → Option Err × snTX) (tx0 : snTX) (ev0 : List TxEvent)
    (hbegin : s.BeginRw fl = (.ok tx0, ev0)) (tx : snTX) (commitDb : Option Err) :
    ((TxEvent.commitTx StoreId.db ∈ (s.Update fl f).2.2 ↔ (f tx0).1 = none)
      ∧ (∀ e, (f tx0).1 = some e → (s.Update fl f).1 = some e ∧ (s.Update fl f).2.1 = s)
      ∧ ((f tx0).1 = none → (s.Update fl f).1 = fl.commitDb)
      ∧ ((f tx0).1 = none → fl.commitDb = none →
          (s.Update fl f).2.1.db = (f tx0).2.dbTX)
      ∧ ((f tx0).1 = none → fl.commitDb ≠ none → (s.Update fl f).2.1 = s))
    ∧ ((tx.Commit commitDb).1 = commitDb
      ∧ (∀ t, TxEvent.commitTx t ∈ (tx.Commit commitDb).2 ↔ t = StoreId.db)
      ∧ (tx.headersTX ≠ none → TxEvent.rollbackTx StoreId.headers ∈ (tx.Commit commitDb).2)
      ∧ (tx.bodiesTX ≠ none → TxEvent.rollbackTx StoreId.bodies ∈ (tx.Commit commitDb).2)
      ∧ (tx.stateTX ≠ none → TxEvent.rollbackTx StoreId.state ∈ (tx.Commit commitDb).2))
    ∧ ((∀ t, TxEvent.commitTx t ∉ tx.Rollback)
      ∧ TxEvent.rollbackTx StoreId.db ∈ tx.Rollback
      ∧ (tx.headersTX ≠ none → TxEvent.rollbackTx StoreId.headers ∈ tx.Rollback)
      ∧ (tx.bodiesTX ≠ none → TxEvent.rollbackTx StoreId.bodies ∈ tx.Rollback)
      ∧ (tx.stateTX ≠ none → TxEvent.rollbackTx StoreId.state ∈ tx.Rollback)) := by
  obtain ⟨m1, m2, m3⟩ := snTX.snapshotsRollback_mem tx
  have hnc := (SnapshotKV.BeginRw_ok s fl tx0 ev0 hbegin).2
  refine ⟨?_, ⟨rfl, ?_, ?_, ?_, ?_⟩, ⟨snTX.Rollback_no_commit tx, ?_, ?_, ?_, ?_⟩⟩
  · rcases hf : f tx0 with ⟨err, tx1⟩
    have hU : s.Update fl f =
        (match err with
          | none =>
            (match fl.commitDb with
              | none => (none, { s with db := tx1.dbTX },
                  ev0 ++ (TxEvent.commitTx StoreId.db :: tx1.snapshotsRollback) ++ tx1.Rollback)
              | some e => (some e, s,
                  ev0 ++ (TxEvent.commitTx StoreId.db :: tx1.snapshotsRollback) ++ tx1.Rollback))
          | some e => (some e, s, ev0 ++ tx1.Rollback)) := by
      simp only [SnapshotKV.Update, hbegin, hf, snTX.Commit]
      cases err with
      | some e => rfl
      | none =>
        cases fl.commitDb with
        | none => rfl
        | some e => rfl
    rw [hU]
    cases err with
    | some e =>
      simp only
      refine ⟨?_, ?_, ?_, ?_, ?_⟩
      · constructor
        · intro h
          rcases List.mem_append.mp h with h | h
          · exact absurd h (hnc _)
          · exact absurd h (snTX.Rollback_no_commit tx1 _)
        · intro h
          exact absurd h (by simp)
      · intro e1 he1
        injection he1 with he1
        rw [he1]
        trivial
      · intro h
        exact absurd h (by simp)
      · intro h
        exact absurd h (by simp)
      · intro h
        exact absurd h (by simp)
    | none =>
      simp only
      cases hc : fl.commitDb with
      | none =>
        simp only
        refine ⟨?_, ?_, ?_, ?_, ?_⟩
        · simp
        · intro e1 he1
          exact absurd he1 (by simp)
        · intro _
          trivial
        · intro _ _
          trivial
        · intro _ h
          exact absurd rfl h
      | some e =>
        simp only
        refine ⟨?_, ?_, ?_, ?_, ?_⟩
        · simp
        · intro e1 he1
          exact absurd he1 (by simp)
        · intro _
          trivial
        · intro _ h
          exact absurd h (by simp)
        · intro _ _
          trivial
  · intro t
    unfold snTX.Commit
    constructor
    · intro h
      rcases List.mem_cons.mp h with h | h
      · injection h with h
      · obtain ⟨t1, ht1⟩ := snTX.snapshotsRollback_events tx _ h
        exact absurd ht1 (by simp)
    · intro h
      rw [h]
      exact List.mem_cons_self _ _
  · intro h
    exact List.mem_cons_of_mem _ (m1 h)
  · intro h
    exact List.mem_cons_of_mem _ (m2 h)
  · intro h
    exact List.mem_cons_of_mem _ (m3 h)
  · exact List.mem_cons_self _ _
  · intro h
    exact List.mem_cons_of_mem _ (m1 h)
  · intro h
    exact List.mem_cons_of_mem _ (m2 h)
  · intro h
    exact List.mem_cons_of_mem _ (m3 h)

/-- Witness of `Update_Commit_Rollback`: an overlay with a state snapshot, no failing
call; a function that fails commits nothing and leaves the store as it was. -/
theorem Update_Commit_Rollback_witness :
    (TxEvent.commitTx StoreId.db ∉
        (SnapshotKV.Update ⟨KvTx.single otherBucket [], none, none,
          some (KvTx.single dbutils.PlainStateBucket [([1], [7])])⟩ KvFaults.none
          (fun tx => (some (Err.other "stop"), (tx.Put otherBucket [1] (some [5])).2))).2.2)
      ∧ (SnapshotKV.Update ⟨KvTx.single otherBucket [], none, none,
          some (KvTx.single dbutils.PlainStateBucket [([1], [7])])⟩ KvFaults.none
          (fun tx => (some (Err.other "stop"), (tx.Put otherBucket [1] (some [5])).2))).1
        = some (Err.other "stop")
      ∧ (SnapshotKV.Update ⟨KvTx.single otherBucket [], none, none,
          some (KvTx.single dbutils.PlainStateBucket [([1], [7])])⟩ KvFaults.none
          (fun tx => (some (Err.other "stop"), (tx.Put otherBucket [1] (some [5])).2))).2.1
        = ⟨KvTx.single otherBucket [], none, none,
          some (KvTx.single dbutils.PlainStateBucket [([1], [7])])⟩ :=
  ⟨fun h => absurd ((Update_Commit_Rollback ⟨KvTx.single otherBucket [], none, none,
        some (KvTx.single dbutils.PlainStateBucket [([1], [7])])⟩ KvFaults.none
      (fun tx => (some (Err.other "stop"), (tx.Put otherBucket [1] (some [5])).2))
      _ _ rfl (stateOverlay [] []) none).1.1.mp h) (by simp),
    ((Update_Commit_Rollback ⟨KvTx.single otherBucket [], none, none,
        some (KvTx.single dbutils.PlainStateBucket [([1], [7])])⟩ KvFaults.none
      (fun tx => (some (Err.other "stop"), (tx.Put otherBucket [1] (some [5])).2))
      _ _ rfl (stateOverlay [] []) none).1.2.1 _ rfl).1,
    ((Update_Commit_Rollback ⟨KvTx.single otherBucket [], none, none,
        some (KvTx.single dbutils.PlainStateBucket [([1], [7])])⟩ KvFaults.none
      (fun tx => (some (Err.other "stop"), (tx.Put otherBucket [1] (some [5])).2))
      _ _ rfl (stateOverlay [] []) none).1.2.1 _ rfl).2⟩

theorem SnapshotKV.BeginRo_ok (s : SnapshotKV) (fl : KvFaults) (tx : snTX)
    (ev : List TxEvent) (h : s.BeginRo fl = (.ok tx, ev)) :
    tx = ⟨s.db, s.headersSnapshot, s.bodiesSnapshot, s.stateSnapshot⟩ :=
  (SnapshotKV.BeginRw_ok s fl tx ev h).1

theorem StoreHeap.openAt_of (h h1 : StoreHeap)
    (hq : ∀ q, 0 < (h.get q).openTxs → (h.get q).shut = false →
      0 < (h1.get q).openTxs ∧ (h1.get q).shut = false)
    (x : Option StorePtr) (hx : h.openAt x = true) : h1.openAt x = true := by
  cases x with
  | none => rfl
  | some p =>
    simp only [StoreHeap.openAt, Bool.and_eq_true, decide_eq_true_eq, Bool.not_eq_true'] at hx ⊢
    exact hq p hx.1 hx.2

theorem StoreHeap.readTxOpt_of_open (h : StoreHeap) (x : Option StorePtr)
    (hx : h.openAt x = true) :
    h.readTxOpt x = .ok (x.map (fun p => (h.get p).content)) := by
  cases x with
  | none => rfl
  | some p =>
    simp only [StoreHeap.openAt, Bool.and_eq_true, decide_eq_true_eq, Bool.not_eq_true'] at hx
    simp [StoreHeap.readTxOpt, StoreHeap.readTx, hx.2]

theorem snTXRefs.view_of_open (t : snTXRefs) (h : StoreHeap) (ho : t.isOpen h = true) :
    t.view h = .ok ⟨t.dbTX, t.headersTX.map (fun p => (h.get p).content),
      t.bodiesTX.map (fun p => (h.get p).content),
      t.stateTX.map (fun p => (h.get p).content)⟩ := by
  simp only [snTXRefs.isOpen, Bool.and_eq_true] at ho
  obtain ⟨⟨h1, h2⟩, h3⟩ := ho
  simp only [snTXRefs.view, StoreHeap.readTxOpt_of_open h _ h1,
    StoreHeap.readTxOpt_of_open h _ h2, StoreHeap.readTxOpt_of_open h _ h3]

theorem StoreHeap.beginRo_open (heap h1 : StoreHeap) (snap tx : Option StorePtr)
    (h : heap.beginRo snap = (.ok tx, h1)) :
    tx = snap
      ∧ (∀ q, (h1.get q).content = (heap.get q).content)
      ∧ (∀ q, 0 < (heap.get q).openTxs → (heap.get q).shut = false →
          0 < (h1.get q).openTxs ∧ (h1.get q).shut = false)
      ∧ h1.openAt tx = true := by
  cases snap with
  | none =>
    simp only [StoreHeap.beginRo, Prod.mk.injEq, Except.ok.injEq] at h
    obtain ⟨h2, h3⟩ := h
    subst h2
    subst h3
    exact ⟨rfl, fun _ => rfl, fun _ a b => ⟨a, b⟩, rfl⟩
  | some p =>
    unfold StoreHeap.beginRo at h
    simp only [RoKV.BeginRo] at h
    by_cases hc : (heap.get p).closing = true ∨ (heap.get p).shut = true
    · simp [hc] at h
    · simp only [hc, if_false, Prod.mk.injEq, Except.ok.injEq] at h
      obtain ⟨h2, h3⟩ := h
      subst h2
      subst h3
      have hs : (heap.get p).shut = false := by
        cases hv : (heap.get p).shut with
        | false => rfl
        | true => exact absurd (Or.inr hv) hc
      refine ⟨rfl, ?_, ?_, ?_⟩
      · intro q
        by_cases hqp : q = p
        · simp [StoreHeap.set, hqp]
        · simp [StoreHeap.set, hqp]
      · intro q a b
        by_cases hqp : q = p
        · subst hqp
          simp [StoreHeap.set, b]
        · simp [StoreHeap.set, hqp, a, b]
      · simp [StoreHeap.openAt, StoreHeap.set, hs]

theorem SnapshotKVRefs.snapsthotsTx_open (s : SnapshotKVRefs) (heap h1 : StoreHeap)
    (a b c : Option StorePtr) (h : s.snapsthotsTx heap = (.ok (a, b, c), h1)) :
    a = s.headersSnapshot ∧ b = s.bodiesSnapshot ∧ c = s.stateSnapshot
      ∧ (∀ q, (h1.get q).content = (heap.get q).content)
      ∧ h1.openAt a = true ∧ h1.openAt b = true ∧ h1.openAt c = true := by
  unfold SnapshotKVRefs.snapsthotsTx at h
  rcases hA : heap.beginRo s.headersSnapshot with ⟨r1, g1⟩
  rw [hA] at h
  cases r1 with
  | error e => simp at h
  | ok x1 =>
    simp only at h
    rcases hB : g1.beginRo s.bodiesSnapshot with ⟨r2, g2⟩
    rw [hB] at h
    cases r2 with
    | error e => simp at h
    | ok x2 =>
      simp only at h
      rcases hC : g2.beginRo s.stateSnapshot with ⟨r3, g3⟩
      rw [hC] at h
      cases r3 with
      | error e => simp at h
      | ok x3 =>
        simp only [Prod.mk.injEq, Except.ok.injEq] at h
        obtain ⟨⟨e1, e2, e3⟩, e4⟩ := h
        subst e1
        subst e2
        subst e3
        subst e4
        obtain ⟨a1, a2, a3, a4⟩ := StoreHeap.beginRo_open heap g1 _ _ hA
        obtain ⟨b1, b2, b3, b4⟩ := StoreHeap.beginRo_open g1 g2 _ _ hB
        obtain ⟨c1, c2, c3, c4⟩ := StoreHeap.beginRo_open g2 g3 _ _ hC
        refine ⟨a1, b1, c1, ?_, ?_, ?_, c4⟩
        · intro q
          rw [c2, b2, a2]
        · exact StoreHeap.openAt_of g2 g3 c3 _ (StoreHeap.openAt_of g1 g2 b3 _ a4)
        · exact StoreHeap.openAt_of g2 g3 c3 _ b4

theorem SnapshotKVRefs.BeginRw_open (s : SnapshotKVRefs) (heap h1 : StoreHeap)
    (beginDb : Option Err) (t : snTXRefs) (h : s.BeginRw heap beginDb = (.ok t, h1)) :
    t = ⟨s.db, s.headersSnapshot, s.bodiesSnapshot, s.stateSnapshot⟩
      ∧ (∀ q, (h1.get q).content = (heap.get q).content)
      ∧ t.isOpen h1 = true := by
  unfold SnapshotKVRefs.BeginRw at h
  cases beginDb with
  | some e => simp at h
  | none =>
    simp only at h
    rcases hA : s.snapsthotsTx heap with ⟨r, g⟩
    rw [hA] at h
    cases r with
    | error e => simp at h
    | ok x =>
      obtain ⟨a, b, c⟩ := x
      simp only [Prod.mk.injEq, Except.ok.injEq] at h
      obtain ⟨e1, e2⟩ := h
      subst e1
      subst e2
      obtain ⟨a1, a2, a3, a4, a5, a6, a7⟩ := SnapshotKVRefs.snapsthotsTx_open s heap g a b c hA
      subst a1
      subst a2
      subst a3
      refine ⟨rfl, a4, ?_⟩
      simp [snTXRefs.isOpen, a5, a6, a7]

theorem SnapshotKVRefs.BeginRo_open (s : SnapshotKVRefs) (heap h1 : StoreHeap)
    (beginDb : Option Err) (t : snTXRefs) (h : s.BeginRo heap beginDb = (.ok t, h1)) :
    t = ⟨s.db, s.headersSnapshot, s.bodiesSnapshot, s.stateSnapshot⟩
      ∧ (∀ q, (h1.get q).content = (heap.get q).content)
      ∧ t.isOpen h1 = true :=
  SnapshotKVRefs.BeginRw_open s heap h1 beginDb t h

theorem SnapshotKV.goroutine_keeps (toClose : Option StorePtr) (heap : StoreHeap) :
    (∀ q, ((SnapshotKV.UpdateSnapshots.goroutine toClose heap).1.get q).content
        = (heap.get q).content)
      ∧ (∀ q, 0 < (heap.get q).openTxs → (heap.get q).shut = false →
          0 < ((SnapshotKV.UpdateSnapshots.goroutine toClose heap).1.get q).openTxs
            ∧ ((SnapshotKV.UpdateSnapshots.goroutine toClose heap).1.get q).shut = false)
      ∧ (∀ q, toClose ≠ some q →
          (SnapshotKV.UpdateSnapshots.goroutine toClose heap).1.get q = heap.get q)
      ∧ (∀ q, toClose = some q →
          (SnapshotKV.UpdateSnapshots.goroutine toClose heap).1.get q = (heap.get q).Close)
      ∧ (∀ q, CloserEvent.close q ∈ (SnapshotKV.UpdateSnapshots.goroutine toClose heap).2
          ↔ toClose = some q) := by
  cases toClose with
  | none =>
    simp [SnapshotKV.UpdateSnapshots.goroutine]
    intro q a b
    exact ⟨a, b⟩
  | some p =>
    refine ⟨?_, ?_, ?_, ?_, ?_⟩
    · intro q
      by_cases hqp : q = p
      · simp [SnapshotKV.UpdateSnapshots.goroutine, StoreHeap.set, hqp, RoKV.Close]
      · simp [SnapshotKV.UpdateSnapshots.goroutine, StoreHeap.set, hqp]
    · intro q a b
      by_cases hqp : q = p
      · subst hqp
        have a1 : (heap.get q).openTxs ≠ 0 := Nat.pos_iff_ne_zero.mp a
        simp [SnapshotKV.UpdateSnapshots.goroutine, StoreHeap.set, RoKV.Close, a, b, a1]
      · simp [SnapshotKV.UpdateSnapshots.goroutine, StoreHeap.set, hqp, a, b]
    · intro q hq
      have hqp : q ≠ p := fun e => hq (by rw [e])
      simp [SnapshotKV.UpdateSnapshots.goroutine, StoreHeap.set, hqp]
    · intro q hq
      injection hq with hq
      subst hq
      simp [SnapshotKV.UpdateSnapshots.goroutine, StoreHeap.set]
    · intro q
      simp [SnapshotKV.UpdateSnapshots.goroutine]
      constructor
      · intro e
        exact e.symm
      · intro e
        exact e.symm

/-- The store the goroutine of `UpdateSnapshots` closes: the old store of the tag. -/
theorem SnapshotKV.UpdateSnapshots_heap (s : SnapshotKVRefs) (heap : StoreHeap) (tp : String)
    (kv : Option StorePtr) :
    ∃ toClose : Option StorePtr,
      (SnapshotKV.UpdateSnapshots s heap tp kv).2
          = SnapshotKV.UpdateSnapshots.goroutine toClose heap
        ∧ (∀ p, toClose = some p ↔
          ((tp = "headers" ∧ s.headersSnapshot = some p)
            ∨ (tp = "bodies" ∧ s.bodiesSnapshot = some p)
            ∨ (tp = "state" ∧ s.stateSnapshot = some p))) := by
  unfold SnapshotKV.UpdateSnapshots
  by_cases h1 : tp = "headers"
  · refine ⟨s.headersSnapshot, by simp [h1], fun p => ⟨fun hp => Or.inl ⟨h1, hp⟩, ?_⟩⟩
    intro h
    rcases h with h | h | h
    · exact h.2
    · rw [h1] at h
      exact absurd h.1 (by decide)
    · rw [h1] at h
      exact absurd h.1 (by decide)
  · by_cases h2 : tp = "bodies"
    · refine ⟨s.bodiesSnapshot, by simp [h2],
        fun p => ⟨fun hp => Or.inr (Or.inl ⟨h2, hp⟩), ?_⟩⟩
      intro h
      rcases h with h | h | h
      · exact absurd h.1 h1
      · exact h.2
      · rw [h2] at h
        exact absurd h.1 (by decide)
    · by_cases h3 : tp = "state"
      · refine ⟨s.stateSnapshot, by simp [h3],
          fun p => ⟨fun hp => Or.inr (Or.inr ⟨h3, hp⟩), ?_⟩⟩
        intro h
        rcases h with h | h | h
        · exact absurd h.1 h1
        · exact absurd h.1 h2
        · exact h.2
      · refine ⟨none, by simp [h1, h2, h3], fun p => ⟨fun hp => absurd hp (by simp), ?_⟩⟩
        intro h
        rcases h with h | h | h
        · exact absurd h.1 h1
        · exact absurd h.1 h2
        · exact absurd h.1 h3

/-- C18, on the snapshot stores as objects that can be closed. `UpdateSnapshots(tp, kv)`
leaves the hot store as it is; for tp = headers, bodies or state it puts `kv` in the
place of that snapshot store and leaves the other two as they are; for any other tag the
overlay and every store object are unchanged. The goroutine calls `Close` on the old
store of the tag and on no other store, it sends on `done` last, and the content of no
store changes. A composite transaction that is open at the call is still open when the
goroutine has closed the old store, and each of its reads returns what it returned
before the call; one that `BeginRo` or `BeginRw` opened on the overlay before the call
holds the snapshot transactions it opened and reads the hot content and the content of
the snapshot stores of before the swap. A transaction opened after the call holds the
stores of the overlay after the swap, with `kv` for the tag `tp`, and reads their
content. -/
theorem UpdateSnapshots_swaps_one (s : SnapshotKVRefs) (heap : StoreHeap) (tp : String)
    (kv : Option StorePtr) :
    (SnapshotKV.UpdateSnapshots s heap tp kv).1.db = s.db
      ∧ (tp = "headers" →
          (SnapshotKV.UpdateSnapshots s heap tp kv).1.headersSnapshot = kv
            ∧ (SnapshotKV.UpdateSnapshots s heap tp kv).1.bodiesSnapshot = s.bodiesSnapshot
            ∧ (SnapshotKV.UpdateSnapshots s heap tp kv).1.stateSnapshot = s.stateSnapshot)
      ∧ (tp = "bodies" →
          (SnapshotKV.UpdateSnapshots s heap tp kv).1.headersSnapshot = s.headersSnapshot
            ∧ (SnapshotKV.UpdateSnapshots s heap tp kv).1.bodiesSnapshot = kv
            ∧ (SnapshotKV.UpdateSnapshots s heap tp kv).1.stateSnapshot = s.stateSnapshot)
      ∧ (tp = "state" →
          (SnapshotKV.UpdateSnapshots s heap tp kv).1.headersSnapshot = s.headersSnapshot
            ∧ (SnapshotKV.UpdateSnapshots s heap tp kv).1.bodiesSnapshot = s.bodiesSnapshot
            ∧ (SnapshotKV.UpdateSnapshots s heap tp kv).1.stateSnapshot = kv)
      ∧ (tp ∉ ["headers", "bodies", "state"] →
          (SnapshotKV.UpdateSnapshots s heap tp kv).1 = s
            ∧ (SnapshotKV.UpdateSnapshots s heap tp kv).2.1 = heap)
      ∧ (∀ q, ((SnapshotKV.UpdateSnapshots s heap tp kv).2.1.get q).content
          = (heap.get q).content)
      ∧ (∀ q, CloserEvent.close q ∈ (SnapshotKV.UpdateSnapshots s heap tp kv).2.2 ↔
          ((tp = "headers" ∧ s.headersSnapshot = some q)
            ∨ (tp = "bodies" ∧ s.bodiesSnapshot = some q)
            ∨ (tp = "state" ∧ s.stateSnapshot = some q)))
      ∧ (∀ q, CloserEvent.close q ∈ (SnapshotKV.UpdateSnapshots s heap tp kv).2.2 →
          (SnapshotKV.UpdateSnapshots s heap tp kv).2.1.get q = (heap.get q).Close)
      ∧ (∀ q, CloserEvent.close q ∉ (SnapshotKV.UpdateSnapshots s heap tp kv).2.2 →
          (SnapshotKV.UpdateSnapshots s heap tp kv).2.1.get q = heap.get q)
      ∧ (∀ t1 : snTXRefs, t1.isOpen heap = true →
          t1.isOpen (SnapshotKV.UpdateSnapshots s heap tp kv).2.1 = true
            ∧ t1.view (SnapshotKV.UpdateSnapshots s heap tp kv).2.1 = t1.view heap
            ∧ ∀ (bucket : String) (key : Bytes),
              t1.GetOne (SnapshotKV.UpdateSnapshots s heap tp kv).2.1 bucket key
                = t1.GetOne heap bucket key)
      ∧ (∀ (heap0 : StoreHeap) (beginDb : Option Err) (t1 : snTXRefs),
          (s.BeginRo heap0 beginDb = (.ok t1, heap)
            ∨ s.BeginRw heap0 beginDb = (.ok t1, heap)) →
          t1 = ⟨s.db, s.headersSnapshot, s.bodiesSnapshot, s.stateSnapshot⟩
            ∧ t1.view (SnapshotKV.UpdateSnapshots s heap tp kv).2.1
              = .ok ⟨s.db, s.headersSnapshot.map (fun p => (heap0.get p).content),
                  s.bodiesSnapshot.map (fun p => (heap0.get p).content),
                  s.stateSnapshot.map (fun p => (heap0.get p).content)⟩)
      ∧ (∀ (beginDb : Option Err) (t2 : snTXRefs) (heap2 : StoreHeap),
          ((SnapshotKV.UpdateSnapshots s heap tp kv).1.BeginRo
                (SnapshotKV.UpdateSnapshots s heap tp kv).2.1 beginDb = (.ok t2, heap2)
            ∨ (SnapshotKV.UpdateSnapshots s heap tp kv).1.BeginRw
                (SnapshotKV.UpdateSnapshots s heap tp kv).2.1 beginDb = (.ok t2, heap2)) →
          t2 = ⟨s.db, (SnapshotKV.UpdateSnapshots s heap tp kv).1.headersSnapshot,
              (SnapshotKV.UpdateSnapshots s heap tp kv).1.bodiesSnapshot,
              (SnapshotKV.UpdateSnapshots s heap tp kv).1.stateSnapshot⟩
            ∧ t2.view heap2
              = .ok ⟨s.db,
                  (SnapshotKV.UpdateSnapshots s heap tp kv).1.headersSnapshot.map
                    (fun p => (heap.get p).content),
                  (SnapshotKV.UpdateSnapshots s heap tp kv).1.bodiesSnapshot.map
                    (fun p => (heap.get p).content),
                  (SnapshotKV.UpdateSnapshots s heap tp kv).1.stateSnapshot.map
                    (fun p => (heap.get p).content)⟩)
      ∧ (SnapshotKV.UpdateSnapshots s heap tp kv).2.2.getLast? = some CloserEvent.done := by
  obtain ⟨tc, htc, htag⟩ := SnapshotKV.UpdateSnapshots_heap s heap tp kv
  have hh : (SnapshotKV.UpdateSnapshots s heap tp kv).2.1
      = (SnapshotKV.UpdateSnapshots.goroutine tc heap).1 := by rw [htc]
  have he : (SnapshotKV.UpdateSnapshots s heap tp kv).2.2
      = (SnapshotKV.UpdateSnapshots.goroutine tc heap).2 := by rw [htc]
  obtain ⟨g1, g2, g3, g4, g5⟩ := SnapshotKV.goroutine_keeps tc heap
  have hdb : (SnapshotKV.UpdateSnapshots s heap tp kv).1.db = s.db := by
    unfold SnapshotKV.UpdateSnapshots
    split
    · rfl
    · split
      · rfl
      · split <;> rfl
  have hcont : (fun p => ((SnapshotKV.UpdateSnapshots s heap tp kv).2.1.get p).content)
      = (fun p => (heap.get p).content) := by
    funext p
    rw [hh]
    exact g1 p
  have hopen : ∀ t1 : snTXRefs, t1.isOpen heap = true →
      t1.isOpen (SnapshotKV.UpdateSnapshots s heap tp kv).2.1 = true := by
    intro t1 ho
    rw [hh]
    simp only [snTXRefs.isOpen, Bool.and_eq_true] at ho ⊢
    exact ⟨⟨StoreHeap.openAt_of heap _ g2 _ ho.1.1, StoreHeap.openAt_of heap _ g2 _ ho.1.2⟩,
      StoreHeap.openAt_of heap _ g2 _ ho.2⟩
  have hview : ∀ t1 : snTXRefs, t1.isOpen heap = true →
      t1.view (SnapshotKV.UpdateSnapshots s heap tp kv).2.1 = t1.view heap := by
    intro t1 ho
    rw [snTXRefs.view_of_open t1 _ (hopen t1 ho), snTXRefs.view_of_open t1 heap ho, hcont]
  refine ⟨hdb, ?_, ?_, ?_, ?_, ?_, ?_, ?_, ?_, ?_, ?_, ?_, ?_⟩
  · intro h
    simp [SnapshotKV.UpdateSnapshots, h]
  · intro h
    simp [SnapshotKV.UpdateSnapshots, h]
  · intro h
    simp [SnapshotKV.UpdateSnapshots, h]
  · intro h
    simp only [List.mem_cons, List.mem_singleton, List.not_mem_nil, or_false, not_or] at h
    obtain ⟨h1, h2, h3⟩ := h
    simp [SnapshotKV.UpdateSnapshots, h1, h2, h3, SnapshotKV.UpdateSnapshots.goroutine]
  · intro q
    rw [hh]
    exact g1 q
  · intro q
    rw [he]
    exact (g5 q).trans (htag q)
  · intro q hq
    rw [he] at hq
    rw [hh]
    exact g4 q ((g5 q).mp hq)
  · intro q hq
    rw [he] at hq
    rw [hh]
    exact g3 q (fun e => hq ((g5 q).mpr e))
  · intro t1 ho
    refine ⟨hopen t1 ho, hview t1 ho, ?_⟩
    intro bucket key
    simp only [snTXRefs.GetOne, hview t1 ho]
  · intro heap0 beginDb t1 h
    have hb : t1 = ⟨s.db, s.headersSnapshot, s.bodiesSnapshot, s.stateSnapshot⟩
        ∧ (∀ q, (heap.get q).content = (heap0.get q).content) ∧ t1.isOpen heap = true := by
      rcases h with h | h
      · exact SnapshotKVRefs.BeginRo_open s heap0 heap beginDb t1 h
      · exact SnapshotKVRefs.BeginRw_open s heap0 heap beginDb t1 h
    obtain ⟨b1, b2, b3⟩ := hb
    refine ⟨b1, ?_⟩
    have hc0 : (fun p => (heap.get p).content) = (fun p => (heap0.get p).content) :=
      funext b2
    rw [hview t1 b3, snTXRefs.view_of_open t1 heap b3, hc0, b1]
  · intro beginDb t2 heap2 h
    have hb : t2 = ⟨(SnapshotKV.UpdateSnapshots s heap tp kv).1.db,
          (SnapshotKV.UpdateSnapshots s heap tp kv).1.headersSnapshot,
          (SnapshotKV.UpdateSnapshots s heap tp kv).1.bodiesSnapshot,
          (SnapshotKV.UpdateSnapshots s heap tp kv).1.stateSnapshot⟩
        ∧ (∀ q, (heap2.get q).content
            = ((SnapshotKV.UpdateSnapshots s heap tp kv).2.1.get q).content)
        ∧ t2.isOpen heap2 = true := by
      rcases h with h | h
      · exact SnapshotKVRefs.BeginRo_open _ _ heap2 beginDb t2 h
      · exact SnapshotKVRefs.BeginRw_open _ _ heap2 beginDb t2 h
    obtain ⟨b1, b2, b3⟩ := hb
    rw [hdb] at b1
    refine ⟨b1, ?_⟩
    have hc2 : (fun p => (heap2.get p).content) = (fun p => (heap.get p).content) := by
      funext p
      rw [b2 p, hh]
      exact g1 p
    rw [snTXRefs.view_of_open t2 heap2 b3, hc2, b1]
  · rw [he]
    cases tc with
    | none => rfl
    | some p => rfl

/-- Witness of `UpdateSnapshots_swaps_one`, scenario 5 of the spec. The state snapshot is
the store at pointer 0, which holds 01 -> 07; a transaction is opened, and the state
snapshot is swapped for the store at pointer 1, which holds 01 -> 09. With the old store
closed by the goroutine, the transaction opened before the swap reads 07 as before, and
a transaction opened after the swap reads 09. -/
theorem UpdateSnapshots_swaps_one_witness :
    (snTXRefs.GetOne ⟨stateRefs.db, none, none, some 0⟩
          (SnapshotKV.UpdateSnapshots stateRefs
            (stateRefs.BeginRo (stateHeap [([1], [7])] [([1], [9])]) none).2
            "state" (some 1)).2.1 dbutils.PlainStateBucket [1]
        = snTXRefs.GetOne ⟨stateRefs.db, none, none, some 0⟩
          (stateRefs.BeginRo (stateHeap [([1], [7])] [([1], [9])]) none).2
          dbutils.PlainStateBucket [1])
      ∧ snTXRefs.GetOne ⟨stateRefs.db, none, none, some 0⟩
          (stateRefs.BeginRo (stateHeap [([1], [7])] [([1], [9])]) none).2
          dbutils.PlainStateBucket [1] = .ok (some [7])
      ∧ snTXRefs.view ⟨stateRefs.db, none, none, some 0⟩
          (SnapshotKV.UpdateSnapshots stateRefs
            (stateRefs.BeginRo (stateHeap [([1], [7])] [([1], [9])]) none).2
            "state" (some 1)).2.1
        = .ok ⟨stateRefs.db, none, none,
            some (KvTx.single dbutils.PlainStateBucket [([1], [7])])⟩
      ∧ (SnapshotKV.UpdateSnapshots stateRefs
            (stateRefs.BeginRo (stateHeap [([1], [7])] [([1], [9])]) none).2
            "state" (some 1)).2.2 = [CloserEvent.close 0, CloserEvent.done]
      ∧ snTXRefs.view ⟨stateRefs.db, none, none, some 1⟩
          ((SnapshotKV.UpdateSnapshots stateRefs
            (stateRefs.BeginRo (stateHeap [([1], [7])] [([1], [9])]) none).2
            "state" (some 1)).1.BeginRo
            (SnapshotKV.UpdateSnapshots stateRefs
              (stateRefs.BeginRo (stateHeap [([1], [7])] [([1], [9])]) none).2
              "state" (some 1)).2.1 none).2
        = .ok ⟨stateRefs.db, none, none,
            some (KvTx.single dbutils.PlainStateBucket [([1], [9])])⟩
      ∧ snTXRefs.GetOne ⟨stateRefs.db, none, none, some 1⟩
          ((SnapshotKV.UpdateSnapshots stateRefs
            (stateRefs.BeginRo (stateHeap [([1], [7])] [([1], [9])]) none).2
            "state" (some 1)).1.BeginRo
            (SnapshotKV.UpdateSnapshots stateRefs
              (stateRefs.BeginRo (stateHeap [([1], [7])] [([1], [9])]) none).2
              "state" (some 1)).2.1 none).2
          dbutils.PlainStateBucket [1] = .ok (some [9]) :=
  ⟨((UpdateSnapshots_swaps_one stateRefs
        (stateRefs.BeginRo (stateHeap [([1], [7])] [([1], [9])]) none).2
        "state" (some 1)).2.2.2.2.2.2.2.2.2.1 ⟨stateRefs.db, none, none, some 0⟩ rfl).2.2
      dbutils.PlainStateBucket [1],
    rfl,
    ((UpdateSnapshots_swaps_one stateRefs
        (stateRefs.BeginRo (stateHeap [([1], [7])] [([1], [9])]) none).2
        "state" (some 1)).2.2.2.2.2.2.2.2.2.2.1
      (stateHeap [([1], [7])] [([1], [9])]) none ⟨stateRefs.db, none, none, some 0⟩
      (Or.inl rfl)).2,
    rfl,
    ((UpdateSnapshots_swaps_one stateRefs
        (stateRefs.BeginRo (stateHeap [([1], [7])] [([1], [9])]) none).2
        "state" (some 1)).2.2.2.2.2.2.2.2.2.2.2.1
      none ⟨stateRefs.db, none, none, some 1⟩ _ (Or.inl rfl)).2,
    rfl⟩

/-- What protects a transaction at a swap is that its store counts it as open. With no
transaction open on the store at pointer 0, the goroutine of `UpdateSnapshots` shuts the
store, and a transaction that only holds the pointer can no longer read from it. -/
theorem UpdateSnapshots_shuts_idle_store :
    snTXRefs.isOpen ⟨stateRefs.db, none, none, some 0⟩
        (stateHeap [([1], [7])] [([1], [9])]) = false
      ∧ snTXRefs.GetOne ⟨stateRefs.db, none, none, some 0⟩
          (stateHeap [([1], [7])] [([1], [9])]) dbutils.PlainStateBucket [1] = .ok (some [7])
      ∧ snTXRefs.GetOne ⟨stateRefs.db, none, none, some 0⟩
          (SnapshotKV.UpdateSnapshots stateRefs (stateHeap [([1], [7])] [([1], [9])])
            "state" (some 1)).2.1 dbutils.PlainStateBucket [1]
        = .error (Err.other "store is closed") :=
  ⟨rfl, rfl, rfl⟩

/-! ## Lemmas on stage progress -/

theorem stages.unmarshal_marshal (n : Nat) (hn : n < 2 ^ 64) :
    stages.unmarshalData (some (stages.marshalData n)) = .ok n := by
  have h : ((stages.marshalData n).take 8).foldl (fun acc b => acc * 256 + b) 0 = n := by
    simp only [stages.marshalData, List.take, List.foldl]
    omega
  simp only [stages.unmarshalData, len, Option.getD_some, h]
  simp [stages.marshalData]

theorem stages.get_after_save (db : KvTx) (stage : String) (n : Nat) :
    ((stages.SaveStageProgress db stage n).2.buckets stages.SyncStageProgress).get
        (stages.stageKey stage) = some (stages.marshalData n) := by
  simp [stages.SaveStageProgress, KvTx.Put, KvTx.setBucket, Store.get_put_self]

theorem stages.progress_after_save (db : KvTx) (stage : String) (n : Nat) (hn : n < 2 ^ 64) :
    stages.GetStageProgress (stages.SaveStageProgress db stage n).2 stage = .ok n := by
  simp only [stages.GetStageProgress, KvTx.GetOne, stages.get_after_save]
  exact stages.unmarshal_marshal n hn

/-- C19, on the progress registry as the spec describes it. For every stage state `s` and
every block number `n` below 2^64, `s.Update(tx, n)` succeeds, reading the progress of
`s.ID` in the same transaction returns `n`, and the value stored under the stage ID in
the progress bucket has 8 bytes that are the big-endian digits of `n` in base 256
(1000000 is stored as 00 00 00 00 00 0F 42 40). `ExecutionAt` is the stored progress of
stage Execution for every stage state. -/
theorem Update_progress_roundtrip (s : StageState) (db : KvTx) (n : Nat) (hn : n < 2 ^ 64) :
    (s.Update db n).1 = none
      ∧ stages.GetStageProgress (s.Update db n).2 s.ID = .ok n
      ∧ (∃ b, ((s.Update db n).2.buckets stages.SyncStageProgress).get
            (stages.stageKey s.ID) = some b
          ∧ b.length = 8 ∧ (∀ x ∈ b, x < 256)
          ∧ b.foldl (fun acc x => acc * 256 + x) 0 = n)
      ∧ stages.marshalData 1000000 = [0, 0, 0, 0, 0, 15, 66, 64]
      ∧ (∀ s1 : StageState, s1.ExecutionAt db = stages.GetStageProgress db stages.Execution)
      ∧ (∀ s1 : StageState,
          s1.ExecutionAt (stages.SaveStageProgress db stages.Execution n).2 = .ok n) := by
  refine ⟨rfl, stages.progress_after_save db s.ID n hn, ?_, by decide, fun _ => rfl, ?_⟩
  · refine ⟨stages.marshalData n, stages.get_after_save db s.ID n, rfl, ?_, ?_⟩
    · intro x hx
      simp only [stages.marshalData, List.mem_cons, List.mem_singleton, List.not_mem_nil,
        or_false] at hx
      rcases hx with hx | hx | hx | hx | hx | hx | hx | hx <;> omega
    · simp only [stages.marshalData, List.foldl]
      omega
  · intro s1
    exact stages.progress_after_save db stages.Execution n hn

/-- Witness of `Update_progress_roundtrip`, scenario 4 of the spec: progress 1000000 of
stage Execution. -/
theorem Update_progress_roundtrip_witness :
    stages.GetStageProgress
        ((StageState.mk stages.Execution 0).Update (KvTx.single otherBucket []) 1000000).2
        stages.Execution = .ok 1000000
      ∧ stages.marshalData 1000000 = [0, 0, 0, 0, 0, 15, 66, 64] :=
  ⟨(Update_progress_roundtrip (StageState.mk stages.Execution 0) (KvTx.single otherBucket [])
      1000000 (by decide)).2.1,
    (Update_progress_roundtrip (StageState.mk stages.Execution 0) (KvTx.single otherBucket [])
      1000000 (by decide)).2.2.2.1⟩

/-- C20 fails when the unwind point is above the progress. With progress 3 and unwind
point 5 given in an external transaction, `UnwindBlockHashStage` returns nil and the
persisted progress is 5, which is not at most 3; `UnwindTxLookup` returns nil as well and
the persisted progress is still 3, not 5. -/
theorem Unwind_above_progress :
    stages.GetStageProgress (stages.SaveStageProgress (KvTx.single otherBucket [])
        stages.TxLookup 3).2 stages.TxLookup = .ok 3
      ∧ (UnwindBlockHashStage ⟨stages.TxLookup, 5, 3⟩
          (some (stages.SaveStageProgress (KvTx.single otherBucket []) stages.TxLookup 3).2)
          ⟨KvTx.single otherBucket [], none, none⟩).1 = none
      ∧ stages.GetStageProgress (persisted (UnwindBlockHashStage ⟨stages.TxLookup, 5, 3⟩
          (some (stages.SaveStageProgress (KvTx.single otherBucket []) stages.TxLookup 3).2)
          ⟨KvTx.single otherBucket [], none, none⟩)) stages.TxLookup = .ok 5
      ∧ ¬ (5 ≤ 3)
      ∧ (UnwindTxLookup ⟨stages.TxLookup, 5, 3⟩ ⟨stages.TxLookup, 3⟩
          (some (stages.SaveStageProgress (KvTx.single otherBucket []) stages.TxLookup 3).2)
          ⟨KvTx.single otherBucket [], none, none⟩ (fun t => (none, t))).1 = none
      ∧ stages.GetStageProgress (persisted (UnwindTxLookup ⟨stages.TxLookup, 5, 3⟩
          ⟨stages.TxLookup, 3⟩
          (some (stages.SaveStageProgress (KvTx.single otherBucket []) stages.TxLookup 3).2)
          ⟨KvTx.single otherBucket [], none, none⟩ (fun t => (none, t)))) stages.TxLookup
        = .ok 3 := by
  refine ⟨rfl, rfl, rfl, by decide, rfl, rfl⟩

theorem stageCommit_progress (tx : Option KvTx) (t : KvTx) (db : RwKV) (wrap : Err → Err)
    (stage : String) (n : Nat) (hp : stages.GetStageProgress t stage = .ok n)
    (hok : (stageCommit tx t db wrap).1 = none) :
    stages.GetStageProgress (persisted (stageCommit tx t db wrap)) stage = .ok n := by
  unfold stageCommit at hok ⊢
  cases tx with
  | some t0 => exact hp
  | none =>
    cases hc : db.commitErr with
    | none => exact hp
    | some e =>
      rw [hc] at hok
      exact absurd hok (by simp)

/-- C20 as amended. Let `P` be the persisted progress of the stage at entry, equal to
`s.BlockNumber`, and let the unwind point `U` be at most `P` (and a 64-bit number). When
`UnwindBlockHashStage`, `UnwindBodiesSnapshotGenerationStage` or `UnwindTxLookup` returns
nil, the persisted progress of the stage is `U`: in the external transaction when one was
given, else in the store. -/
theorem Unwind_sets_progress (u : UnwindState) (s : StageState) (tx : Option KvTx)
    (db : RwKV) (unwindTxLookup : KvTx → Option Err × KvTx) (P : Nat)
    (hU : u.UnwindPoint < 2 ^ 64) (hUP : u.UnwindPoint ≤ P)
    (hentry : stages.GetStageProgress (persisted (none, tx, db)) u.ID = .ok P)
    (hs : s.BlockNumber = P) :
    ((UnwindBlockHashStage u tx db).1 = none →
        stages.GetStageProgress (persisted (UnwindBlockHashStage u tx db)) u.ID
          = .ok u.UnwindPoint)
      ∧ ((UnwindBodiesSnapshotGenerationStage u tx db).1 = none →
        stages.GetStageProgress (persisted (UnwindBodiesSnapshotGenerationStage u tx db)) u.ID
          = .ok u.UnwindPoint)
      ∧ ((UnwindTxLookup u s tx db unwindTxLookup).1 = none →
        stages.GetStageProgress (persisted (UnwindTxLookup u s tx db unwindTxLookup)) u.ID
          = .ok u.UnwindPoint) := by
  have hdone : ∀ t, (u.Done t).1 = none
      ∧ stages.GetStageProgress (u.Done t).2 u.ID = .ok u.UnwindPoint := fun t =>
    ⟨rfl, stages.progress_after_save t u.ID u.UnwindPoint hU⟩
  refine ⟨?_, ?_, ?_⟩
  · intro hok
    unfold UnwindBlockHashStage at hok ⊢
    cases ht : stageTx tx db with
    | error e =>
      rw [ht] at hok
      exact absurd hok (by simp)
    | ok t =>
      rw [ht] at hok
      simp only [(hdone t).1] at hok ⊢
      exact stageCommit_progress tx _ db _ u.ID _ (hdone t).2 hok
  · intro hok
    unfold UnwindBodiesSnapshotGenerationStage at hok ⊢
    cases ht : stageTx tx db with
    | error e =>
      rw [ht] at hok
      exact absurd hok (by simp)
    | ok t =>
      rw [ht] at hok
      simp only [(hdone t).1] at hok ⊢
      exact stageCommit_progress tx _ db _ u.ID _ (hdone t).2 hok
  · intro hok
    unfold UnwindTxLookup at hok ⊢
    by_cases hle : s.BlockNumber ≤ u.UnwindPoint
    · simp only [hle, if_true]
      have : u.UnwindPoint = P := by omega
      rw [this]
      exact hentry
    · simp only [hle, if_false] at hok ⊢
      cases ht : stageTx tx db with
      | error e =>
        rw [ht] at hok
        exact absurd hok (by simp)
      | ok t =>
        rw [ht] at hok
        simp only at hok ⊢
        rcases hb : unwindTxLookup t with ⟨err, t1⟩
        rw [hb] at hok
        cases err with
        | some e => exact absurd hok (by simp [stageFail])
        | none =>
          simp only [(hdone t1).1] at hok ⊢
          exact stageCommit_progress tx _ db _ u.ID _ (hdone t1).2 hok

/-- Witness of `Unwind_sets_progress`: progress 7 of stage TxLookup in an external
transaction, unwind point 5. -/
theorem Unwind_sets_progress_witness :
    stages.GetStageProgress (persisted (UnwindTxLookup ⟨stages.TxLookup, 5, 7⟩
        ⟨stages.TxLookup, 7⟩
        (some (stages.SaveStageProgress (KvTx.single otherBucket []) stages.TxLookup 7).2)
        ⟨KvTx.single otherBucket [], none, none⟩ (fun t => (none, t)))) stages.TxLookup
      = .ok 5 :=
  (Unwind_sets_progress ⟨stages.TxLookup, 5, 7⟩ ⟨stages.TxLookup, 7⟩
    (some (stages.SaveStageProgress (KvTx.single otherBucket []) stages.TxLookup 7).2)
    ⟨KvTx.single otherBucket [], none, none⟩ (fun t => (none, t)) 7
    (by decide) (by decide) rfl rfl).2.2 rfl

/-! ## Forward stages and stage commands -/

theorem uint64Sub_of_le (a b : Nat) (ha : a < 2 ^ 64) (hb : b ≤ a) : uint64Sub a b = a - b := by
  unfold uint64Sub
  have h1 : b % 2 ^ 64 = b := Nat.mod_eq_of_lt (lt_of_le_of_lt hb ha)
  rw [h1]
  have h2 : a + 2 ^ 64 - b = (a - b) + 2 ^ 64 := by omega
  rw [h2, Nat.add_mod_right]
  exact Nat.mod_eq_of_lt (lt_of_le_of_lt (Nat.sub_le a b) ha)

/-- C22, for a store whose `BeginRw` and `Commit` do not fail and whose persisted Bodies
progress is `P`. `stageBodies` with `--unwind N`, `N > 0`, fails exactly when `N > P`.
When `N > P` the error is "cannot unwind past 0" and the store is left as it was, so the
progress stays `P`; when `N ≤ P` it returns nil and the persisted Bodies progress is
`P - N`. -/
theorem stageBodies_unwind (db : RwKV) (P N : Nat)
    (hb : db.beginErr = none) (hc : db.commitErr = none)
    (hP : stages.GetStageProgress db.content stages.Bodies = .ok P)
    (hP64 : P < 2 ^ 64) (hN : 0 < N) :
    ((stageBodies db N).1 ≠ none ↔ P < N)
      ∧ (P < N → stageBodies db N = (some (Err.other "cannot unwind past 0"), db))
      ∧ (N ≤ P → (stageBodies db N).1 = none
          ∧ stages.GetStageProgress (stageBodies db N).2.content stages.Bodies
            = .ok (P - N)) := by
  have hfail : P < N → stageBodies db N = (some (Err.other "cannot unwind past 0"), db) := by
    intro h
    simp [stageBodies, RwKV.Update, hb, hN, hP, h]
  have hsucc : N ≤ P → (stageBodies db N).1 = none
      ∧ stages.GetStageProgress (stageBodies db N).2.content stages.Bodies = .ok (P - N) := by
    intro h
    have hnot : ¬ P < N := not_lt_of_le h
    have hsub := uint64Sub_of_le P N hP64 h
    have hlt : P - N < 2 ^ 64 := lt_of_le_of_lt (Nat.sub_le P N) hP64
    have hre := stages.progress_after_save db.content stages.Bodies (P - N) hlt
    have hsave : (stages.SaveStageProgress db.content stages.Bodies (P - N)).1 = none := rfl
    simp only [stageBodies, RwKV.Update, hb, hc, hN, hP, hnot, hsub, gt_iff_lt, if_true,
      if_false, hsave, hre]
    trivial
  refine ⟨?_, hfail, hsucc⟩
  constructor
  · intro h
    by_contra hn
    exact h (hsucc (not_lt.mp hn)).1
  · intro h
    rw [hfail h]
    simp

/-- Witness of `stageBodies_unwind`, scenario 3 of the spec: Bodies progress 10 and
`--unwind 11` fails with the store unchanged; `--unwind 4` leaves progress 6. -/
theorem stageBodies_unwind_witness :
    stageBodies (progressStore [(stages.Bodies, 10)]) 11
        = (some (Err.other "cannot unwind past 0"), progressStore [(stages.Bodies, 10)])
      ∧ stages.GetStageProgress (stageBodies (progressStore [(stages.Bodies, 10)]) 4).2.content
          stages.Bodies = .ok (10 - 4) :=
  ⟨(stageBodies_unwind (progressStore [(stages.Bodies, 10)]) 10 11 rfl rfl rfl (by decide)
      (by decide)).2.1 (by decide),
    ((stageBodies_unwind (progressStore [(stages.Bodies, 10)]) 10 4 rfl rfl rfl (by decide)
      (by decide)).2.2 (by decide)).2⟩

/-- C23, at a failing input. The TxLookup stage has progress 3 and the command runs with
`--unwind 5`. The unwind point handed to `UnwindTxLookup` is 3 - 5 modulo 2^64, that is
18446744073709551614, which exceeds the progress 3; `stageTxLookup` returns nil instead
of failing, and the persisted progress is still 3. -/
theorem stageTxLookup_unwind_wraps :
    (NewUnwindState stages.TxLookup (uint64Sub 3 5) 3).UnwindPoint = 18446744073709551614
      ∧ ¬ ((NewUnwindState stages.TxLookup (uint64Sub 3 5) 3).UnwindPoint ≤ 3)
      ∧ (stageTxLookup (progressStore [(stages.TxLookup, 3)]) 5 false (fun t => (none, t))
          (fun _ _ t => (none, t)) (fun t => (none, t))).1 = none
      ∧ stages.GetStageProgress (stageTxLookup (progressStore [(stages.TxLookup, 3)]) 5 false
          (fun t => (none, t)) (fun _ _ t => (none, t)) (fun t => (none, t))).2.content
          stages.TxLookup = .ok 3 := by
  refine ⟨by decide, by decide, rfl, rfl⟩

/-- C26. When the progress `s.BlockNumber` of the TxLookup stage is at most the unwind
point, `UnwindTxLookup` returns nil and hands back the external transaction and the
store as they were, whatever `BeginRw` on the store would answer: no transaction is
opened, no entry and no progress is changed. When the progress is above the unwind point
`U` (a 64-bit number) and the function returns nil, the persisted progress is `U`. -/
theorem UnwindTxLookup_skip_or_set (u : UnwindState) (s : StageState) (tx : Option KvTx)
    (db : RwKV) (unwindTxLookup : KvTx → Option Err × KvTx)
    (hU : u.UnwindPoint < 2 ^ 64) :
    (s.BlockNumber ≤ u.UnwindPoint →
        UnwindTxLookup u s tx db unwindTxLookup = (none, tx, db)
          ∧ ∀ e, UnwindTxLookup u s tx { db with beginErr := some e } unwindTxLookup
              = (none, tx, { db with beginErr := some e }))
      ∧ (u.UnwindPoint < s.BlockNumber →
        (UnwindTxLookup u s tx db unwindTxLookup).1 = none →
        stages.GetStageProgress (persisted (UnwindTxLookup u s tx db unwindTxLookup)) u.ID
          = .ok u.UnwindPoint) := by
  refine ⟨?_, ?_⟩
  · intro h
    constructor
    · simp [UnwindTxLookup, h]
    · intro e
      simp [UnwindTxLookup, h]
  · intro h hok
    have hle : ¬ s.BlockNumber ≤ u.UnwindPoint := not_le_of_lt h
    unfold UnwindTxLookup at hok ⊢
    simp only [hle, if_false] at hok ⊢
    cases ht : stageTx tx db with
    | error e =>
      rw [ht] at hok
      exact absurd hok (by simp)
    | ok t =>
      rw [ht] at hok
      simp only at hok ⊢
      rcases hb : unwindTxLookup t with ⟨err, t1⟩
      rw [hb] at hok
      cases err with
      | some e => exact absurd hok (by simp [stageFail])
      | none =>
        have hd : (u.Done t1).1 = none := rfl
        simp only [hd] at hok ⊢
        exact stageCommit_progress tx _ db _ u.ID _
          (stages.progress_after_save t1 u.ID u.UnwindPoint hU) hok

/-- Witness of `UnwindTxLookup_skip_or_set`: progress 3 and unwind point 5 change
nothing; progress 7 and unwind point 5 leave progress 5. -/
theorem UnwindTxLookup_skip_or_set_witness :
    UnwindTxLookup ⟨stages.TxLookup, 5, 3⟩ ⟨stages.TxLookup, 3⟩ none
        (progressStore [(stages.TxLookup, 3)]) (fun t => (none, t))
        = (none, none, progressStore [(stages.TxLookup, 3)])
      ∧ stages.GetStageProgress (persisted (UnwindTxLookup ⟨stages.TxLookup, 5, 7⟩
          ⟨stages.TxLookup, 7⟩ none (progressStore [(stages.TxLookup, 7)])
          (fun t => (none, t)))) stages.TxLookup = .ok 5 :=
  ⟨((UnwindTxLookup_skip_or_set ⟨stages.TxLookup, 5, 3⟩ ⟨stages.TxLookup, 3⟩ none
      (progressStore [(stages.TxLookup, 3)]) (fun t => (none, t)) (by decide)).1
      (by decide)).1,
    (UnwindTxLookup_skip_or_set ⟨stages.TxLookup, 5, 7⟩ ⟨stages.TxLookup, 7⟩ none
      (progressStore [(stages.TxLookup, 7)]) (fun t => (none, t)) (by decide)).2
      (by decide) rfl⟩

/-! ## Walks, termination and `extractHeaders` -/

/-- C24, at a failing input. Both child cursors belong to a store that fails: every call
returns an I/O error. `Seek` on the merged cursor returns that error with a nil key, and
`ForEach`, `ForPrefix` and `ForAmount` return nil, the result of a walk that found
nothing, without calling the walker. -/
theorem walks_drop_cursor_error :
    (snCursor.Seek (failingOps (Err.other "i/o error")) [1] ⟨(), (), none⟩).1
        = Res.fail (Err.other "i/o error")
      ∧ snCursor.ForEach (failingOps (Err.other "i/o error")) 1 1 [1] (fun _ _ => none)
          ⟨(), (), none⟩ = some (none, [])
      ∧ snCursor.ForPrefix (failingOps (Err.other "i/o error")) 1 1 [1] (fun _ _ => none)
          ⟨(), (), none⟩ = some (none, [])
      ∧ snCursor.ForAmount (failingOps (Err.other "i/o error")) 1 1 [1] 3 (fun _ _ => none)
          ⟨(), (), none⟩ = some (none, []) := by
  refine ⟨rfl, rfl, rfl, rfl⟩

theorem snCursor.skipDeleted_stuck {σ : Type} (ops : CursorOps σ) (s : snCursor σ) (r : Res)
    (hit : s.iteration ops ops.Next ops.Next KeyCmp = (r, s)) (he : r.err = none)
    (hd : bytesEqual r.v DeletedValue = true) :
    ∀ fuel, snCursor.skipDeleted ops fuel r s = none := by
  intro fuel
  induction fuel with
  | zero =>
    unfold snCursor.skipDeleted
    simp [hd]
  | succ n ih =>
    unfold snCursor.skipDeleted
    simp only [hd, if_true, hit, he]
    exact ih

theorem snCursor.skipBackward_stuck {σ : Type} (ops : CursorOps σ) (s : snCursor σ) (r : Res)
    (hit : s.iteration ops ops.Prev ops.Prev snCursor.backwardCmp = (r, s))
    (he : r.err = none)
    (hd : bytesEqual r.v DeletedValue = true ∨ (KeyCmpBackward r.k s.currentKey).1 ≥ 0) :
    ∀ fuel, snCursor.skipBackward ops fuel r s = none := by
  intro fuel
  induction fuel with
  | zero =>
    unfold snCursor.skipBackward
    simp [hd]
  | succ n ih =>
    unfold snCursor.skipBackward
    simp only [hd, if_true, hit, he]
    exact ih

/-- C25, at two failing inputs. (a) The hot store holds the tombstone under key 01, which
the snapshot {02 -> 08} does not contain and which sorts before its keys: the walk with
`First` and `Next` yields (01, 00), (02, 08), while without key 01 it yields (02, 08).
(b) The hot store holds 01 -> 01 and the tombstone under key 03, the snapshot holds
02 -> 02, so the tombstoned key sorts after the snapshot's keys: after `First` and one
`Next` the cursor has returned 01 and 02, and the next `Next` never returns, whatever
fuel its loop is given. -/
theorem Next_tombstone_outside_snapshot :
    (mergedCursor [([1], [0])] [([2], [8])]).walkForward kvOps 4 4
        = some [([1], some [0]), ([2], some [8])]
      ∧ (mergedCursor [] [([2], [8])]).walkForward kvOps 4 4 = some [([2], some [8])]
      ∧ ((mergedCursor [([1], [1]), ([3], [0])] [([2], [2])]).First kvOps).1
        = ⟨some [1], some [1], none⟩
      ∧ ((mergedCursor [([1], [1]), ([3], [0])] [([2], [2])]).First kvOps).2.Next kvOps 0
        = some (⟨some [2], some [2], none⟩,
            ⟨⟨[([1], [1]), ([3], [0])], some 1⟩, ⟨[([2], [2])], some 0⟩, some [2]⟩)
      ∧ ∀ fuel, snCursor.Next kvOps fuel
          ⟨⟨[([1], [1]), ([3], [0])], some 1⟩, ⟨[([2], [2])], some 0⟩, some [2]⟩ = none := by
  refine ⟨by decide, by decide, by decide, rfl, ?_⟩
  intro fuel
  have hit : snCursor.iteration kvOps
      ⟨⟨[([1], [1]), ([3], [0])], some 1⟩, ⟨[([2], [2])], some 0⟩, some [2]⟩
      kvOps.Next kvOps.Next KeyCmp
      = (⟨some [3], some [0], none⟩,
          ⟨⟨[([1], [1]), ([3], [0])], some 1⟩, ⟨[([2], [2])], some 0⟩, some [2]⟩) := by
    rfl
  unfold snCursor.Next
  simp only [hit]
  exact snCursor.skipDeleted_stuck kvOps _ _ hit rfl rfl fuel

/-- C27, at a failing input. On a merged cursor that has returned no key yet, over an
empty hot store and an empty snapshot, `Prev` never returns, whatever fuel its loop is
given: `iteration` returns a nil key, `KeyCmpBackward` of two nil keys is 0, and the loop
goes on while that number is at least 0. -/
theorem Prev_never_returns :
    (KeyCmpBackward none none).1 = 0
      ∧ ∀ fuel, snCursor.Prev kvOps fuel (mergedCursor [] []) = none := by
  refine ⟨rfl, ?_⟩
  intro fuel
  have hit : snCursor.iteration kvOps (mergedCursor [] []) kvOps.Prev kvOps.Prev
      snCursor.backwardCmp = (Res.nil, mergedCursor [] []) := by
    rfl
  unfold snCursor.Prev
  simp only [hit]
  exact snCursor.skipBackward_stuck kvOps _ _ hit rfl (Or.inr (by decide)) fuel

/-- C28, at a failing input. The headers and the state snapshot are configured and
`BeginRo` on the state snapshot fails. `SnapshotKV.BeginRo` and `BeginRw` return that
error; the headers transaction that was open is rolled back, but the hot transaction,
begun first, is not: no `Rollback` is called on it. -/
theorem BeginRo_leaves_hot_open :
    SnapshotKV.BeginRo
        ⟨KvTx.single otherBucket [], some (KvTx.single otherBucket []), none,
          some (KvTx.single otherBucket [])⟩
        ⟨none, none, none, some (Err.other "i/o error"), none⟩
      = (.error (Err.other "i/o error"),
          [TxEvent.beginTx StoreId.db, TxEvent.beginTx StoreId.headers,
            TxEvent.rollbackTx StoreId.headers])
      ∧ SnapshotKV.BeginRw
        ⟨KvTx.single otherBucket [], some (KvTx.single otherBucket []), none,
          some (KvTx.single otherBucket [])⟩
        ⟨none, none, none, some (Err.other "i/o error"), none⟩
      = (.error (Err.other "i/o error"),
          [TxEvent.beginTx StoreId.db, TxEvent.beginTx StoreId.headers,
            TxEvent.rollbackTx StoreId.headers])
      ∧ TxEvent.rollbackTx StoreId.db ∉
          [TxEvent.beginTx StoreId.db, TxEvent.beginTx StoreId.headers,
            TxEvent.rollbackTx StoreId.headers] := by
  refine ⟨rfl, rfl, by decide⟩

/-- C29, at a failing input. The hot store holds the tombstone under key 01 and the
snapshot holds 01 -> 07, in bucket PlainState. No live entry of the merged view has a key
that starts with 01, yet `ForPrefix` with prefix 01 calls the walker once, with key 01
and the tombstone value 00. -/
theorem ForPrefix_hands_tombstone :
    (stateOverlay [([1], [0])] [([1], [7])]).ForPrefix 4 4 dbutils.PlainStateBucket [1]
        (fun _ _ => none) = some (none, [([1], DeletedValue)])
      ∧ (mergedView [([1], [0])] [([1], [7])]).filter (fun e => bytesHasPrefix e.1 [1])
        = [] := by
  refine ⟨rfl, by decide⟩

/-- C30. For a key `k` of length 40, `extractHeaders(k, v, next)` calls `next` exactly
once, with `k` as the original key, the last 32 bytes of `k` as the key and the first 8
bytes of `k` as the value, and returns what `next` returns. For a key of any other
length, nil included, it returns nil and does not call `next`. The value `v` does not
matter. -/
theorem extractHeaders_spec (k v w : Slice) (next : Slice → Slice → Slice → Option Err) :
    (len k = 40 →
        ∃ key, k = some key
          ∧ extractHeaders k v next
            = (next k (some (key.drop (key.length - 32))) (some (key.take 8)),
                [(k, some (key.drop (key.length - 32)), some (key.take 8))])
          ∧ (key.drop (key.length - 32)).length = 32
          ∧ (key.take 8).length = 8
          ∧ key.take 8 ++ key.drop (key.length - 32) = key)
      ∧ (len k ≠ 40 → extractHeaders k v next = (none, []))
      ∧ extractHeaders k v next = extractHeaders k w next := by
  refine ⟨?_, ?_, rfl⟩
  · intro h
    cases k with
    | none => simp [len] at h
    | some key =>
      have hl : key.length = 40 := h
      refine ⟨key, rfl, ?_, ?_, ?_, ?_⟩
      · simp [extractHeaders, len, hl, CopyBytes]
      · simp [hl]
      · simp [hl]
      · simp [hl]
  · intro h
    simp [extractHeaders, h]

/-- Witness of `extractHeaders_spec`: a key of 40 bytes, block number bytes 1 to 8
followed by 32 hash bytes. -/
theorem extractHeaders_spec_witness :
    (extractHeaders (some ([1, 2, 3, 4, 5, 6, 7, 8] ++ List.replicate 32 9)) none
        (fun _ _ _ => none)).2
      = [(some ([1, 2, 3, 4, 5, 6, 7, 8] ++ List.replicate 32 9),
          some (List.replicate 32 9), some [1, 2, 3, 4, 5, 6, 7, 8])]
      ∧ extractHeaders (some [1, 2, 3]) none (fun _ _ _ => some (Err.other "next"))
        = (none, []) := by
  exact ⟨by decide,
    (extractHeaders_spec (some [1, 2, 3]) none none
      (fun _ _ _ => some (Err.other "next"))).2.1 (by decide)⟩

end Erigon
